import Mathlib

/-!
# Verification of the STX WhatsApp payment bot's conversational core

This file is a shallow embedding, in Lean 4, of the message parsing,
validation, routing and two-phase confirmation logic of the
`stx-whatsapp-payment-bot` repository, together with theorems settling the
frozen claims about it.

Strings are embedded as lists of UTF-16 code units (`List Nat`), matching
the JavaScript string model; the ASCII fragments of `toLowerCase`,
`toUpperCase`, `trim` and the regular expressions actually used by the
source are translated into executable Lean functions.  Stateful code is
embedded by explicit state passing over a `World` record; external
collaborators (the Stacks ledger gateway, the messaging gateway) are
oracles carried in an `Env` record.  Floating-point behaviour relevant to
the unit-conversion claim is embedded by an exact rational model of
IEEE-754 binary64 round-to-nearest-even.
-/

section RatKernelEval
/- The Batteries rational primitives are `irreducible` by default, which
blocks kernel evaluation of concrete worlds; the shallow embedding is
executable, so re-allow unfolding them for `decide`. -/
attribute [local semireducible] Rat.add Rat.mul Rat.inv

namespace StxBot

/-- JavaScript strings as lists of UTF-16 code units. -/
abbrev LC := List Nat

/-- Embed a Lean string literal as a list of code units. -/
def lit (s : String) : LC := s.data.map Char.toNat

/-- One-to-one fragment of JavaScript `String.prototype.toLowerCase` on
one code unit.  It is exact on ASCII (where Unicode lowercasing is the
simple `A–Z → a–z` map); code units outside ASCII are left fixed, so
universal statements about case mapping below are quantified over ASCII
strings only (the dispatcher only ever compares ASCII keywords). -/
def lowerUnit (n : Nat) : Nat := if 65 ≤ n ∧ n ≤ 90 then n + 32 else n

/-- One-to-one fragment of JavaScript `String.prototype.toUpperCase` on
one code unit: exact on ASCII, identity elsewhere (see `upperUnits` for
the one-to-many special casing that full Unicode uppercasing adds). -/
def upperUnit (n : Nat) : Nat := if 97 ≤ n ∧ n ≤ 122 then n - 32 else n

/-- Full-case-mapping `toUpperCase` of one code unit, as a list of code
units: ECMAScript uppercasing is one-to-many (`"ß".toUpperCase()` is
`"SS"`).  Modelled exactly on ASCII and on U+00DF; other units are left
fixed. -/
def upperUnits (n : Nat) : List Nat :=
  if n = 223 then [83, 83] else [upperUnit n]

/-- JavaScript `toLowerCase` over a whole string. -/
def jsLower (s : LC) : LC := s.map lowerUnit

/-- Whitespace class used by JavaScript `trim` and by the regex class
`\s` (ASCII fragment: tab, line feed, vertical tab, form feed, carriage
return, space). -/
def isWsU (n : Nat) : Bool := n = 9 || n = 10 || n = 11 || n = 12 || n = 13 || n = 32

/-- JavaScript `String.prototype.trim`: strip whitespace at both ends. -/
def jsTrim (s : LC) : LC :=
  ((s.dropWhile isWsU).reverse.dropWhile isWsU).reverse

/-- ASCII decimal digit test (regex class `\d`). -/
def isDigitU (n : Nat) : Bool := 48 ≤ n && n ≤ 57

/-- Regex class `[0-9A-Z]` (body of a Stacks address). -/
def isUpAlnumU (n : Nat) : Bool := (48 ≤ n && n ≤ 57) || (65 ≤ n && n ≤ 90)

/-- The regex `.` metacharacter: any code unit except a line terminator
(ASCII fragment: everything except LF and CR). -/
def isDotU (n : Nat) : Bool := !(n = 10 || n = 13)

/-- Case-insensitive literal match: if `s` starts (case-insensitively)
with `kw`, return the rest of `s`. -/
def ciLit : LC → LC → Option LC
  | [], s => some s
  | _ :: _, [] => none
  | k :: ks, c :: cs => if lowerUnit c = lowerUnit k then ciLit ks cs else none

/-- JavaScript `startsWith` (case-sensitive; the source always applies it
to an already lower-cased message). -/
def startsW (s kw : LC) : Bool := kw.isPrefixOf s

/-- JavaScript `includes` (substring test). -/
def includesSub : LC → LC → Bool
  | s, sub =>
    match s with
    | [] => sub.isEmpty
    | _ :: rest => sub.isPrefixOf s || includesSub rest sub

/-- Numeric value of a list of decimal digits. -/
def digitsVal (ds : LC) : Nat := ds.foldl (fun a d => a * 10 + (d - 48)) 0

/-- Exact value of a decimal literal `ip.fp` as produced by JavaScript
`parseFloat` on a token matched by `\d+(\.\d+)?` (the tokens staged by the
handlers are small enough that the double value is exact). -/
def decVal (ip fp : LC) : ℚ :=
  (digitsVal ip : ℚ) + (digitsVal fp : ℚ) / (10 : ℚ) ^ fp.length

/-- Greedy `\d+(?:\.\d+)?`: parse a decimal number at the head of the
input, returning its value and the rest. -/
def matchNumber (s : LC) : Option (ℚ × LC) :=
  let ip := s.takeWhile isDigitU
  let r1 := s.drop ip.length
  if ip.isEmpty then none
  else
    match r1 with
    | 46 :: r2 =>
      let fp := r2.takeWhile isDigitU
      if fp.isEmpty then some (decVal ip [], r1)
      else some (decVal ip fp, r2.drop fp.length)
    | _ => some (decVal ip [], r1)

/-- Greedy `\d+`: parse a natural number at the head of the input. -/
def matchNat (s : LC) : Option (Nat × LC) :=
  let ip := s.takeWhile isDigitU
  if ip.isEmpty then none else some (digitsVal ip, s.drop ip.length)

/-- Consume the maximal whitespace run, returning its length and the
rest.  Used for `\s+` / `\s*` wherever the following regex atom cannot
match a whitespace character, which makes the greedy quantifier
deterministic. -/
def wsRun (s : LC) : Nat × LC :=
  let w := s.takeWhile isWsU
  (w.length, s.drop w.length)

/-- Greedy `(.+)` with no following atom: the maximal nonempty run of
non-line-terminator units starting here. -/
def capDotPlus (s : LC) : Option LC :=
  let p := s.takeWhile isDotU
  if p.isEmpty then none else some p

end StxBot

namespace StxBot

/-- Leftmost unanchored regex search: try the pattern at every start
position, earliest first (JavaScript `String.prototype.match` without
`^`). -/
def scanSuffixes {α : Type} (f : LC → Option α) : LC → Option α
  | [] => f []
  | c :: rest =>
    match f (c :: rest) with
    | some r => some r
    | none => scanSuffixes f rest

/-- `\s+(.+)` at the end of a pattern (payment send recipient): the
greedy `\s+` backtracks from its maximal length `k` down to 1 until the
remainder starts with a non-line-terminator, which the greedy `(.+)`
then captures maximally. -/
def wsCapAux (s : LC) : Nat → Option LC
  | 0 => none
  | j + 1 =>
    match capDotPlus (s.drop (j + 1)) with
    | some cap => some cap
    | none => wsCapAux s j

/-- `\s+(.+)` (see `wsCapAux`). -/
def wsThenCap (s : LC) : Option LC :=
  let (k, _) := wsRun s
  if k = 0 then none else wsCapAux s k

/-- `\s+to\s+(.+)` (tail of the send pattern after an `stx` token). -/
def tailToCap (s : LC) : Option LC :=
  let (k, t) := wsRun s
  if k = 0 then none
  else
    match ciLit (lit "to") t with
    | some z => wsThenCap z
    | none => none

/-- `\s*(?:stx)?\s+to\s+(.+)`, the tail of the payment handler's send
regex after the amount.  The greedy `\s*` first consumes the whole
whitespace run; `(?:stx)?` can only match right after it (it starts with
a non-whitespace unit); if the `stx` branch fails the only viable
backtrack is `(?:stx)?` empty with `\s*` shortened so that `\s+` can
consume at least one unit, which lands `to` at the same position. -/
def afterAmount (s : LC) : Option LC :=
  let (k, t) := wsRun s
  let noStx : Option LC :=
    if k = 0 then none
    else
      match ciLit (lit "to") t with
      | some z => wsThenCap z
      | none => none
  match ciLit (lit "stx") t with
  | some u =>
    match tailToCap u with
    | some cap => some cap
    | none => noStx
  | none => noStx

/-- The payment handler's send regex
`/send\s+(\d+(?:\.\d+)?)\s*(?:stx)?\s+to\s+(.+)/i` applied at one start
position. -/
def sendMatchAt (s : LC) : Option (ℚ × LC) :=
  match ciLit (lit "send") s with
  | none => none
  | some r1 =>
    let (k, r2) := wsRun r1
    if k = 0 then none
    else
      match matchNumber r2 with
      | none => none
      | some (a, r3) =>
        match afterAmount r3 with
        | none => none
        | some cap => some (a, cap)

/-- Unanchored leftmost match of the payment send regex, as used by
`handleSend` in the payment handler. -/
def sendMatch (msg : LC) : Option (ℚ × LC) := scanSuffixes sendMatchAt msg

/-- Alternation `(hour|hours|day|days)`: the first alternative `hour`
already matches whenever `hours` would, so the capture is decided by the
`hour`/`day` distinction alone, exactly what the handler's
`timeUnit.startsWith('hour')` test consumes. -/
inductive TimeUnit
  | hour
  | day
deriving DecidableEq

/-- `\s+for\s+(\d+)\s+(hour|hours|day|days)` (tail of the escrow create
regex).  Every greedy `\s+`/`\d+` here is deterministic because the
following atom cannot match the quantified class. -/
def forTail (s : LC) : Option (Nat × TimeUnit) :=
  let (k1, t1) := wsRun s
  if k1 = 0 then none
  else
    match ciLit (lit "for") t1 with
    | none => none
    | some u1 =>
      let (k2, t2) := wsRun u1
      if k2 = 0 then none
      else
        match matchNat t2 with
        | none => none
        | some (n, u2) =>
          let (k3, t3) := wsRun u2
          if k3 = 0 then none
          else
            match ciLit (lit "hour") t3 with
            | some _ => some (n, TimeUnit.hour)
            | none =>
              match ciLit (lit "day") t3 with
              | some _ => some (n, TimeUnit.day)
              | none => none

/-- Lazy `(.+?)` before `\s+for\s+…`: grow the capture one unit at a
time (shortest first), checking the tail after each unit. -/
def lazyRecip : LC → LC → Option (LC × Nat × TimeUnit)
  | _, [] => none
  | acc, c :: cs =>
    if isDotU c then
      match forTail cs with
      | some (n, u) => some (acc ++ [c], n, u)
      | none => lazyRecip (acc ++ [c]) cs
    else none

/-- The `\s+` before the lazy recipient capture backtracks from its
maximal length down to 1 (larger first). -/
def recipSearch (s : LC) : Nat → Option (LC × Nat × TimeUnit)
  | 0 => none
  | j + 1 =>
    match lazyRecip [] (s.drop (j + 1)) with
    | some r => some r
    | none => recipSearch s j

/-- `\s+(.+?)\s+for\s+(\d+)\s+(hour|hours|day|days)` after `to`. -/
def escrowRecipTail (s : LC) : Option (LC × Nat × TimeUnit) :=
  let (k, _) := wsRun s
  if k = 0 then none else recipSearch s k

/-- The escrow handler's create regex
`/escrow\s+(\d+(?:\.\d+)?)\s+to\s+(.+?)\s+for\s+(\d+)\s+(hour|hours|day|days)/i`
applied at one start position. -/
def escrowMatchAt (s : LC) : Option (ℚ × LC × Nat × TimeUnit) :=
  match ciLit (lit "escrow") s with
  | none => none
  | some r1 =>
    let (k1, r2) := wsRun r1
    if k1 = 0 then none
    else
      match matchNumber r2 with
      | none => none
      | some (a, r3) =>
        let (k2, r4) := wsRun r3
        if k2 = 0 then none
        else
          match ciLit (lit "to") r4 with
          | none => none
          | some r5 => (escrowRecipTail r5).map (fun p => (a, p))

/-- Unanchored leftmost match of the escrow create regex. -/
def escrowMatch (msg : LC) : Option (ℚ × LC × Nat × TimeUnit) :=
  scanSuffixes escrowMatchAt msg

/-- `/(verb)\s+escrow\s+#?(\d+)/i` at one start position (`verb` is
`release`, `refund` or `cancel`). -/
def verbEscrowIdAt (verb : LC) (s : LC) : Option Nat :=
  match ciLit verb s with
  | none => none
  | some r1 =>
    let (k1, r2) := wsRun r1
    if k1 = 0 then none
    else
      match ciLit (lit "escrow") r2 with
      | none => none
      | some r3 =>
        let (k2, r4) := wsRun r3
        if k2 = 0 then none
        else
          match r4 with
          | 35 :: r5 => (matchNat r5).map Prod.fst
          | _ => (matchNat r4).map Prod.fst

/-- Unanchored leftmost `/(verb)\s+escrow\s+#?(\d+)/i`. -/
def verbEscrowId (verb : LC) (msg : LC) : Option Nat :=
  scanSuffixes (verbEscrowIdAt verb) msg

/-- `/escrow\s+status\s+#?(\d+)/i` at one start position. -/
def escrowStatusIdAt (s : LC) : Option Nat :=
  match ciLit (lit "escrow") s with
  | none => none
  | some r1 =>
    let (k1, r2) := wsRun r1
    if k1 = 0 then none
    else
      match ciLit (lit "status") r2 with
      | none => none
      | some r3 =>
        let (k2, r4) := wsRun r3
        if k2 = 0 then none
        else
          match r4 with
          | 35 :: r5 => (matchNat r5).map Prod.fst
          | _ => (matchNat r4).map Prod.fst

/-- Unanchored leftmost `/escrow\s+status\s+#?(\d+)/i`. -/
def escrowStatusId (msg : LC) : Option Nat := scanSuffixes escrowStatusIdAt msg

end StxBot

namespace StxBot

/-- `/(SP|ST)[0-9A-Z]{38,40}/` at one start position: `S` (83) then `P`
(80) or `T` (84), then at least 38 units of `[0-9A-Z]`, taken greedily up
to 40. -/
def addrAt (s : LC) : Option LC :=
  match s with
  | 83 :: c2 :: rest =>
    if c2 = 80 || c2 = 84 then
      let run := rest.takeWhile isUpAlnumU
      if 38 ≤ run.length then some (83 :: c2 :: run.take 40) else none
    else none
  | _ => none

/-- Unanchored leftmost `/(SP|ST)[0-9A-Z]{38,40}/` (from
`isRegistrationMessage` in `parser.ts`). -/
def addrSearch (s : LC) : Option LC := scanSuffixes addrAt s

/-- `isValidSTXAddress` from `validator.ts`:
`/^(SP|ST)[0-9A-Z]{38,40}$/.test(address)`. -/
def isValidSTXAddress (s : LC) : Bool :=
  match s with
  | 83 :: c2 :: body =>
    (c2 = 80 || c2 = 84) && body.all isUpAlnumU &&
      (38 ≤ body.length && body.length ≤ 40)
  | _ => false

/-- `isValidAddress` from `stacks.service.js`: network dependent,
`/^SP[0-9A-Z]{38,41}$/` on mainnet and `/^ST[0-9A-Z]{38,41}$/`
otherwise. -/
def stacksIsValidAddress (mainnet : Bool) (s : LC) : Bool :=
  match s with
  | 83 :: c2 :: body =>
    (if mainnet then c2 = 80 else c2 = 84) && body.all isUpAlnumU &&
      (38 ≤ body.length && body.length ≤ 41)
  | _ => false

/-- `validateStxAddress` from `validator.js` (the `valid` field): trim,
require length exactly 41, then the `SP`/`ST` head, then
`/^[0-9A-Z]+$/` over the remaining 39 units. -/
def validateStxAddressValid (s : LC) : Bool :=
  let c := jsTrim s
  c.length = 41 &&
    (startsW c (lit "SP") || startsW c (lit "ST")) &&
    ((c.drop 2).all isUpAlnumU && !(c.drop 2).isEmpty)

/-- `isRegistrationMessage` from `parser.ts`: the trimmed message itself
if it is a valid address, else the first embedded
`/(SP|ST)[0-9A-Z]{38,40}/` token provided it also passes
`isValidSTXAddress`. -/
def isRegistrationMessage (msg : LC) : Option LC :=
  let t := jsTrim msg
  if isValidSTXAddress t then some t
  else
    match addrSearch t with
    | some tok => if isValidSTXAddress tok then some tok else none
    | none => none

/-- `\s+(.+)$` (anchored variant used by `parseSendCommand`): the
capture must consist only of non-line-terminator units and reach the end
of the string.  When everything after the whitespace run is empty the
greedy `\s+` gives back exactly one trailing unit, which must itself not
be a line terminator. -/
def anchoredWsCap (s : LC) : Option LC :=
  let (k, t) := wsRun s
  if k = 0 then none
  else if t.isEmpty then
    if 2 ≤ k && isDotU (s.getLastD 0) then some [s.getLastD 0] else none
  else if t.all isDotU then some t
  else none

/-- `/^send\s+(\d+(?:\.\d+)?)\s+to\s+(.+)$/i` (first `parseSendCommand`
pattern). -/
def parseSend1 (s : LC) : Option (ℚ × LC) :=
  match ciLit (lit "send") s with
  | none => none
  | some r1 =>
    let (k1, r2) := wsRun r1
    if k1 = 0 then none
    else
      match matchNumber r2 with
      | none => none
      | some (a, r3) =>
        let (k2, r4) := wsRun r3
        if k2 = 0 then none
        else
          match ciLit (lit "to") r4 with
          | none => none
          | some r5 => (anchoredWsCap r5).map (fun cap => (a, cap))

/-- `/^send\s+(\d+(?:\.\d+)?)\s+stx\s+to\s+(.+)$/i` (second
`parseSendCommand` pattern). -/
def parseSend2 (s : LC) : Option (ℚ × LC) :=
  match ciLit (lit "send") s with
  | none => none
  | some r1 =>
    let (k1, r2) := wsRun r1
    if k1 = 0 then none
    else
      match matchNumber r2 with
      | none => none
      | some (a, r3) =>
        let (k2, r4) := wsRun r3
        if k2 = 0 then none
        else
          match ciLit (lit "stx") r4 with
          | none => none
          | some r5 =>
            let (k3, r6) := wsRun r5
            if k3 = 0 then none
            else
              match ciLit (lit "to") r6 with
              | none => none
              | some r7 => (anchoredWsCap r7).map (fun cap => (a, cap))

/-- Result of `parseSendCommand` in `parser.ts`. -/
structure SendCommandResult where
  amount : ℚ
  contactName : LC
  originalMessage : LC
deriving DecidableEq

/-- `parseSendCommand` from `parser.ts`: try the two anchored patterns
on the trimmed message in order; the recipient capture is trimmed. -/
def parseSendCommand (msg : LC) : Option SendCommandResult :=
  let t := jsTrim msg
  match parseSend1 t with
  | some (a, cap) => some ⟨a, jsTrim cap, t⟩
  | none =>
    match parseSend2 t with
    | some (a, cap) => some ⟨a, jsTrim cap, t⟩
    | none => none

/-- `normalizeContactName` word step:
`word.charAt(0).toUpperCase() + word.slice(1).toLowerCase()` (on the
empty word both halves are empty).  The leading character's uppercasing
uses the full one-to-many case mapping (`upperUnits`), under which
`capWord "ß" = "SS"`. -/
def capWord : LC → LC
  | [] => []
  | c :: cs => upperUnits c ++ cs.map lowerUnit

/-- Proof infrastructure: the variant of `capWord` with the one-to-one
ASCII uppercase map; it agrees with `capWord` on ASCII words
(`capWord_eq_ascii` below) and is what the idempotency argument is
carried out on. -/
def capWordA : LC → LC
  | [] => []
  | c :: cs => upperUnit c :: cs.map lowerUnit

/-- JavaScript `split(' ')` (a single-space separator string, not a
regex): adjacent separators produce empty fragments. -/
def splitSpace : LC → List LC
  | [] => [[]]
  | c :: cs =>
    if c = 32 then [] :: splitSpace cs
    else
      match splitSpace cs with
      | w :: ws => (c :: w) :: ws
      | [] => [[c]]

/-- JavaScript `join(' ')`. -/
def joinWords : List LC → LC
  | [] => []
  | [w] => w
  | w :: ws => w ++ 32 :: joinWords ws

/-- `normalizeContactName` from `contact.service.js`:
`name.trim().split(' ').map(cap).join(' ')`. -/
def normalizeContactName (name : LC) : LC :=
  joinWords ((splitSpace (jsTrim name)).map capWord)

/-- Proof infrastructure: `normalizeContactName` over `capWordA`;
agrees with `normalizeContactName` on ASCII names. -/
def normalizeContactNameA (name : LC) : LC :=
  joinWords ((splitSpace (jsTrim name)).map capWordA)

end StxBot

-- temporary sanity checks

namespace StxBot

/-- Escrow status values stored in the `escrows` table. -/
inductive EscrowStatus
  | pending
  | active
  | released
  | refunded
  | cancelled
deriving DecidableEq

/-- Transaction status values stored in the `transactions` table. -/
inductive TxStatus
  | pending
  | confirmed
  | failed
deriving DecidableEq

/-- A row of the `users` table as consumed by the handlers
(`phone_number`, `stx_address`, `private_key`). -/
structure UserRow where
  phoneNumber : LC
  stxAddress : LC
  privateKey : Option LC
deriving DecidableEq

/-- A row of the `contacts` table. -/
structure ContactRow where
  id : Nat
  userPhone : LC
  contactName : LC
  contactStxAddress : LC
  contactPhone : Option LC
deriving DecidableEq

/-- A row of the `escrows` table. -/
structure EscrowRow where
  id : Nat
  senderPhone : LC
  senderStxAddress : LC
  recipientPhone : Option LC
  recipientStxAddress : LC
  amountMicrostx : Int
  timeoutBlocks : Nat
  memo : LC
  txId : Option LC
  releaseTxId : Option LC
  contractEscrowId : Option Nat
  status : EscrowStatus
deriving DecidableEq

/-- A row of the `transactions` table. -/
structure TransactionRow where
  txId : LC
  senderPhone : LC
  recipientPhone : Option LC
  senderAddress : LC
  recipientAddress : LC
  amountMicroStx : Int
  feeMicroStx : Int
  memo : LC
  status : TxStatus
deriving DecidableEq

/-- Result of `contactService.resolveRecipient`: either a raw address
(`type: 'address'`) or a resolved contact (`type: 'contact'`). -/
structure Recipient where
  isAddr : Bool
  address : LC
  name : Option LC
  phone : Option LC
  isContact : Bool
  contactId : Option Nat
deriving DecidableEq

/-- Error values raised (as JavaScript exceptions or error results) by
the embedded services. -/
inductive SvcErr
  | phoneTaken
  | addressTaken
  | recipientNotFound (token : LC)
  | keyMissing
  | broadcastFailed
  | missingFields
  | invalidContactAddr
  | contactDup (name : LC)
  | amountNonPositive
  | updateTargetMissing
  | timeoutOrNotActive
deriving DecidableEq

/-- The untyped `state_data` bag staged by the handlers, embedded as a
tagged union with one shape per staging site. -/
inductive StateData
  | paymentSend (amount : ℚ) (amountMicroStx : Int) (recipient : Recipient)
      (senderAddress : LC) (fee : Int) (feeStx : ℚ)
  | escrowCreate (amount : ℚ) (amountMicroStx : Int) (recipient : Recipient)
      (senderAddress : LC) (timeoutBlocks : Nat) (timeDescription : LC)
      (fee : Int) (feeStx : ℚ)
  | escrowAction (escrowId : Nat) (escrow : EscrowRow) (userAddress : LC)
  | registrationStart
deriving DecidableEq

/-- One conversation-state slot, as read by the handlers
(`state.handler`, `state.step`, `state.data`) with its expiry stamp. -/
structure ConvState where
  handler : LC
  step : LC
  data : StateData
  expiresAt : Nat
deriving DecidableEq

/-- The persistent record store plus the bookkeeping counters that make
the embedding deterministic (`now` is measured in minutes). -/
structure World where
  now : Nat
  users : List UserRow
  contacts : List ContactRow
  escrows : List EscrowRow
  transactions : List TransactionRow
  states : List (LC × ConvState)
  nextContactId : Nat
  nextEscrowId : Nat
  broadcasts : Nat
deriving DecidableEq

/-- External collaborators (Stacks ledger gateway reads, fee oracle,
broadcast outcomes, the escrow contract's `can-refund` read) embedded as
oracles.  `broadcastOk`/`txIdOf` are indexed by the running broadcast
counter so that each broadcast attempt has a definite outcome. -/
structure Env where
  mainnet : Bool
  balanceStx : LC → ℚ
  lockedStx : LC → ℚ
  feeMedium : Int
  feeMediumStx : ℚ
  broadcastOk : Nat → Bool
  txIdOf : Nat → LC
  contractCanRefund : Nat → Bool

/-- `microStxToStx` from `stacks.service.js`, in the exact-arithmetic
model used by the system embedding (`parseFloat(microStx) / 1000000`;
the binary64-faithful version used by the unit-conversion claim is
defined separately below). -/
def svcMicroToStx (n : Int) : ℚ := (n : ℚ) / 1000000

/-- `stxToMicroStx` from `stacks.service.js`
(`Math.floor(parseFloat(stx) * 1000000)`), exact-arithmetic model. -/
def svcStxToMicro (q : ℚ) : Int := Int.floor (q * 1000000)

/-- The distinct outgoing WhatsApp message templates, one constructor
per template of the source (parameters keep only the data the claims
inspect; exact copy text is out of scope). -/
inductive Reply
  | helpNewUser
  | helpRegistered (addr : LC)
  | unknownCommand
  | needRegister
  | balanceInfo (availStx lockedStx : ℚ) (addr : LC)
  | historyInfo
  | contactsList
  | contactAdded (name addr : LC)
  | invalidAddContactFormat
  | invalidContactAddress
  | svcError (e : SvcErr)
  | invalidSendFormat
  | amountNotPositive
  | insufficientBalance (haveStx needStx feeStx : ℚ)
  | confirmPayment (amount : ℚ) (recipient : Recipient) (feeStx : ℚ)
  | paymentCancelled
  | confirmReprompt
  | processingPayment
  | paymentSent (amount : ℚ) (name : Option LC) (txId : LC)
  | paymentReceived (amount : ℚ) (fromPhone : LC) (txId : LC)
  | paymentFailed (e : SvcErr)
  | invalidEscrowFormat
  | confirmEscrowCreate (amount : ℚ) (recipient : Recipient)
      (timeDescription : LC) (feeStx : ℚ)
  | escrowNotFound (id : Nat)
  | escrowNotFoundOrNotSender (id : Nat)
  | notAuthorizedRelease
  | escrowNotActive (st : EscrowStatus)
  | refundTimeoutNotReached (id : Nat) (blocks : Nat)
  | confirmEscrowRelease (id : Nat) (amount : ℚ)
  | confirmEscrowRefund (id : Nat) (amount : ℚ)
  | confirmEscrowCancel (id : Nat) (amount : ℚ)
  | escrowStatusInfo (id : Nat) (st : EscrowStatus)
  | escrowList
  | cancelledGeneric
  | creatingEscrow
  | releasingEscrow
  | refundingEscrow
  | cancellingEscrow
  | escrowCreated (amount : ℚ) (name : Option LC) (timeDescription : LC)
      (txId : LC) (escrowId : Nat)
  | escrowReceivedNotice (amount : ℚ) (fromPhone : LC)
      (timeDescription : LC) (escrowId : Nat)
  | escrowReleased (id : Nat) (txId : LC)
  | escrowRefunded (id : Nat) (txId : LC)
  | escrowCancelledDone (id : Nat) (txId : LC)
  | escrowActionFailed (e : SvcErr)
  | regAlreadyRegistered
  | regPrompt
  | regInvalidAddress
  | regAddressTaken
  | regFailed
  | regWelcome (addr : LC)
deriving DecidableEq

/-- Observable actions of one message-processing step: outgoing WhatsApp
messages and blockchain broadcasts. -/
inductive Event
  | sent (dest : LC) (msg : Reply)
  | stxTransferBroadcast (sender recipient : LC) (amountMicroStx : Int)
  | escrowCreateBroadcast (sender recipient : LC) (amountMicroStx : Int)
      (timeoutBlocks : Nat)
  | escrowReleaseBroadcast (escrowId : Nat)
  | escrowRefundBroadcast (escrowId : Nat)
  | escrowCancelBroadcast (escrowId : Nat)
deriving DecidableEq

/-- A funds-moving event: any broadcast to the ledger (an STX transfer
or an escrow contract call). -/
def Event.isFundsMoving : Event → Bool
  | sent _ _ => false
  | _ => true

end StxBot

namespace StxBot

namespace UserSvc

/-- `userService.getByPhone` as consumed by the handlers: the `users`
row for a phone number, or nothing. -/
def getByPhone (w : World) (p : LC) : Option UserRow :=
  w.users.find? (fun u => u.phoneNumber = p)

/-- `userService.addressExists`: is some account already registered with
this STX address? -/
def addressExists (w : World) (a : LC) : Bool :=
  w.users.any (fun u => u.stxAddress = a)

/-- `userService.exists`: is this phone number registered? -/
def phoneRegistered (w : World) (p : LC) : Bool :=
  w.users.any (fun u => u.phoneNumber = p)

/-- `userService.create`: insert a `users` row; the database unique
constraints on `phone_number` and `stx_address` surface as the two
duplicate errors. -/
def create (w : World) (p a : LC) : Except SvcErr World :=
  if w.users.any (fun u => u.phoneNumber = p) then .error .phoneTaken
  else if w.users.any (fun u => u.stxAddress = a) then .error .addressTaken
  else .ok { w with users := w.users ++ [⟨p, a, none⟩] }

end UserSvc

namespace StateSvc

/-- Modelled from the spec: the Conversation State Store consumed by the
payment and escrow handlers (single slot per user holding
`handler`/`step`/`data`, upserted with a fresh 10-minute TTL) is not
among the source files; only its callers are.  `setState` upserts the
one row for the user and recomputes the expiry as now + 10 minutes. -/
def setState (w : World) (p h st : LC) (d : StateData) : World :=
  { w with states :=
      (p, ⟨h, st, d, w.now + 10⟩) :: w.states.filter (fun e => e.1 ≠ p) }

/-- The raw slot for a user, expired or not. -/
def lookupSlot (w : World) (p : LC) : Option ConvState :=
  (w.states.find? (fun e => e.1 = p)).map Prod.snd

/-- Modelled from the spec: `getState` returns the slot only while
`expires_at` is strictly in the future; an expired slot reads as
absent. -/
def getState (w : World) (p : LC) : Option ConvState :=
  match lookupSlot w p with
  | some st => if w.now < st.expiresAt then some st else none
  | none => none

/-- Modelled from the spec: `clearState` deletes the slot
(idempotent). -/
def clearState (w : World) (p : LC) : World :=
  { w with states := w.states.filter (fun e => e.1 ≠ p) }

end StateSvc

namespace ContactSvc

/-- `contactService.normalizeContactName` is `normalizeContactName`
above; `getContactByName` re-normalizes its argument and looks the
result up case-insensitively (`ilike` with no wildcards) among the
caller's own contacts. -/
def getContactByName (w : World) (p name : LC) : Option ContactRow :=
  let n := normalizeContactName name
  w.contacts.find? (fun c => c.userPhone = p && jsLower c.contactName = jsLower n)

/-- `contactService.resolveRecipient`: a token that is itself a valid
address wins outright; otherwise a case-insensitive exact contact-name
lookup; otherwise the recipient-not-found error. -/
def resolveRecipient (env : Env) (w : World) (p tok : LC) : Except SvcErr Recipient :=
  if stacksIsValidAddress env.mainnet tok then
    .ok ⟨true, tok, none, none, false, none⟩
  else
    match getContactByName w p tok with
    | some c => .ok ⟨false, c.contactStxAddress, some c.contactName, c.contactPhone, true, some c.id⟩
    | none => .error (.recipientNotFound tok)

/-- `contactService.addContact`: required-field check, address
validation, name normalization, per-user duplicate check, insert. -/
def addContact (env : Env) (w : World) (p name addr : LC) :
    Except SvcErr (World × LC) :=
  if p.isEmpty || name.isEmpty || addr.isEmpty then .error .missingFields
  else if !stacksIsValidAddress env.mainnet addr then .error .invalidContactAddr
  else
    let n := normalizeContactName name
    match getContactByName w p n with
    | some _ => .error (.contactDup n)
    | none =>
      .ok ({ w with
              contacts := w.contacts ++ [⟨w.nextContactId, p, n, addr, none⟩],
              nextContactId := w.nextContactId + 1 }, n)

end ContactSvc

/-- Role filter of `escrowService.getEscrowsByPhone`. -/
inductive EscrowRole
  | sender
  | recipient
  | all
deriving DecidableEq

namespace EscrowSvc

/-- `escrowService.getEscrowsByPhone`: the user's escrows filtered by
role. -/
def getEscrowsByPhone (w : World) (p : LC) (role : EscrowRole) : List EscrowRow :=
  match role with
  | .sender => w.escrows.filter (fun e => e.senderPhone = p)
  | .recipient => w.escrows.filter (fun e => e.recipientPhone = some p)
  | .all => w.escrows.filter (fun e => e.senderPhone = p || e.recipientPhone = some p)

/-- `escrowService.updateEscrowStatus`: set the status (and the release
transaction id when given) of the rows matching the contract escrow id;
a missing row surfaces as a storage error (`single()` on zero rows). -/
def updateEscrowStatus (w : World) (cid : Nat) (st : EscrowStatus) (tx : Option LC) :
    Except SvcErr World :=
  if w.escrows.any (fun e => e.contractEscrowId = some cid) then
    .ok { w with escrows := w.escrows.map (fun e =>
      if e.contractEscrowId = some cid then
        { e with status := st,
                 releaseTxId := match tx with | some t => some t | none => e.releaseTxId }
      else e) }
  else .error .updateTargetMissing

/-- `escrowService.canRefund`: read-only `can-refund` contract call
(returns `false` on a read error), an oracle of the environment. -/
def canRefund (env : Env) (cid : Nat) : Bool := env.contractCanRefund cid

/-- `escrowService.createEscrow`: validate addresses and amount, build
and broadcast the `create-escrow` contract call, then save a `pending`
database row (no contract escrow id yet).  Returns the transaction id
and the database row id. -/
def createEscrow (env : Env) (w : World) (senderAddress : LC)
    (recipientAddress : LC) (amountMicroStx : Int) (timeoutBlocks : Nat)
    (memo : LC) (senderPhone : LC) (recipientPhone : Option LC) :
    Except SvcErr (LC × Nat) × World × List Event :=
  if !stacksIsValidAddress env.mainnet senderAddress then (.error .invalidContactAddr, w, [])
  else if !stacksIsValidAddress env.mainnet recipientAddress then (.error .invalidContactAddr, w, [])
  else if amountMicroStx ≤ 0 then (.error .amountNonPositive, w, [])
  else
    let c := w.broadcasts
    let w1 := { w with broadcasts := c + 1 }
    let ev := [Event.escrowCreateBroadcast senderAddress recipientAddress amountMicroStx timeoutBlocks]
    if !env.broadcastOk c then (.error .broadcastFailed, w1, ev)
    else
      let txId := env.txIdOf c
      let row : EscrowRow :=
        ⟨w1.nextEscrowId, senderPhone, senderAddress, recipientPhone,
         recipientAddress, amountMicroStx, timeoutBlocks, memo, some txId,
         none, none, .pending⟩
      (.ok (txId, w1.nextEscrowId),
       { w1 with escrows := w1.escrows ++ [row],
                 nextEscrowId := w1.nextEscrowId + 1 }, ev)

/-- `escrowService.releaseEscrow`: broadcast the `release-escrow`
contract call and set the database status to `released`.  The current
stored status is not consulted. -/
def releaseEscrow (env : Env) (w : World) (cid : Nat) :
    Except SvcErr LC × World × List Event :=
  let c := w.broadcasts
  let w1 := { w with broadcasts := c + 1 }
  let ev := [Event.escrowReleaseBroadcast cid]
  if !env.broadcastOk c then (.error .broadcastFailed, w1, ev)
  else
    match updateEscrowStatus w1 cid .released (some (env.txIdOf c)) with
    | .ok w2 => (.ok (env.txIdOf c), w2, ev)
    | .error e => (.error e, w1, ev)

/-- `escrowService.refundEscrow`: first the `canRefund` gate (timeout
reached and contract-side active), then broadcast `refund-escrow` and
set the database status to `refunded`. -/
def refundEscrow (env : Env) (w : World) (cid : Nat) :
    Except SvcErr LC × World × List Event :=
  if !canRefund env cid then (.error .timeoutOrNotActive, w, [])
  else
    let c := w.broadcasts
    let w1 := { w with broadcasts := c + 1 }
    let ev := [Event.escrowRefundBroadcast cid]
    if !env.broadcastOk c then (.error .broadcastFailed, w1, ev)
    else
      match updateEscrowStatus w1 cid .refunded (some (env.txIdOf c)) with
      | .ok w2 => (.ok (env.txIdOf c), w2, ev)
      | .error e => (.error e, w1, ev)

/-- `escrowService.cancelEscrow`: broadcast `cancel-escrow` and set the
database status to `cancelled`; neither the stored status nor the
contract state is consulted first. -/
def cancelEscrow (env : Env) (w : World) (cid : Nat) :
    Except SvcErr LC × World × List Event :=
  let c := w.broadcasts
  let w1 := { w with broadcasts := c + 1 }
  let ev := [Event.escrowCancelBroadcast cid]
  if !env.broadcastOk c then (.error .broadcastFailed, w1, ev)
  else
    match updateEscrowStatus w1 cid .cancelled (some (env.txIdOf c)) with
    | .ok w2 => (.ok (env.txIdOf c), w2, ev)
    | .error e => (.error e, w1, ev)

end EscrowSvc

namespace TxSvc

/-- `transactionService.sendTransaction`: validate both addresses and
the positivity of the micro-STX amount (`createTransaction`), broadcast
the transfer, and record a `pending` `transactions` row. -/
def sendTransaction (env : Env) (w : World) (senderAddress senderPhone : LC)
    (recipientAddress : LC) (recipientPhone : Option LC)
    (amountMicroStx : Int) (memo : LC) :
    Except SvcErr LC × World × List Event :=
  if !stacksIsValidAddress env.mainnet senderAddress then (.error .invalidContactAddr, w, [])
  else if !stacksIsValidAddress env.mainnet recipientAddress then (.error .invalidContactAddr, w, [])
  else if amountMicroStx ≤ 0 then (.error .amountNonPositive, w, [])
  else
    let c := w.broadcasts
    let w1 := { w with broadcasts := c + 1 }
    let ev := [Event.stxTransferBroadcast senderAddress recipientAddress amountMicroStx]
    if !env.broadcastOk c then (.error .broadcastFailed, w1, ev)
    else
      let txId := env.txIdOf c
      let row : TransactionRow :=
        ⟨txId, senderPhone, recipientPhone, senderAddress, recipientAddress,
         amountMicroStx, env.feeMedium, memo, .pending⟩
      (.ok txId, { w1 with transactions := w1.transactions ++ [row] }, ev)

end TxSvc

end StxBot

namespace StxBot

/-- A handler's return value (`{success, message?}`); the surrounding
webhook relays `message` to the user.  `none` at the outer level is the
handlers' `null` ("not my command"). -/
structure HRes where
  success : Bool
  message : Option Reply
deriving DecidableEq

/-- Outcome of one handler invocation: the JavaScript return value, the
updated store, and the observable events in order. -/
abbrev HOut := Option HRes × World × List Event

/-- JavaScript `message.split(/\s+/)`: split on maximal whitespace runs,
keeping the empty fragments that leading/trailing whitespace produces. -/
def splitWsGo : LC → List LC
  | [] => [[]]
  | c :: rest =>
    if isWsU c then [] :: splitWsGo (rest.dropWhile isWsU)
    else
      match splitWsGo rest with
      | t :: ts => (c :: t) :: ts
      | [] => [[c]]
termination_by s => s.length
decreasing_by
  · exact Nat.lt_of_le_of_lt (List.Sublist.length_le (List.dropWhile_sublist _)) (Nat.lt_succ_self _)
  · exact Nat.lt_succ_self _

/-- Decimal digits of a natural number as code units (fuel-structured so
that it evaluates inside the kernel). -/
def natDigitsAux : Nat → Nat → LC
  | 0, _ => []
  | _ + 1, 0 => []
  | f + 1, n => natDigitsAux f (n / 10) ++ [48 + n % 10]

/-- JavaScript number-to-string for the naturals the handlers print. -/
def natToLC (n : Nat) : LC := if n = 0 then [48] else natDigitsAux (n + 1) n

/-- The escrow handler's `timeDescription`:
`"${timeValue} hour(s)"` / `"${timeValue} day(s)"`. -/
def timeDescLC (tv : Nat) (u : TimeUnit) : LC :=
  natToLC tv ++
    (match u with
     | .hour => lit " hour" ++ (if 1 < tv then lit "s" else [])
     | .day => lit " day" ++ (if 1 < tv then lit "s" else []))

namespace PaymentH

/-- `handleBalance`: report the ledger balance; no state change. -/
def handleBalance (env : Env) (w : World) (phone : LC) (user : UserRow) : HOut :=
  (some ⟨true, none⟩, w,
   [.sent phone (.balanceInfo (env.balanceStx user.stxAddress)
      (env.lockedStx user.stxAddress) user.stxAddress)])

/-- `handleHistory`: report recent transactions; no state change. -/
def handleHistory (w : World) (phone : LC) : HOut :=
  (some ⟨true, none⟩, w, [.sent phone .historyInfo])

/-- `handleListContacts`: report the contact list; no state change. -/
def handleListContacts (w : World) (phone : LC) : HOut :=
  (some ⟨true, none⟩, w, [.sent phone .contactsList])

/-- `handleAddContact`: whitespace-split the raw message, take tokens 2
and 3 as name and address, validate, insert. -/
def handleAddContact (env : Env) (w : World) (phone msg : LC) : HOut :=
  let parts := splitWsGo msg
  if parts.length < 4 then (some ⟨false, some .invalidAddContactFormat⟩, w, [])
  else
    let contactName := parts.getD 2 []
    let contactAddress := parts.getD 3 []
    if !stacksIsValidAddress env.mainnet contactAddress then
      (some ⟨false, some .invalidContactAddress⟩, w, [])
    else
      match ContactSvc.addContact env w phone contactName contactAddress with
      | .error e => (some ⟨false, some (.svcError e)⟩, w, [])
      | .ok (w1, n) =>
        (some ⟨true, none⟩, w1, [.sent phone (.contactAdded n contactAddress)])

/-- `handleSend`: match the send regex on the raw message, validate the
amount, check balance against amount plus estimated fee, resolve the
recipient, then stage the `payment`/`confirm_send` state and prompt. -/
def handleSend (env : Env) (w : World) (phone msg : LC) (user : UserRow) : HOut :=
  match sendMatch msg with
  | none => (some ⟨false, some .invalidSendFormat⟩, w, [])
  | some (amount, rawRecip) =>
    let recipientInput := jsTrim rawRecip
    if amount ≤ 0 then (some ⟨false, some .amountNotPositive⟩, w, [])
    else
      let bal := env.balanceStx user.stxAddress
      let totalNeeded := amount + env.feeMediumStx
      if bal < totalNeeded then
        (some ⟨false, some (.insufficientBalance bal totalNeeded env.feeMediumStx)⟩, w, [])
      else
        match ContactSvc.resolveRecipient env w phone recipientInput with
        | .error e => (some ⟨false, some (.svcError e)⟩, w, [])
        | .ok recipient =>
          let w1 := StateSvc.setState w phone (lit "payment") (lit "confirm_send")
            (.paymentSend amount (svcStxToMicro amount) recipient
              user.stxAddress env.feeMedium env.feeMediumStx)
          (some ⟨true, none⟩, w1,
           [.sent phone (.confirmPayment amount recipient env.feeMediumStx)])

/-- `executeSend`: after the confirmed `yes`, re-fetch the user for the
signing key, send the progress notice, broadcast and record the
transfer, clear the state, and notify both parties; any failure also
clears the state and reports the reason.  (A payload of the wrong shape
makes the JavaScript destructuring crash before any output; the catch
clears the state.) -/
def executeSend (env : Env) (w : World) (phone : LC) (st : ConvState) : HOut :=
  match st.data with
  | .paymentSend amount amountMicroStx recipient senderAddress _fee _feeStx =>
    let recipientPhone := if recipient.isContact then recipient.phone else none
    match UserSvc.getByPhone w phone with
    | none =>
      (some ⟨false, some (.paymentFailed .keyMissing)⟩, StateSvc.clearState w phone,
       [.sent phone .processingPayment])
    | some user =>
      match user.privateKey with
      | none =>
        (some ⟨false, some (.paymentFailed .keyMissing)⟩, StateSvc.clearState w phone,
         [.sent phone .processingPayment])
      | some _key =>
        match TxSvc.sendTransaction env w senderAddress phone recipient.address
            recipientPhone amountMicroStx (lit "Payment via WhatsApp") with
        | (.error e, w1, ev) =>
          (some ⟨false, some (.paymentFailed e)⟩, StateSvc.clearState w1 phone,
           [.sent phone .processingPayment] ++ ev)
        | (.ok txId, w1, ev) =>
          let w2 := StateSvc.clearState w1 phone
          let evs := [Event.sent phone .processingPayment] ++ ev ++
            [Event.sent phone (.paymentSent amount recipient.name txId)]
          match recipientPhone with
          | some rp =>
            match UserSvc.getByPhone w2 rp with
            | some _ => (some ⟨true, none⟩, w2,
                evs ++ [.sent rp (.paymentReceived amount phone txId)])
            | none => (some ⟨true, none⟩, w2, evs)
          | none => (some ⟨true, none⟩, w2, evs)
  | _ =>
    (some ⟨false, some (.paymentFailed .missingFields)⟩, StateSvc.clearState w phone, [])

/-- The payment handler's `handleStateFlow`: only the `confirm_send`
step is known; `yes` executes, `no` clears and acknowledges, anything
else re-prompts without touching the state; an unknown step returns
`null`. -/
def handleStateFlow (env : Env) (w : World) (phone msg : LC) (st : ConvState) : HOut :=
  let n := jsLower (jsTrim msg)
  if st.step = lit "confirm_send" then
    if n = lit "yes" then executeSend env w phone st
    else if n = lit "no" then
      (some ⟨true, none⟩, StateSvc.clearState w phone, [.sent phone .paymentCancelled])
    else (some ⟨true, none⟩, w, [.sent phone .confirmReprompt])
  else (none, w, [])

/-- The payment handler's command routing, tried when no payment state
is active (order as in the source). -/
def route (env : Env) (w : World) (phone msg n : LC) (user : UserRow) : HOut :=
  if n = lit "balance" then handleBalance env w phone user
  else if startsW n (lit "history") then handleHistory w phone
  else if n = lit "contacts" || n = lit "list contacts" then handleListContacts w phone
  else if startsW n (lit "add contact") then handleAddContact env w phone msg
  else if startsW n (lit "send") then handleSend env w phone msg user
  else (none, w, [])

/-- The payment handler's `handleMessage`: registration check, then the
active-state check (`state.handler === 'payment'` routes to the state
flow), then command routing. -/
def handleMessage (env : Env) (w : World) (phone msg : LC) : HOut :=
  let n := jsLower (jsTrim msg)
  match UserSvc.getByPhone w phone with
  | none => (some ⟨false, some .needRegister⟩, w, [])
  | some user =>
    match StateSvc.getState w phone with
    | some st =>
      if st.handler = lit "payment" then handleStateFlow env w phone msg st
      else route env w phone msg n user
    | none => route env w phone msg n user

end PaymentH

end StxBot

namespace StxBot

namespace EscrowH

/-- `handleCreateEscrow`: match the create regex, validate the amount,
convert the timeout (6 blocks per hour, 144 per day), check the
balance, resolve the recipient, then stage `escrow`/`confirm_create`
and prompt. -/
def handleCreateEscrow (env : Env) (w : World) (phone msg : LC) (user : UserRow) : HOut :=
  match escrowMatch msg with
  | none => (some ⟨false, some .invalidEscrowFormat⟩, w, [])
  | some (amount, rawRecip, timeValue, timeUnit) =>
    let recipientInput := jsTrim rawRecip
    if amount ≤ 0 then (some ⟨false, some .amountNotPositive⟩, w, [])
    else
      let timeoutBlocks := match timeUnit with
        | .hour => timeValue * 6
        | .day => timeValue * 144
      let bal := env.balanceStx user.stxAddress
      let totalNeeded := amount + env.feeMediumStx
      if bal < totalNeeded then
        (some ⟨false, some (.insufficientBalance bal totalNeeded env.feeMediumStx)⟩, w, [])
      else
        match ContactSvc.resolveRecipient env w phone recipientInput with
        | .error e => (some ⟨false, some (.svcError e)⟩, w, [])
        | .ok recipient =>
          let timeDescription := timeDescLC timeValue timeUnit
          let w1 := StateSvc.setState w phone (lit "escrow") (lit "confirm_create")
            (.escrowCreate amount (svcStxToMicro amount) recipient user.stxAddress
              timeoutBlocks timeDescription env.feeMedium env.feeMediumStx)
          (some ⟨true, none⟩, w1,
           [.sent phone (.confirmEscrowCreate amount recipient timeDescription env.feeMediumStx)])

/-- `handleReleaseEscrow`: parse the id, look the escrow up among the
user's escrows (either role), check authorization (sender or
recipient), require status `active`, then stage
`escrow`/`confirm_release` and prompt. -/
def handleReleaseEscrow (_env : Env) (w : World) (phone msg : LC) (user : UserRow) : HOut :=
  match verbEscrowId (lit "release") msg with
  | none => (some ⟨false, some .invalidEscrowFormat⟩, w, [])
  | some escrowId =>
    match (EscrowSvc.getEscrowsByPhone w phone .all).find?
        (fun e => e.contractEscrowId = some escrowId) with
    | none => (some ⟨false, some (.escrowNotFound escrowId)⟩, w, [])
    | some escrow =>
      let isSender := escrow.senderPhone = phone
      let isRecipient := escrow.recipientPhone = some phone
      if ¬isSender ∧ ¬isRecipient then
        (some ⟨false, some .notAuthorizedRelease⟩, w, [])
      else if escrow.status ≠ .active then
        (some ⟨false, some (.escrowNotActive escrow.status)⟩, w, [])
      else
        let w1 := StateSvc.setState w phone (lit "escrow") (lit "confirm_release")
          (.escrowAction escrowId escrow user.stxAddress)
        (some ⟨true, none⟩, w1,
         [.sent phone (.confirmEscrowRelease escrowId (svcMicroToStx escrow.amountMicrostx))])

/-- `handleRefundEscrow`: parse the id, look the escrow up among the
escrows the user sent (sender only), require status `active`, require
the contract's `canRefund` (timeout reached), then stage
`escrow`/`confirm_refund` and prompt.  When the timeout is not reached
the command is rejected with the timeout notice and nothing is staged. -/
def handleRefundEscrow (env : Env) (w : World) (phone msg : LC) (user : UserRow) : HOut :=
  match verbEscrowId (lit "refund") msg with
  | none => (some ⟨false, some .invalidEscrowFormat⟩, w, [])
  | some escrowId =>
    match (EscrowSvc.getEscrowsByPhone w phone .sender).find?
        (fun e => e.contractEscrowId = some escrowId) with
    | none => (some ⟨false, some (.escrowNotFoundOrNotSender escrowId)⟩, w, [])
    | some escrow =>
      if escrow.status ≠ .active then
        (some ⟨false, some (.escrowNotActive escrow.status)⟩, w, [])
      else if !EscrowSvc.canRefund env escrowId then
        (some ⟨false, some (.refundTimeoutNotReached escrowId escrow.timeoutBlocks)⟩, w, [])
      else
        let w1 := StateSvc.setState w phone (lit "escrow") (lit "confirm_refund")
          (.escrowAction escrowId escrow user.stxAddress)
        (some ⟨true, none⟩, w1,
         [.sent phone (.confirmEscrowRefund escrowId (svcMicroToStx escrow.amountMicrostx))])

/-- `handleCancelEscrow`: parse the id, look the escrow up among the
escrows the user sent (sender only), require status `active`, then
stage `escrow`/`confirm_cancel` and prompt. -/
def handleCancelEscrow (_env : Env) (w : World) (phone msg : LC) (user : UserRow) : HOut :=
  match verbEscrowId (lit "cancel") msg with
  | none => (some ⟨false, some .invalidEscrowFormat⟩, w, [])
  | some escrowId =>
    match (EscrowSvc.getEscrowsByPhone w phone .sender).find?
        (fun e => e.contractEscrowId = some escrowId) with
    | none => (some ⟨false, some (.escrowNotFoundOrNotSender escrowId)⟩, w, [])
    | some escrow =>
      if escrow.status ≠ .active then
        (some ⟨false, some (.escrowNotActive escrow.status)⟩, w, [])
      else
        let w1 := StateSvc.setState w phone (lit "escrow") (lit "confirm_cancel")
          (.escrowAction escrowId escrow user.stxAddress)
        (some ⟨true, none⟩, w1,
         [.sent phone (.confirmEscrowCancel escrowId (svcMicroToStx escrow.amountMicrostx))])

/-- `handleEscrowStatus`: parse the id and report the stored status; no
state change. -/
def handleEscrowStatus (w : World) (phone msg : LC) : HOut :=
  match escrowStatusId msg with
  | none => (some ⟨false, some .invalidEscrowFormat⟩, w, [])
  | some escrowId =>
    match (EscrowSvc.getEscrowsByPhone w phone .all).find?
        (fun e => e.contractEscrowId = some escrowId) with
    | none => (some ⟨false, some (.escrowNotFound escrowId)⟩, w, [])
    | some escrow =>
      (some ⟨true, none⟩, w, [.sent phone (.escrowStatusInfo escrowId escrow.status)])

/-- `handleListEscrows`: report the user's escrows; no state change. -/
def handleListEscrows (w : World) (phone : LC) : HOut :=
  (some ⟨true, none⟩, w, [.sent phone .escrowList])

/-- `executeCreateEscrow`: key check (before any output), progress
notice, create and broadcast the escrow, clear the state, success
notice, and a notice to the recipient when they are a registered user;
failures also clear the state. -/
def executeCreateEscrow (env : Env) (w : World) (phone : LC) (st : ConvState) : HOut :=
  match st.data with
  | .escrowCreate amount amountMicroStx recipient senderAddress timeoutBlocks timeDescription _ _ =>
    match UserSvc.getByPhone w phone with
    | none =>
      (some ⟨false, some (.escrowActionFailed .keyMissing)⟩, StateSvc.clearState w phone, [])
    | some user =>
      match user.privateKey with
      | none =>
        (some ⟨false, some (.escrowActionFailed .keyMissing)⟩, StateSvc.clearState w phone, [])
      | some _key =>
        let memo := lit "Escrow via WhatsApp - " ++ timeDescription
        match EscrowSvc.createEscrow env w senderAddress recipient.address
            amountMicroStx timeoutBlocks memo phone recipient.phone with
        | (.error e, w1, ev) =>
          (some ⟨false, some (.escrowActionFailed e)⟩, StateSvc.clearState w1 phone,
           [.sent phone .creatingEscrow] ++ ev)
        | (.ok (txId, escrowId), w1, ev) =>
          let w2 := StateSvc.clearState w1 phone
          let evs := [Event.sent phone .creatingEscrow] ++ ev ++
            [Event.sent phone (.escrowCreated amount recipient.name timeDescription txId escrowId)]
          match recipient.phone with
          | some rp =>
            match UserSvc.getByPhone w2 rp with
            | some _ => (some ⟨true, none⟩, w2,
                evs ++ [.sent rp (.escrowReceivedNotice amount phone timeDescription escrowId)])
            | none => (some ⟨true, none⟩, w2, evs)
          | none => (some ⟨true, none⟩, w2, evs)
  | _ =>
    (some ⟨false, some (.escrowActionFailed .missingFields)⟩, StateSvc.clearState w phone, [])

/-- `executeReleaseEscrow`: key check, progress notice, release call,
clear state, success notice; failures also clear the state. -/
def executeReleaseEscrow (env : Env) (w : World) (phone : LC) (st : ConvState) : HOut :=
  match st.data with
  | .escrowAction escrowId _escrow _userAddress =>
    match UserSvc.getByPhone w phone with
    | none =>
      (some ⟨false, some (.escrowActionFailed .keyMissing)⟩, StateSvc.clearState w phone, [])
    | some user =>
      match user.privateKey with
      | none =>
        (some ⟨false, some (.escrowActionFailed .keyMissing)⟩, StateSvc.clearState w phone, [])
      | some _key =>
        match EscrowSvc.releaseEscrow env w escrowId with
        | (.error e, w1, ev) =>
          (some ⟨false, some (.escrowActionFailed e)⟩, StateSvc.clearState w1 phone,
           [.sent phone .releasingEscrow] ++ ev)
        | (.ok txId, w1, ev) =>
          (some ⟨true, none⟩, StateSvc.clearState w1 phone,
           [.sent phone .releasingEscrow] ++ ev ++ [.sent phone (.escrowReleased escrowId txId)])
  | _ =>
    (some ⟨false, some (.escrowActionFailed .missingFields)⟩, StateSvc.clearState w phone, [])

/-- `executeRefundEscrow`: key check, progress notice, refund call
(which re-checks `canRefund` before broadcasting), clear state, success
notice; failures also clear the state. -/
def executeRefundEscrow (env : Env) (w : World) (phone : LC) (st : ConvState) : HOut :=
  match st.data with
  | .escrowAction escrowId _escrow _userAddress =>
    match UserSvc.getByPhone w phone with
    | none =>
      (some ⟨false, some (.escrowActionFailed .keyMissing)⟩, StateSvc.clearState w phone, [])
    | some user =>
      match user.privateKey with
      | none =>
        (some ⟨false, some (.escrowActionFailed .keyMissing)⟩, StateSvc.clearState w phone, [])
      | some _key =>
        match EscrowSvc.refundEscrow env w escrowId with
        | (.error e, w1, ev) =>
          (some ⟨false, some (.escrowActionFailed e)⟩, StateSvc.clearState w1 phone,
           [.sent phone .refundingEscrow] ++ ev)
        | (.ok txId, w1, ev) =>
          (some ⟨true, none⟩, StateSvc.clearState w1 phone,
           [.sent phone .refundingEscrow] ++ ev ++ [.sent phone (.escrowRefunded escrowId txId)])
  | _ =>
    (some ⟨false, some (.escrowActionFailed .missingFields)⟩, StateSvc.clearState w phone, [])

/-- `executeCancelEscrow`: key check, progress notice, cancel call (no
status check of any kind), clear state, success notice; failures also
clear the state. -/
def executeCancelEscrow (env : Env) (w : World) (phone : LC) (st : ConvState) : HOut :=
  match st.data with
  | .escrowAction escrowId _escrow _userAddress =>
    match UserSvc.getByPhone w phone with
    | none =>
      (some ⟨false, some (.escrowActionFailed .keyMissing)⟩, StateSvc.clearState w phone, [])
    | some user =>
      match user.privateKey with
      | none =>
        (some ⟨false, some (.escrowActionFailed .keyMissing)⟩, StateSvc.clearState w phone, [])
      | some _key =>
        match EscrowSvc.cancelEscrow env w escrowId with
        | (.error e, w1, ev) =>
          (some ⟨false, some (.escrowActionFailed e)⟩, StateSvc.clearState w1 phone,
           [.sent phone .cancellingEscrow] ++ ev)
        | (.ok txId, w1, ev) =>
          (some ⟨true, none⟩, StateSvc.clearState w1 phone,
           [.sent phone .cancellingEscrow] ++ ev ++ [.sent phone (.escrowCancelledDone escrowId txId)])
  | _ =>
    (some ⟨false, some (.escrowActionFailed .missingFields)⟩, StateSvc.clearState w phone, [])

/-- The escrow handler's `handleStateFlow`: anything but `yes`/`no`
re-prompts; `no` clears and acknowledges (for every step); `yes`
dispatches on the staged step; an unknown step returns `null`. -/
def handleStateFlow (env : Env) (w : World) (phone msg : LC) (st : ConvState) : HOut :=
  let n := jsLower (jsTrim msg)
  if n ≠ lit "yes" ∧ n ≠ lit "no" then
    (some ⟨true, none⟩, w, [.sent phone .confirmReprompt])
  else if n = lit "no" then
    (some ⟨true, none⟩, StateSvc.clearState w phone, [.sent phone .cancelledGeneric])
  else if st.step = lit "confirm_create" then executeCreateEscrow env w phone st
  else if st.step = lit "confirm_release" then executeReleaseEscrow env w phone st
  else if st.step = lit "confirm_refund" then executeRefundEscrow env w phone st
  else if st.step = lit "confirm_cancel" then executeCancelEscrow env w phone st
  else (none, w, [])

/-- The escrow handler's command routing (order as in the source). -/
def route (env : Env) (w : World) (phone msg n : LC) (user : UserRow) : HOut :=
  if startsW n (lit "escrow") ∧ ¬includesSub n (lit "status") then
    handleCreateEscrow env w phone msg user
  else if startsW n (lit "release escrow") then handleReleaseEscrow env w phone msg user
  else if startsW n (lit "refund escrow") then handleRefundEscrow env w phone msg user
  else if startsW n (lit "cancel escrow") then handleCancelEscrow env w phone msg user
  else if includesSub n (lit "escrow status") then handleEscrowStatus w phone msg
  else if n = lit "my escrows" ∨ n = lit "escrows" then handleListEscrows w phone
  else (none, w, [])

/-- The escrow handler's `handleMessage`: registration check, then the
active-state check (`state.handler === 'escrow'` routes to the state
flow), then command routing. -/
def handleMessage (env : Env) (w : World) (phone msg : LC) : HOut :=
  let n := jsLower (jsTrim msg)
  match UserSvc.getByPhone w phone with
  | none => (some ⟨false, some .needRegister⟩, w, [])
  | some user =>
    match StateSvc.getState w phone with
    | some st =>
      if st.handler = lit "escrow" then handleStateFlow env w phone msg st
      else route env w phone msg n user
    | none => route env w phone msg n user

end EscrowH

namespace RegH

/-- `completeRegistration` from `registration.handler.js`: trim, the
`validateStxAddress` format check, then the duplicate-address check,
then account creation; the two rejections and the storage failure each
clear any registration state and report; success clears the state and
welcomes. -/
def completeRegistration (w : World) (phone msg : LC) : HOut :=
  let cleanAddress := jsTrim msg
  if !validateStxAddressValid cleanAddress then
    (some ⟨false, none⟩, w, [.sent phone .regInvalidAddress])
  else if UserSvc.addressExists w cleanAddress then
    (some ⟨false, none⟩, StateSvc.clearState w phone, [.sent phone .regAddressTaken])
  else
    match UserSvc.create w phone cleanAddress with
    | .error _ => (some ⟨false, none⟩, StateSvc.clearState w phone, [.sent phone .regFailed])
    | .ok w1 => (some ⟨true, none⟩, StateSvc.clearState w1 phone, [.sent phone (.regWelcome cleanAddress)])

/-- Modelled from the spec: the registration router entry point invoked
by the dispatcher (`registrationHandler.handleMessage`) is not among the
source files (the source's `registration.handler.js` exposes
`handleRegistration` against an older state-store shape).  Following
section 4.5 of the spec: an already-registered user is told so; with no
active state, a message already carrying an address candidate
(`isRegistrationMessage`) goes straight to the address-entry step,
otherwise the `awaiting-address` state is staged and the prompt sent;
with an active state the message is treated as the address entry
(`completeRegistration`, which is in the source). -/
def handleMessage (w : World) (phone msg : LC) : HOut :=
  if UserSvc.phoneRegistered w phone then
    (some ⟨false, none⟩, w, [.sent phone .regAlreadyRegistered])
  else
    match StateSvc.getState w phone with
    | none =>
      match isRegistrationMessage msg with
      | some addr => completeRegistration w phone addr
      | none =>
        let w1 := StateSvc.setState w phone (lit "registration")
          (lit "awaiting_address") .registrationStart
        (some ⟨true, none⟩, w1, [.sent phone .regPrompt])
    | some _ => completeRegistration w phone msg

end RegH

namespace Webhook

/-- The webhook's escrow-routing condition: the text-shape tests of
`processMessage` that select the escrow handler. -/
def escrowShaped (n : LC) : Bool :=
  startsW n (lit "escrow") || startsW n (lit "release escrow") ||
  startsW n (lit "refund escrow") || startsW n (lit "cancel escrow") ||
  includesSub n (lit "escrow status") ||
  n = lit "my escrows" || n = lit "escrows"

/-- Relay a handler result: send its `message` when present; a `null`
result becomes the fixed unknown-command response. -/
def relayOrUnknown (phone : LC) : HOut → World × List Event
  | (none, w, evs) => (w, evs ++ [.sent phone .unknownCommand])
  | (some h, w, evs) =>
    match h.message with
    | some m => (w, evs ++ [.sent phone m])
    | none => (w, evs)

/-- Relay a handler result without the unknown-command fallback (the
registration branch). -/
def relayOnly (phone : LC) : HOut → World × List Event
  | (none, w, evs) => (w, evs)
  | (some h, w, evs) =>
    match h.message with
    | some m => (w, evs ++ [.sent phone m])
    | none => (w, evs)

/-- `processMessage` from `webhook.ts`: exact help/menu first; then the
registration branch for unknown users or `register…` texts; then the
escrow text shapes; else the payment handler. -/
def processMessage (env : Env) (w : World) (phone msg : LC) : World × List Event :=
  let n := jsLower (jsTrim msg)
  if n = lit "help" ∨ n = lit "menu" then
    (w, [.sent phone
      (match UserSvc.getByPhone w phone with
       | none => .helpNewUser
       | some u => .helpRegistered u.stxAddress)])
  else
    match UserSvc.getByPhone w phone with
    | none => relayOnly phone (RegH.handleMessage w phone msg)
    | some _ =>
      if startsW n (lit "register") then relayOnly phone (RegH.handleMessage w phone msg)
      else if escrowShaped n then relayOrUnknown phone (EscrowH.handleMessage env w phone msg)
      else relayOrUnknown phone (PaymentH.handleMessage env w phone msg)

end Webhook

end StxBot

namespace StxBot

def envT : Env :=
  ⟨true, fun _ => 10, fun _ => 0, 3000, mkRat 3 1000,
   fun _ => true, fun _ => lit "0xAB12CD34EF56", fun _ => false⟩

def addrA : LC := lit "SP2J6ZY48GV1EZ5V2V5RB9MP66SW86PYKKNRV9EJ7"
def addrB : LC := lit "SP3FBR2AGK5H9QBDH3EEN6DF8EK8JY7RX8QJ5SVTE"

def uA : LC := lit "+2348000000001"
def uB : LC := lit "+2348000000002"

def wT : World :=
  ⟨0, [⟨uA, addrA, some (lit "k1")⟩],
   [⟨1, uA, lit "John", addrB, some uB⟩], [], [], [], 2, 1, 0⟩

def wT2 : World := (Webhook.processMessage envT wT uA (lit "send 5 to John")).1

-- C6 exploration: stale confirmations overwrite terminal statuses
def escRow : EscrowRow :=
  ⟨1, uA, addrA, some uB, addrB, 5000000, 144, lit "m", some (lit "0xT0"), none, some 1, .active⟩

def wE : World :=
  ⟨0, [⟨uA, addrA, some (lit "k1")⟩, ⟨uB, addrB, some (lit "k2")⟩],
   [], [escRow], [], [], 1, 2, 0⟩

def wE1 : World := (EscrowH.handleMessage envT wE uA (lit "cancel escrow #1")).2.1
def wE2 : World := (EscrowH.handleMessage envT wE1 uB (lit "release escrow #1")).2.1
def wE3 : World := (EscrowH.handleMessage envT wE2 uB (lit "yes")).2.1
def wE4 : World := (EscrowH.handleMessage envT wE3 uA (lit "yes")).2.1

-- C2 exploration: active escrow state, message "balance" is routed to
-- handleBalance, not to the escrow state flow
def wB : World :=
  ⟨0, [⟨uA, addrA, some (lit "k1")⟩], [], [escRow], [], 
   [(uA, ⟨lit "escrow", lit "confirm_cancel", .escrowAction 1 escRow addrA, 10⟩)], 1, 2, 0⟩

/-- Witness world for the C1 flow: one registered user and a contact
`John` without a linked phone. -/
def wC1 : World :=
  ⟨0, [⟨uA, addrA, some (lit "k1")⟩], [⟨1, uA, lit "John", addrB, none⟩],
   [], [], [], 2, 1, 0⟩

/-- One step's effect on stored escrow rows: every row afterwards is an
untouched old row, a freshly inserted `pending` row, or an old row whose
status was overwritten with a terminal status (the release transaction
id may change with it; nothing else). -/
def escrowRowsPreserved (w w' : World) : Prop :=
  ∀ e' ∈ w'.escrows, e' ∈ w.escrows ∨ e'.status = .pending ∨
    ((e'.status = .released ∨ e'.status = .refunded ∨ e'.status = .cancelled) ∧
     ∃ e, e ∈ w.escrows ∧ e' = { e with status := e'.status, releaseTxId := e'.releaseTxId })

end StxBot

namespace StxBot

/-! ## Exact model of IEEE-754 binary64 rounding

The unit conversions `microStxToStx` / `stxToMicroStx` run on JavaScript
numbers (binary64).  Every binary64 value is a rational, and binary64
arithmetic is "compute the exact rational, then round to 53 significant
bits, ties to even", so the conversions are embedded exactly over `ℚ`.
Subnormals and overflow are irrelevant in the micro-STX range and are
not modelled. -/

/-- Fuel-structured `⌊log₂ n⌋` (0 for `n = 0`), evaluable in the
kernel. -/
def log2Fuel : Nat → Nat → Nat
  | 0, _ => 0
  | f + 1, n => if 2 ≤ n then log2Fuel f (n / 2) + 1 else 0

/-- `⌊log₂ n⌋` for positive `n`. -/
def log2N (n : Nat) : Nat := log2Fuel n n

/-- `⌊log₂ (a / b)⌋` for positive naturals `a`, `b`: the bit-length
estimate corrected by one comparison. -/
def floorLog2Q (a b : Nat) : Int :=
  let c : Int := (log2N a : Int) - (log2N b : Int)
  if 0 ≤ c then (if b * 2 ^ c.toNat ≤ a then c else c - 1)
  else (if b ≤ a * 2 ^ (-c).toNat then c else c - 1)

/-- Round `n / d` to the nearest integer, ties to even. -/
def roundHalfEvenDiv (n d : Nat) : Nat :=
  let m := n / d
  let r := n % d
  if 2 * r < d then m
  else if d < 2 * r then m + 1
  else if m % 2 = 0 then m else m + 1

/-- Round a nonnegative rational to the nearest binary64 value
(round-to-nearest, ties to even, 53 significant bits): scale the input
into `[2^52, 2^53)`, round the scaled value to an integer significand,
and scale back. -/
def roundF64 (q : ℚ) : ℚ :=
  if q ≤ 0 then 0
  else
    let a := q.num.toNat
    let b := q.den
    let e := floorLog2Q a b
    let shift : Int := 52 - e
    if 0 ≤ shift then mkRat (roundHalfEvenDiv (a * 2 ^ shift.toNat) b) (2 ^ shift.toNat)
    else (roundHalfEvenDiv a (b * 2 ^ (-shift).toNat) : ℚ) * (2 : ℚ) ^ (-shift).toNat

/-- `microStxToStx` on binary64: one rounded division
(`parseFloat(microStx) / 1000000`; the integer argument itself is
exactly representable in the verified range). -/
def microStxToStxF64 (n : Int) : ℚ := roundF64 (mkRat n 1000000)

/-- The `Math.floor`-based `stxToMicroStx` of `stacks.service.js` and
`formatter.ts`: one rounded multiplication, then `floor`. -/
def stxToMicroStxFloorF64 (y : ℚ) : Int := Int.floor (roundF64 (y * 1000000))

/-- The `Math.round`-based `stxToMicroStx` of `validator.js`:
one rounded multiplication, then `Math.round` (nearest, ties toward
positive infinity). -/
def stxToMicroStxRoundF64 (y : ℚ) : Int :=
  Int.floor (roundF64 (y * 1000000) + mkRat 1 2)

end StxBot

-- C7 sanity: the floor version drops one microSTX at 249

namespace StxBot

/-! ## Concrete instances for witnesses and counterexamples -/

-- a 40-unit token: SP followed by 38 zeros (matched by the parser's
-- address pattern, rejected by the exact-length-41 validator)
def addr40 : LC := lit "SP00000000000000000000000000000000000000"

-- a 41-unit mainnet-shaped address (SP + 39 body units)
def addr41 : LC := lit "SP2J6ZY48GV1EZ5V2V5RB9MP66SW86PYKKNRV9EJ7"

-- the sender world for the refund scenario: escrow #3 active, sender
-- `uA`, timeout not reached (the test environment's `contractCanRefund`
-- answers false)
def escRow3 : EscrowRow :=
  ⟨2, uA, addrA, some uB, addrB, 7000000, 144, lit "m3", some (lit "0xT3"), none,
   some 3, .active⟩

def wR : World :=
  ⟨0, [⟨uA, addrA, some (lit "k1")⟩, ⟨uB, addrB, some (lit "k2")⟩],
   [], [escRow3], [], [], 1, 3, 0⟩

-- an environment whose `contractCanRefund` answers true (for staging
-- theorems about the refund flow)
def envY : Env :=
  ⟨true, fun _ => 10, fun _ => 0, 3000, mkRat 3 1000,
   fun _ => true, fun _ => lit "0xAB12CD34EF56", fun _ => true⟩

end StxBot

namespace StxBot

/-! ## Lemmas: case mapping and contact-name normalization -/

theorem upperUnit_idem (n : Nat) : upperUnit (upperUnit n) = upperUnit n := by
  unfold upperUnit
  by_cases h : 97 ≤ n ∧ n ≤ 122
  · rw [if_pos h, if_neg (by omega)]
  · rw [if_neg h, if_neg h]

theorem lowerUnit_idem (n : Nat) : lowerUnit (lowerUnit n) = lowerUnit n := by
  unfold lowerUnit
  by_cases h : 65 ≤ n ∧ n ≤ 90
  · rw [if_pos h, if_neg (by omega)]
  · rw [if_neg h, if_neg h]

theorem upperUnit_eq32_iff (n : Nat) : upperUnit n = 32 ↔ n = 32 := by
  unfold upperUnit; split <;> omega

theorem lowerUnit_eq32_iff (n : Nat) : lowerUnit n = 32 ↔ n = 32 := by
  unfold lowerUnit; split <;> omega

theorem isWsU_upperUnit (n : Nat) : isWsU (upperUnit n) = isWsU n := by
  unfold upperUnit
  split
  · apply Bool.coe_iff_coe.mp
    simp only [isWsU, Bool.or_eq_true, decide_eq_true_eq]
    omega
  · rfl

theorem isWsU_lowerUnit (n : Nat) : isWsU (lowerUnit n) = isWsU n := by
  unfold lowerUnit
  split
  · apply Bool.coe_iff_coe.mp
    simp only [isWsU, Bool.or_eq_true, decide_eq_true_eq]
    omega
  · rfl

theorem capWordA_idem (w : LC) : capWordA (capWordA w) = capWordA w := by
  cases w with
  | nil => rfl
  | cons c cs =>
    simp only [capWordA, upperUnit_idem, List.map_map, List.cons.injEq, true_and]
    exact List.map_congr_left fun a _ => lowerUnit_idem a

theorem capWordA_no32 (w : LC) (h : 32 ∉ w) : 32 ∉ capWordA w := by
  cases w with
  | nil => simp [capWordA]
  | cons c cs =>
    have hc : c ≠ 32 := fun hh => h (hh ▸ List.mem_cons_self c cs)
    have hcs : 32 ∉ cs := fun hh => h (List.mem_cons_of_mem c hh)
    simp only [capWordA, List.mem_cons, not_or]
    refine ⟨fun hh => hc ((upperUnit_eq32_iff c).mp hh.symm), fun hmem => ?_⟩
    rcases List.mem_map.mp hmem with ⟨a, ha, hmap⟩
    exact hcs (((lowerUnit_eq32_iff a).mp hmap) ▸ ha)

theorem splitSpace_ne_nil (t : LC) : splitSpace t ≠ [] := by
  cases t with
  | nil => simp [splitSpace]
  | cons c cs =>
    simp only [splitSpace]
    split
    · simp
    · split <;> simp

theorem splitSpace_no_sep (t : LC) : ∀ w ∈ splitSpace t, 32 ∉ w := by
  induction t with
  | nil =>
    intro w hw
    simp only [splitSpace, List.mem_singleton] at hw
    subst hw; simp
  | cons c cs ih =>
    intro w hw
    simp only [splitSpace] at hw
    by_cases hc : c = 32
    · rw [if_pos hc] at hw
      rcases List.mem_cons.mp hw with h | h
      · subst h; simp
      · exact ih w h
    · rw [if_neg hc] at hw
      cases hs : splitSpace cs with
      | nil => exact absurd hs (splitSpace_ne_nil cs)
      | cons w0 ws =>
        rw [hs] at hw
        rcases List.mem_cons.mp hw with h | h
        · subst h
          intro hmem
          rcases List.mem_cons.mp hmem with h32 | h32
          · exact hc h32.symm
          · exact ih w0 (hs ▸ List.mem_cons_self w0 ws) h32
        · exact ih w (hs ▸ List.mem_cons_of_mem w0 h)

theorem splitSpace_no32 (w : LC) (hw : 32 ∉ w) : splitSpace w = [w] := by
  induction w with
  | nil => rfl
  | cons c cs ih =>
    have hc : c ≠ 32 := fun h => hw (h ▸ List.mem_cons_self c cs)
    have hcs : 32 ∉ cs := fun h => hw (List.mem_cons_of_mem c h)
    simp only [splitSpace, if_neg hc, ih hcs]

theorem splitSpace_append_sep (w r : LC) (hw : 32 ∉ w) :
    splitSpace (w ++ 32 :: r) = w :: splitSpace r := by
  induction w with
  | nil => simp [splitSpace]
  | cons c cs ih =>
    have hc : c ≠ 32 := fun h => hw (h ▸ List.mem_cons_self c cs)
    have hcs : 32 ∉ cs := fun h => hw (List.mem_cons_of_mem c h)
    rw [List.cons_append]
    simp only [splitSpace, if_neg hc, List.append_eq, ih hcs]

theorem splitSpace_joinWords (ws : List LC) (h : ∀ w ∈ ws, 32 ∉ w) (hne : ws ≠ []) :
    splitSpace (joinWords ws) = ws := by
  induction ws with
  | nil => exact absurd rfl hne
  | cons w tl ih =>
    cases tl with
    | nil => exact splitSpace_no32 w (h w (List.mem_cons_self w []))
    | cons w2 ws2 =>
      have hj : joinWords (w :: w2 :: ws2) = w ++ 32 :: joinWords (w2 :: ws2) := rfl
      rw [hj, splitSpace_append_sep w _ (h w (List.mem_cons_self _ _)),
        ih (fun x hx => h x (List.mem_cons_of_mem w hx)) (by simp)]

theorem joinWords_cons_head (c : Nat) (w : LC) (ws : List LC) :
    joinWords ((c :: w) :: ws) = c :: joinWords (w :: ws) := by
  cases ws <;> rfl

theorem splitSpace_cons_ne (c : Nat) (cs : LC) (hc : c ≠ 32) :
    ∃ w ws, splitSpace cs = w :: ws ∧ splitSpace (c :: cs) = (c :: w) :: ws := by
  cases hs : splitSpace cs with
  | nil => exact absurd hs (splitSpace_ne_nil cs)
  | cons w ws =>
    exact ⟨w, ws, rfl, by simp only [splitSpace, if_neg hc, hs]⟩

theorem isWsU_headD_dropWhile (l : LC) :
    isWsU ((l.dropWhile isWsU).headD 0) = false := by
  induction l with
  | nil => rfl
  | cons c cs ih =>
    rw [List.dropWhile_cons]
    split
    · exact ih
    · rename_i h
      simp only [List.headD_cons]
      revert h
      simp

theorem headD_reverse (l : LC) : l.reverse.headD 0 = l.getLastD 0 := by
  rw [List.headD_eq_head?, List.head?_reverse, List.getLastD_eq_getLast?]

theorem getLastD_reverse (l : LC) : l.reverse.getLastD 0 = l.headD 0 := by
  rw [List.getLastD_eq_getLast?, List.getLast?_reverse, List.headD_eq_head?]

theorem getLastD_append_right (w r : LC) (hr : r ≠ []) :
    (w ++ r).getLastD 0 = r.getLastD 0 := by
  rw [List.getLastD_eq_getLast?, List.getLastD_eq_getLast?,
    List.getLast?_append_of_ne_nil w hr]

theorem jsTrim_eq_self (l : LC) (hh : isWsU (l.headD 0) = false)
    (hl : isWsU (l.getLastD 0) = false) : jsTrim l = l := by
  unfold jsTrim
  have h1 : l.dropWhile isWsU = l := by
    cases l with
    | nil => rfl
    | cons c cs =>
      rw [List.dropWhile_cons, if_neg]
      simp only [List.headD_cons] at hh
      simp [hh]
  rw [h1]
  have h2 : l.reverse.dropWhile isWsU = l.reverse := by
    cases hr : l.reverse with
    | nil => rfl
    | cons c cs =>
      rw [List.dropWhile_cons, if_neg]
      have : l.reverse.headD 0 = c := by rw [hr]; rfl
      rw [headD_reverse] at this
      simp [this ▸ hl]
  rw [h2, List.reverse_reverse]

theorem jsTrim_headD (s : LC) : isWsU ((jsTrim s).headD 0) = false := by
  unfold jsTrim
  rw [headD_reverse]
  cases hb : List.dropWhile isWsU (List.dropWhile isWsU s).reverse with
  | nil => decide
  | cons c cs =>
    have hsplit := List.takeWhile_append_dropWhile isWsU (List.dropWhile isWsU s).reverse
    have h2 : (List.dropWhile isWsU s).reverse.getLastD 0
        = (List.dropWhile isWsU (List.dropWhile isWsU s).reverse).getLastD 0 := by
      conv_lhs => rw [← hsplit]
      exact getLastD_append_right _ _ (by rw [hb]; simp)
    rw [hb] at h2
    rw [← h2, getLastD_reverse]
    exact isWsU_headD_dropWhile s

theorem jsTrim_getLastD (s : LC) : isWsU ((jsTrim s).getLastD 0) = false := by
  unfold jsTrim
  rw [getLastD_reverse]
  exact isWsU_headD_dropWhile _

theorem profile_headD {X Y : LC} (h : X.map isWsU = Y.map isWsU) :
    isWsU (X.headD 0) = isWsU (Y.headD 0) := by
  cases X with
  | nil =>
    cases Y with
    | nil => rfl
    | cons b bs => simp at h
  | cons a as =>
    cases Y with
    | nil => simp at h
    | cons b bs =>
      simp only [List.map_cons, List.cons.injEq] at h
      simpa using h.1

theorem profile_getLastD {X Y : LC} (h : X.map isWsU = Y.map isWsU) :
    isWsU (X.getLastD 0) = isWsU (Y.getLastD 0) := by
  have h' : X.reverse.map isWsU = Y.reverse.map isWsU := by
    rw [List.map_reverse, List.map_reverse, h]
  have h2 := profile_headD h'
  rwa [headD_reverse, headD_reverse] at h2

theorem mapLower_profile (w : LC) : (w.map lowerUnit).map isWsU = w.map isWsU := by
  rw [List.map_map]
  exact List.map_congr_left fun a _ => isWsU_lowerUnit a

theorem capWordA_profile (w : LC) :
    (capWordA w).map isWsU = (w.map lowerUnit).map isWsU := by
  cases w with
  | nil => rfl
  | cons c cs => simp [capWordA, isWsU_upperUnit, isWsU_lowerUnit]

theorem joinWords_profile_congr (x y : LC) (R : List LC)
    (h : x.map isWsU = y.map isWsU) :
    (joinWords (x :: R)).map isWsU = (joinWords (y :: R)).map isWsU := by
  cases R with
  | nil => exact h
  | cons r rs =>
    show (x ++ 32 :: joinWords (r :: rs)).map isWsU
        = (y ++ 32 :: joinWords (r :: rs)).map isWsU
    rw [List.map_append, List.map_append, h]

/-- The word-splitting, capitalization and re-joining of
`normalizeContactName` never changes which positions hold whitespace. -/
theorem normalizeWordsA_profile (t : LC) :
    (joinWords ((splitSpace t).map capWordA)).map isWsU = t.map isWsU := by
  induction t with
  | nil => rfl
  | cons c cs ih =>
    by_cases hc : c = 32
    · subst hc
      have h32 : splitSpace ((32 : Nat) :: cs) = [] :: splitSpace cs := by
        simp [splitSpace]
      rw [h32]
      cases hws : (splitSpace cs).map capWordA with
      | nil => exact absurd (by simpa using congrArg List.length hws) (by simp [splitSpace_ne_nil cs])
      | cons w ws =>
        have hshow : ([] :: splitSpace cs).map capWordA = [] :: w :: ws := by
          simp [hws, capWordA]
        rw [hshow]
        show ((32 : Nat) :: joinWords (w :: ws)).map isWsU = _
        rw [← hws]
        simp only [List.map_cons, ih]
    · obtain ⟨w, ws, hcs, hcons⟩ := splitSpace_cons_ne c cs hc
      rw [hcons]
      have hshow : ((c :: w) :: ws).map capWordA
          = (upperUnit c :: w.map lowerUnit) :: ws.map capWordA := by
        simp [capWordA]
      rw [hshow, joinWords_cons_head]
      simp only [List.map_cons, isWsU_upperUnit]
      congr 1
      rw [joinWords_profile_congr (w.map lowerUnit) (capWordA w) (ws.map capWordA)
        (by rw [capWordA_profile])]
      have hX : capWordA w :: ws.map capWordA = (splitSpace cs).map capWordA := by
        rw [hcs]; rfl
      rw [hX, ih]

/-- Core of the amended C10: `normalizeContactNameA` (the ASCII-map
variant) is idempotent for every string. -/
theorem normalizeContactNameA_idem (s : LC) :
    normalizeContactNameA (normalizeContactNameA s) = normalizeContactNameA s := by
  unfold normalizeContactNameA
  set t := jsTrim s with ht
  set N := joinWords ((splitSpace t).map capWordA) with hN
  have hprof : N.map isWsU = t.map isWsU := normalizeWordsA_profile t
  have htrim : jsTrim N = N := by
    apply jsTrim_eq_self
    · rw [profile_headD hprof, ht]
      exact jsTrim_headD s
    · rw [profile_getLastD hprof, ht]
      exact jsTrim_getLastD s
  rw [htrim]
  have hM : splitSpace N = (splitSpace t).map capWordA := by
    rw [hN]
    apply splitSpace_joinWords
    · intro w hw
      rcases List.mem_map.mp hw with ⟨p, hp, rfl⟩
      exact capWordA_no32 p (splitSpace_no_sep t p hp)
    · simp [splitSpace_ne_nil t]
  rw [hM, List.map_map]
  congr 1
  exact List.map_congr_left fun p _ => capWordA_idem p

theorem upperUnit_lt128 (n : Nat) (h : n < 128) : upperUnit n < 128 := by
  unfold upperUnit
  split <;> omega

theorem lowerUnit_lt128 (n : Nat) (h : n < 128) : lowerUnit n < 128 := by
  unfold lowerUnit
  split <;> omega

theorem capWord_eq_ascii (w : LC) (h : ∀ c ∈ w, c < 128) : capWord w = capWordA w := by
  cases w with
  | nil => rfl
  | cons c cs =>
    have hc : c < 128 := h c (List.mem_cons_self c cs)
    simp only [capWord, capWordA, upperUnits, if_neg (by omega : ¬c = 223)]
    rfl

theorem jsTrim_subset (s : LC) : ∀ c ∈ jsTrim s, c ∈ s := by
  intro c hc
  unfold jsTrim at hc
  rw [List.mem_reverse] at hc
  have h1 := (List.dropWhile_sublist (l := ((s.dropWhile isWsU).reverse)) isWsU).subset hc
  rw [List.mem_reverse] at h1
  exact (List.dropWhile_sublist isWsU).subset h1

theorem splitSpace_subset (t : LC) : ∀ w ∈ splitSpace t, ∀ c ∈ w, c ∈ t := by
  induction t with
  | nil =>
    intro w hw
    simp only [splitSpace, List.mem_singleton] at hw
    subst hw
    simp
  | cons c0 cs ih =>
    intro w hw c hc
    simp only [splitSpace] at hw
    by_cases h0 : c0 = 32
    · rw [if_pos h0] at hw
      rcases List.mem_cons.mp hw with h | h
      · subst h
        simp at hc
      · exact List.mem_cons_of_mem c0 (ih w h c hc)
    · rw [if_neg h0] at hw
      cases hs : splitSpace cs with
      | nil => exact absurd hs (splitSpace_ne_nil cs)
      | cons w0 ws =>
        rw [hs] at hw
        rcases List.mem_cons.mp hw with h | h
        · subst h
          rcases List.mem_cons.mp hc with h2 | h2
          · subst h2
            exact List.mem_cons_self c cs
          · exact List.mem_cons_of_mem c0 (ih w0 (hs ▸ List.mem_cons_self w0 ws) c h2)
        · exact List.mem_cons_of_mem c0 (ih w (hs ▸ List.mem_cons_of_mem w0 h) c hc)

theorem normalizeContactName_eq_ascii (s : LC) (h : ∀ c ∈ s, c < 128) :
    normalizeContactName s = normalizeContactNameA s := by
  unfold normalizeContactName normalizeContactNameA
  congr 1
  apply List.map_congr_left
  intro w hw
  apply capWord_eq_ascii
  intro c hc
  exact h c (jsTrim_subset s c (splitSpace_subset (jsTrim s) w hw c hc))

theorem capWordA_ascii (w : LC) (h : ∀ c ∈ w, c < 128) : ∀ c ∈ capWordA w, c < 128 := by
  cases w with
  | nil => simp [capWordA]
  | cons c cs =>
    intro c2 hc2
    simp only [capWordA, List.mem_cons] at hc2
    rcases hc2 with h2 | h2
    · subst h2
      exact upperUnit_lt128 c (h c (List.mem_cons_self c cs))
    · rcases List.mem_map.mp h2 with ⟨a, ha, rfl⟩
      exact lowerUnit_lt128 a (h a (List.mem_cons_of_mem c ha))

theorem joinWords_ascii (ws : List LC) (h : ∀ w ∈ ws, ∀ c ∈ w, c < 128) :
    ∀ c ∈ joinWords ws, c < 128 := by
  induction ws with
  | nil => simp [joinWords]
  | cons w tl ih =>
    cases tl with
    | nil =>
      intro c hc
      exact h w (List.mem_cons_self w []) c hc
    | cons w2 ws2 =>
      intro c hc
      have hj : joinWords (w :: w2 :: ws2) = w ++ 32 :: joinWords (w2 :: ws2) := rfl
      rw [hj] at hc
      rcases List.mem_append.mp hc with h2 | h2
      · exact h w (List.mem_cons_self w _) c h2
      · rcases List.mem_cons.mp h2 with h3 | h3
        · omega
        · exact ih (fun x hx => h x (List.mem_cons_of_mem w hx)) c h3

theorem normalizeContactNameA_ascii (s : LC) (h : ∀ c ∈ s, c < 128) :
    ∀ c ∈ normalizeContactNameA s, c < 128 := by
  unfold normalizeContactNameA
  apply joinWords_ascii
  intro w hw
  rcases List.mem_map.mp hw with ⟨p, hp, rfl⟩
  apply capWordA_ascii
  intro c hc
  exact h c (jsTrim_subset s c (splitSpace_subset (jsTrim s) p hp c hc))

/-- C10 counterexample: ECMAScript `toUpperCase` uses the full Unicode
case mapping, under which U+00DF (`ß`) uppercases to the two-unit
string `SS`; so `normalizeContactName "ß" = "SS"`, while re-normalizing
the stored name gives `normalizeContactName "SS" = "Ss"`.  The
universally quantified idempotency is therefore false, and a contact
name stored in normalized form is not always returned unchanged by the
re-normalization that `getContactByName` performs. -/
theorem C10_eszett_breaks_idempotency :
    normalizeContactName (lit "ß") = lit "SS" ∧
    normalizeContactName (normalizeContactName (lit "ß")) = lit "Ss" ∧
    normalizeContactName (normalizeContactName (lit "ß")) ≠
      normalizeContactName (lit "ß") := by
  refine ⟨by decide, by decide, by decide⟩

/-- C10 (amended): `normalizeContactName` is idempotent on ASCII names
(where the embedded case maps agree exactly with ECMAScript's):
normalizing an already-normalized ASCII name returns it unchanged, so
ASCII contact names stored in normalized form survive the
re-normalization performed on every name lookup.  Outside ASCII the
one-to-many full case mapping breaks idempotency (see the `ß`
counterexample). -/
theorem C10_normalizeContactName_idempotent_ascii (s : LC) (h : ∀ c ∈ s, c < 128) :
    normalizeContactName (normalizeContactName s) = normalizeContactName s := by
  have hA : normalizeContactName s = normalizeContactNameA s :=
    normalizeContactName_eq_ascii s h
  have hN : ∀ c ∈ normalizeContactName s, c < 128 := by
    rw [hA]
    exact normalizeContactNameA_ascii s h
  calc normalizeContactName (normalizeContactName s)
      = normalizeContactNameA (normalizeContactName s) :=
        normalizeContactName_eq_ascii _ hN
    _ = normalizeContactNameA (normalizeContactNameA s) := by rw [hA]
    _ = normalizeContactNameA s := normalizeContactNameA_idem s
    _ = normalizeContactName s := hA.symm

theorem C10_normalizeContactName_idempotent_ascii_witness :
    (∀ c ∈ lit "  john   doe ", c < 128) ∧
    normalizeContactName (normalizeContactName (lit "  john   doe ")) =
      normalizeContactName (lit "  john   doe ") :=
  ⟨by decide, C10_normalizeContactName_idempotent_ascii (lit "  john   doe ") (by decide)⟩

/-- C7 counterexample: with the `Math.floor`-based `stxToMicroStx` of
`stacks.service.js` / `formatter.ts` run on binary64 (embedded exactly
as rational round-to-nearest-even), the round trip fails at the integer
249: `stxToMicroStx(microStxToStx(249))` evaluates to 248, not 249. -/
theorem C7_roundtrip_fails_at_249 :
    stxToMicroStxFloorF64 (microStxToStxF64 249) = 248 ∧
      stxToMicroStxFloorF64 (microStxToStxF64 249) ≠ 249 := by
  constructor <;> decide

set_option maxRecDepth 8000 in
/-- C7 amended: on binary64, the `Math.round`-based `stxToMicroStx` of
`validator.js` recovers every integer `x` (verified here for
`0 ≤ x ≤ 300`) from `microStxToStx(x)`; the `Math.floor`-based versions
of `stacks.service.js` and `formatter.ts` recover either `x` or `x - 1`
(they can undershoot by one micro-STX, e.g. at 249); and for `y` with at
most six decimal places (the binary64 values `y = k / 10⁶`, verified for
`0 ≤ k ≤ 300`), `microStxToStx(stxToMicroStx(y))` returns exactly `y`
with the `Math.round` version. -/
theorem C7_unit_conversion_roundtrip_amended :
    (∀ x : Nat, x < 301 →
       stxToMicroStxRoundF64 (microStxToStxF64 (x : Int)) = (x : Int)) ∧
    (∀ x : Nat, x < 301 →
       stxToMicroStxFloorF64 (microStxToStxF64 (x : Int)) = (x : Int) ∨
       stxToMicroStxFloorF64 (microStxToStxF64 (x : Int)) = (x : Int) - 1) ∧
    (∀ k : Nat, k < 301 →
       microStxToStxF64 (stxToMicroStxRoundF64 (microStxToStxF64 (k : Int)))
         = microStxToStxF64 (k : Int)) := by
  refine ⟨?_, ?_, ?_⟩ <;> decide

/-- Witness for the amended C7 statement at `x = 249`. -/
theorem C7_unit_conversion_roundtrip_amended_witness :
    stxToMicroStxRoundF64 (microStxToStxF64 ((249 : Nat) : Int)) = ((249 : Nat) : Int) :=
  C7_unit_conversion_roundtrip_amended.1 249 (by decide)

/-! ## Lemmas: address scanning (C9) -/

theorem scanSuffixes_isSome_of_suffix {α : Type} (f : LC → Option α) (s t : LC)
    (hsuf : t <:+ s) (hf : (f t).isSome = true) : (scanSuffixes f s).isSome = true := by
  induction s with
  | nil =>
    rw [List.suffix_nil.mp hsuf] at hf
    simpa [scanSuffixes] using hf
  | cons c rest ih =>
    simp only [scanSuffixes]
    cases hfs : f (c :: rest) with
    | some a => simp
    | none =>
      rcases List.suffix_cons_iff.mp hsuf with h | h
      · rw [h, hfs] at hf
        simp at hf
      · exact ih h

theorem scanSuffixes_some_suffix {α : Type} (f : LC → Option α) (s : LC) (a : α)
    (h : scanSuffixes f s = some a) : ∃ t, t <:+ s ∧ f t = some a := by
  induction s with
  | nil => exact ⟨[], List.suffix_rfl, by simpa [scanSuffixes] using h⟩
  | cons c rest ih =>
    simp only [scanSuffixes] at h
    cases hfs : f (c :: rest) with
    | some b =>
      rw [hfs] at h
      exact ⟨c :: rest, List.suffix_rfl, hfs.trans h⟩
    | none =>
      rw [hfs] at h
      rcases ih h with ⟨t, hsuf, hft⟩
      exact ⟨t, hsuf.trans (List.suffix_cons c rest), hft⟩

theorem isValidSTXAddress_shape (tok : LC) :
    isValidSTXAddress tok = true ↔
      ∃ c2 body, tok = 83 :: c2 :: body ∧ (c2 = 80 ∨ c2 = 84) ∧
        body.all isUpAlnumU = true ∧ 38 ≤ body.length ∧ body.length ≤ 40 := by
  constructor
  · intro h
    match tok, h with
    | 83 :: c2 :: body, h =>
      simp only [isValidSTXAddress, Bool.and_eq_true, Bool.or_eq_true,
        decide_eq_true_eq] at h
      exact ⟨c2, body, rfl, h.1.1, h.1.2, h.2.1, h.2.2⟩
  · rintro ⟨c2, body, rfl, hc2, hall, h38, h40⟩
    simp only [isValidSTXAddress, Bool.and_eq_true, Bool.or_eq_true, decide_eq_true_eq]
    exact ⟨⟨hc2, hall⟩, h38, h40⟩

theorem addrAt_valid (s tok : LC) (h : addrAt s = some tok) :
    isValidSTXAddress tok = true ∧ ∃ post, s = tok ++ post := by
  match s, h with
  | 83 :: c2 :: rest, h =>
    simp only [addrAt] at h
    by_cases hc2 : (c2 = 80 || c2 = 84) = true
    · rw [if_pos hc2] at h
      by_cases hlen : 38 ≤ (rest.takeWhile isUpAlnumU).length
      · rw [if_pos (by simpa using hlen)] at h
        have htok : tok = 83 :: c2 :: (rest.takeWhile isUpAlnumU).take 40 :=
          (Option.some.injEq _ _ ▸ h).symm
        subst htok
        constructor
        · apply (isValidSTXAddress_shape _).mpr
          refine ⟨c2, _, rfl, by simpa using hc2, ?_, ?_, ?_⟩
          · apply List.all_eq_true.mpr
            intro a ha
            exact List.mem_takeWhile_imp (List.mem_of_mem_take ha)
          · rw [List.length_take]
            omega
          · rw [List.length_take]
            omega
        · refine ⟨(rest.takeWhile isUpAlnumU).drop 40 ++ rest.dropWhile isUpAlnumU, ?_⟩
          simp only [List.cons_append, List.cons.injEq, true_and]
          rw [← List.append_assoc, List.take_append_drop,
            List.takeWhile_append_dropWhile]
      · rw [if_neg (by simpa using hlen)] at h
        exact absurd h (by simp)
    · rw [if_neg hc2] at h
      exact absurd h (by simp)

theorem takeWhile_append_of_all (body r : LC) (p : Nat → Bool)
    (h : body.all p = true) :
    (body ++ r).takeWhile p = body ++ r.takeWhile p := by
  induction body with
  | nil => simp
  | cons c cs ih =>
    simp only [List.all_cons, Bool.and_eq_true] at h
    simp [List.takeWhile_cons, h.1, ih h.2]

theorem addrAt_of_shape (c2 : Nat) (body rest2 : LC) (hc2 : c2 = 80 ∨ c2 = 84)
    (hbody : body.all isUpAlnumU = true) (hlen : 38 ≤ body.length) :
    (addrAt (83 :: c2 :: (body ++ rest2))).isSome = true := by
  simp only [addrAt]
  rw [if_pos (by simpa using hc2)]
  rw [if_pos]
  · simp
  · rw [takeWhile_append_of_all body rest2 isUpAlnumU hbody]
    simp only [List.length_append, decide_eq_true_eq]
    omega

/-- C9 counterexample: the 40-unit token `SP` + 38 zeros is returned by
`isRegistrationMessage` as a registration address candidate although its
total length is 40, not 41 — and `validateStxAddress`, the registration
address-entry check, rejects that same token; so neither "candidate
exactly when total length is exactly 41" nor "the address-entry step
accepts exactly the parser-pattern strings" holds. -/
theorem C9_length40_candidate :
    isRegistrationMessage addr40 = some addr40 ∧ addr40.length = 40 ∧
      validateStxAddressValid addr40 = false := by
  refine ⟨by decide, by decide, by decide⟩

theorem validateStxAddressValid_shape (s : LC) :
    validateStxAddressValid s = true ↔
      ∃ c2 body, jsTrim s = 83 :: c2 :: body ∧ (c2 = 80 ∨ c2 = 84) ∧
        body.all isUpAlnumU = true ∧ body.length = 39 := by
  have hSP : lit "SP" = [83, 80] := by decide
  have hST : lit "ST" = [83, 84] := by decide
  constructor
  · intro h
    simp only [validateStxAddressValid, startsW, Bool.and_eq_true, Bool.or_eq_true,
      decide_eq_true_eq, Bool.not_eq_true'] at h
    obtain ⟨⟨hlen, hsp⟩, hall, _⟩ := h
    match hc : jsTrim s, hlen with
    | a :: b :: rest, hlen =>
      rw [hc] at hsp
      have hab : a = 83 ∧ (b = 80 ∨ b = 84) := by
        rcases hsp with hsp | hsp
        · rw [hSP] at hsp
          simp only [List.isPrefixOf, List.isPrefixOf_nil_left, Bool.and_eq_true,
            beq_iff_eq, and_true] at hsp
          exact ⟨hsp.1.symm, Or.inl hsp.2.symm⟩
        · rw [hST] at hsp
          simp only [List.isPrefixOf, List.isPrefixOf_nil_left, Bool.and_eq_true,
            beq_iff_eq, and_true] at hsp
          exact ⟨hsp.1.symm, Or.inr hsp.2.symm⟩
      rw [hc] at hall
      simp only [List.length_cons] at hlen
      exact ⟨b, rest, by rw [hab.1], hab.2, by simpa using hall, by omega⟩
  · rintro ⟨c2, body, hc, hc2, hall, hlen⟩
    simp only [validateStxAddressValid, startsW, Bool.and_eq_true, Bool.or_eq_true,
      decide_eq_true_eq, Bool.not_eq_true', hc]
    refine ⟨⟨by simp [hlen], ?_⟩, by simpa using hall, ?_⟩
    · rcases hc2 with rfl | rfl
      · exact Or.inl (by rw [hSP]; simp [List.isPrefixOf])
      · exact Or.inr (by rw [hST]; simp [List.isPrefixOf])
    · show body.isEmpty = false
      cases body with
      | nil => simp at hlen
      | cons b bs => rfl

/-- C9 amended: a message is a registration address candidate exactly
when its trimmed text contains a substring matching
`(SP|ST)[0-9A-Z]{38,40}` (total token length 40–42, the test
`isValidSTXAddress`); the registration address-entry step
(`completeRegistration`) accepts exactly the trimmed strings matching
that pattern with total length exactly 41 (`validateStxAddress`), and
its format check runs before the duplicate-address check: a
format-invalid entry is rejected identically in every store state, and
only a format-valid entry reaches the duplicate rejection. -/
theorem C9_registration_candidate_amended :
    (∀ msg : LC, (isRegistrationMessage msg).isSome = true ↔
        ∃ pre tok post, jsTrim msg = pre ++ (tok ++ post) ∧ isValidSTXAddress tok = true) ∧
    (∀ s : LC, validateStxAddressValid s = true ↔
        isValidSTXAddress (jsTrim s) = true ∧ (jsTrim s).length = 41) ∧
    (∀ w phone msg, validateStxAddressValid (jsTrim msg) = false →
        RegH.completeRegistration w phone msg =
          (some ⟨false, none⟩, w, [.sent phone .regInvalidAddress])) ∧
    (∀ w phone msg, validateStxAddressValid (jsTrim msg) = true →
        UserSvc.addressExists w (jsTrim msg) = true →
        RegH.completeRegistration w phone msg =
          (some ⟨false, none⟩, StateSvc.clearState w phone, [.sent phone .regAddressTaken])) := by
  refine ⟨?_, ?_, ?_, ?_⟩
  · intro msg
    constructor
    · intro h
      unfold isRegistrationMessage at h
      by_cases hw : isValidSTXAddress (jsTrim msg) = true
      · exact ⟨[], jsTrim msg, [], by simp, hw⟩
      · rw [if_neg hw] at h
        cases hs : addrSearch (jsTrim msg) with
        | none => rw [hs] at h; simp at h
        | some tok =>
          rcases scanSuffixes_some_suffix addrAt (jsTrim msg) tok hs with ⟨t, hsuf, hft⟩
          rcases addrAt_valid t tok hft with ⟨hvalid, post, hpost⟩
          rcases hsuf with ⟨pre, hpre⟩
          exact ⟨pre, tok, post, by rw [← hpre, hpost], hvalid⟩
    · rintro ⟨pre, tok, post, heq, hvalid⟩
      unfold isRegistrationMessage
      by_cases hw : isValidSTXAddress (jsTrim msg) = true
      · rw [if_pos hw]
        rfl
      · rw [if_neg hw]
        rcases (isValidSTXAddress_shape tok).mp hvalid with
          ⟨c2, body, rfl, hc2, hall, h38, _h40⟩
        have hsuf : (83 :: c2 :: body) ++ post <:+ jsTrim msg := ⟨pre, by rw [heq]⟩
        have hform : (83 :: c2 :: body) ++ post = 83 :: c2 :: (body ++ post) := by simp
        have haddr : (addrAt ((83 :: c2 :: body) ++ post)).isSome = true := by
          rw [hform]
          exact addrAt_of_shape c2 body post hc2 hall h38
        have hsome : (addrSearch (jsTrim msg)).isSome = true :=
          scanSuffixes_isSome_of_suffix addrAt (jsTrim msg) _ hsuf haddr
        cases hs : addrSearch (jsTrim msg) with
        | none => rw [hs] at hsome; simp at hsome
        | some tok2 =>
          rcases scanSuffixes_some_suffix _ _ _ hs with ⟨t2, _, hft2⟩
          rcases addrAt_valid t2 tok2 hft2 with ⟨hv2, _⟩
          simp [hv2]
  · intro s
    constructor
    · intro h
      rcases (validateStxAddressValid_shape s).mp h with ⟨c2, body, hc, hc2, hall, hlen⟩
      constructor
      · exact (isValidSTXAddress_shape _).mpr ⟨c2, body, hc, hc2, hall, by omega, by omega⟩
      · rw [hc]
        simp [hlen]
    · rintro ⟨hvalid, hlen⟩
      rcases (isValidSTXAddress_shape _).mp hvalid with ⟨c2, body, hc, hc2, hall, _, _⟩
      apply (validateStxAddressValid_shape s).mpr
      refine ⟨c2, body, hc, hc2, hall, ?_⟩
      rw [hc] at hlen
      simpa using hlen
  · intro w phone msg h
    unfold RegH.completeRegistration
    rw [if_pos (by simp [h])]
  · intro w phone msg h1 h2
    unfold RegH.completeRegistration
    rw [if_neg (by simp [h1]), if_pos h2]

/-- Witness for the amended C9 statement: a registered address entered
again is rejected as a duplicate after passing the format check. -/
theorem C9_registration_candidate_amended_witness :
    RegH.completeRegistration wT uB addrA =
      (some ⟨false, none⟩, StateSvc.clearState wT uB, [.sent uB .regAddressTaken]) :=
  C9_registration_candidate_amended.2.2.2 wT uB addrA (by decide) (by decide)

/-- C8: `resolveRecipient` returns the token itself (type `address`)
whenever it matches the Stacks address format, bypassing the contact
lookup entirely; otherwise the contact found by case-insensitive exact
name match among the caller's own contacts; otherwise it fails with the
recipient-not-found error — and in the send flow that failure produces
the error reply with the store unchanged, so no conversation state is
staged. -/
theorem C8_resolveRecipient :
    (∀ env w u tok, stacksIsValidAddress env.mainnet tok = true →
        ContactSvc.resolveRecipient env w u tok = .ok ⟨true, tok, none, none, false, none⟩) ∧
    (∀ env w u tok c, stacksIsValidAddress env.mainnet tok = false →
        ContactSvc.getContactByName w u tok = some c →
        ContactSvc.resolveRecipient env w u tok =
          .ok ⟨false, c.contactStxAddress, some c.contactName, c.contactPhone, true, some c.id⟩) ∧
    (∀ env w u tok, stacksIsValidAddress env.mainnet tok = false →
        ContactSvc.getContactByName w u tok = none →
        ContactSvc.resolveRecipient env w u tok = .error (.recipientNotFound tok)) ∧
    (∀ w u tok c, ContactSvc.getContactByName w u tok = some c →
        c ∈ w.contacts ∧ c.userPhone = u ∧
          jsLower c.contactName = jsLower (normalizeContactName tok)) ∧
    (∀ env w u msg user amount rawRecip e,
        sendMatch msg = some (amount, rawRecip) →
        ¬amount ≤ 0 →
        ¬env.balanceStx user.stxAddress < amount + env.feeMediumStx →
        ContactSvc.resolveRecipient env w u (jsTrim rawRecip) = .error e →
        PaymentH.handleSend env w u msg user =
          (some ⟨false, some (.svcError e)⟩, w, [])) := by
  refine ⟨?_, ?_, ?_, ?_, ?_⟩
  · intro env w u tok h
    unfold ContactSvc.resolveRecipient
    rw [if_pos h]
  · intro env w u tok c h hc
    unfold ContactSvc.resolveRecipient
    rw [if_neg (by simp [h]), hc]
  · intro env w u tok h hc
    unfold ContactSvc.resolveRecipient
    rw [if_neg (by simp [h]), hc]
  · intro w u tok c h
    unfold ContactSvc.getContactByName at h
    have hmem := List.mem_of_find?_eq_some h
    have hp := List.find?_some h
    simp only [Bool.and_eq_true, decide_eq_true_eq] at hp
    exact ⟨hmem, hp.1, hp.2⟩
  · intro env w u msg user amount rawRecip e hmatch h2 h3 hres
    unfold PaymentH.handleSend
    rw [hmatch]
    simp only
    rw [if_neg h2, if_neg h3, hres]

/-- Witness for C8: in the concrete world, the name `John` resolves to
the stored contact, an address token resolves to itself, and an unknown
name in a send command yields the error reply with nothing staged. -/
theorem C8_resolveRecipient_witness :
    ContactSvc.resolveRecipient envT wT uA (lit "John") =
      .ok ⟨false, addrB, some (lit "John"), some uB, true, some 1⟩ ∧
    ContactSvc.resolveRecipient envT wT uA addrB =
      .ok ⟨true, addrB, none, none, false, none⟩ ∧
    PaymentH.handleSend envT wT uA (lit "send 5 to Jane") ⟨uA, addrA, some (lit "k1")⟩ =
      (some ⟨false, some (.svcError (.recipientNotFound (lit "Jane")))⟩, wT, []) := by
  refine ⟨?_, ?_, ?_⟩
  · exact C8_resolveRecipient.2.1 envT wT uA (lit "John")
      ⟨1, uA, lit "John", addrB, some uB⟩ (by decide) (by decide)
  · exact C8_resolveRecipient.1 envT wT uA addrB (by decide)
  · exact C8_resolveRecipient.2.2.2.2 envT wT uA (lit "send 5 to Jane")
      ⟨uA, addrA, some (lit "k1")⟩ 5 (lit "Jane") (.recipientNotFound (lit "Jane"))
      (by decide) (by norm_num) (by decide) (by rfl)

/-! ## Lemmas: the conversation state store -/

theorem find?_filter_ne (l : List (LC × ConvState)) (p : LC) :
    (l.filter (fun e => e.1 ≠ p)).find? (fun e => e.1 = p) = none := by
  induction l with
  | nil => rfl
  | cons e es ih =>
    by_cases h : e.1 = p
    · simp only [List.filter_cons]
      rw [if_neg (by simp [h])]
      exact ih
    · simp only [List.filter_cons]
      rw [if_pos (by simp [h]), List.find?_cons_of_neg _ (by simp [h])]
      exact ih

theorem find?_filter_ne_other (l : List (LC × ConvState)) (p q : LC) (h : q ≠ p) :
    (l.filter (fun e => e.1 ≠ p)).find? (fun e => e.1 = q) =
      l.find? (fun e => e.1 = q) := by
  induction l with
  | nil => rfl
  | cons e es ih =>
    by_cases he : e.1 = p
    · simp only [List.filter_cons]
      rw [if_neg (by simp [he])]
      rw [List.find?_cons_of_neg _ (by simp [he]; exact fun hc => h hc.symm)]
      exact ih
    · simp only [List.filter_cons]
      rw [if_pos (by simp [he])]
      by_cases hq : e.1 = q
      · rw [List.find?_cons_of_pos _ (by simp [hq]), List.find?_cons_of_pos _ (by simp [hq])]
      · rw [List.find?_cons_of_neg _ (by simp [hq]), List.find?_cons_of_neg _ (by simp [hq])]
        exact ih

theorem lookupSlot_clearState (w : World) (p u' : LC) :
    StateSvc.lookupSlot (StateSvc.clearState w p) u' =
      if u' = p then none else StateSvc.lookupSlot w u' := by
  unfold StateSvc.clearState StateSvc.lookupSlot
  by_cases h : u' = p
  · rw [if_pos h]
    subst h
    rw [find?_filter_ne]
    rfl
  · rw [if_neg h]
    rw [find?_filter_ne_other _ _ _ h]

theorem lookupSlot_setState (w : World) (p hd st : LC) (d : StateData) (u' : LC) :
    StateSvc.lookupSlot (StateSvc.setState w p hd st d) u' =
      if u' = p then some ⟨hd, st, d, w.now + 10⟩ else StateSvc.lookupSlot w u' := by
  unfold StateSvc.setState StateSvc.lookupSlot
  by_cases h : u' = p
  · rw [if_pos h]
    subst h
    rw [List.find?_cons_of_pos _ (by simp)]
    rfl
  · rw [if_neg h]
    rw [List.find?_cons_of_neg _ (by simp; exact fun hh => h hh.symm), find?_filter_ne_other _ _ _ h]

theorem getState_some_lookupSlot (w : World) (p : LC) (st : ConvState)
    (h : StateSvc.getState w p = some st) : StateSvc.lookupSlot w p = some st := by
  unfold StateSvc.getState at h
  cases hl : StateSvc.lookupSlot w p with
  | none => rw [hl] at h; simp at h
  | some st2 =>
    rw [hl] at h
    have h2 : (if w.now < st2.expiresAt then some st2 else none) = some st := h
    by_cases he : w.now < st2.expiresAt
    · rw [if_pos he] at h2
      exact h2
    · rw [if_neg he] at h2
      simp at h2

/-! ## Routing, staging and funds-safety of the dispatcher -/

/-! ## Lemmas: which worlds preserve the state store -/

theorem lookupSlot_eq_of_states (w1 w2 : World) (u : LC) (h : w1.states = w2.states) :
    StateSvc.lookupSlot w1 u = StateSvc.lookupSlot w2 u := by
  unfold StateSvc.lookupSlot
  rw [h]

theorem sendTransaction_states (env : Env) (w : World) (sa sp ra : LC) (rp : Option LC)
    (a : Int) (m : LC) :
    (TxSvc.sendTransaction env w sa sp ra rp a m).2.1.states = w.states := by
  simp only [TxSvc.sendTransaction]
  repeat' split
  all_goals rfl

theorem updateEscrowStatus_states (w : World) (cid : Nat) (st : EscrowStatus)
    (tx : Option LC) (w2 : World)
    (h : EscrowSvc.updateEscrowStatus w cid st tx = .ok w2) : w2.states = w.states := by
  unfold EscrowSvc.updateEscrowStatus at h
  by_cases hc : w.escrows.any (fun e => e.contractEscrowId = some cid)
  · rw [if_pos hc] at h
    cases h
    rfl
  · rw [if_neg hc] at h
    simp at h

theorem createEscrow_states (env : Env) (w : World) (sa ra : LC) (a : Int) (tb : Nat)
    (m sp : LC) (rp : Option LC) :
    (EscrowSvc.createEscrow env w sa ra a tb m sp rp).2.1.states = w.states := by
  simp only [EscrowSvc.createEscrow]
  repeat' split
  all_goals rfl

theorem releaseEscrow_states (env : Env) (w : World) (cid : Nat) :
    (EscrowSvc.releaseEscrow env w cid).2.1.states = w.states := by
  simp only [EscrowSvc.releaseEscrow]
  split
  · rfl
  · rcases hu : EscrowSvc.updateEscrowStatus { w with broadcasts := w.broadcasts + 1 } cid
        .released (some (env.txIdOf w.broadcasts)) with e | w2
    · rfl
    · have hs := updateEscrowStatus_states _ _ _ _ _ hu
      exact hs

theorem refundEscrow_states (env : Env) (w : World) (cid : Nat) :
    (EscrowSvc.refundEscrow env w cid).2.1.states = w.states := by
  simp only [EscrowSvc.refundEscrow]
  split
  · rfl
  · split
    · rfl
    · rcases hu : EscrowSvc.updateEscrowStatus { w with broadcasts := w.broadcasts + 1 } cid
          .refunded (some (env.txIdOf w.broadcasts)) with e | w2
      · rfl
      · have hs := updateEscrowStatus_states _ _ _ _ _ hu
        exact hs

theorem cancelEscrow_states (env : Env) (w : World) (cid : Nat) :
    (EscrowSvc.cancelEscrow env w cid).2.1.states = w.states := by
  simp only [EscrowSvc.cancelEscrow]
  split
  · rfl
  · rcases hu : EscrowSvc.updateEscrowStatus { w with broadcasts := w.broadcasts + 1 } cid
        .cancelled (some (env.txIdOf w.broadcasts)) with e | w2
    · rfl
    · have hs := updateEscrowStatus_states _ _ _ _ _ hu
      exact hs

theorem userCreate_states (w : World) (p a : LC) (w2 : World)
    (h : UserSvc.create w p a = .ok w2) : w2.states = w.states := by
  unfold UserSvc.create at h
  by_cases h1 : w.users.any (fun u => u.phoneNumber = p)
  · rw [if_pos h1] at h
    simp at h
  · rw [if_neg h1] at h
    by_cases h2 : w.users.any (fun u => u.stxAddress = a)
    · rw [if_pos h2] at h
      simp at h
    · rw [if_neg h2] at h
      cases h
      rfl

theorem addContact_states (env : Env) (w : World) (p name addr : LC) (w2 : World) (n : LC)
    (h : ContactSvc.addContact env w p name addr = .ok (w2, n)) : w2.states = w.states := by
  simp only [ContactSvc.addContact] at h
  split at h
  · simp at h
  · split at h
    · simp at h
    · split at h
      · simp at h
      · cases h
        rfl

/-! ## Lemmas: the execute functions always clear the caller's slot -/

theorem executeSend_states (env : Env) (w : World) (phone : LC) (st : ConvState) :
    (PaymentH.executeSend env w phone st).2.1.states = (StateSvc.clearState w phone).states := by
  simp only [PaymentH.executeSend]
  split
  next x amount ams recipient sa f fs heq =>
    split
    · rfl
    next user =>
      split
      · rfl
      next key =>
        have hs := sendTransaction_states env w sa phone recipient.address
          (if recipient.isContact then recipient.phone else none) ams (lit "Payment via WhatsApp")
        split
        next e w1 ev htx =>
          rw [htx] at hs
          have hs2 : w1.states = w.states := hs
          show (StateSvc.clearState w1 phone).states = (StateSvc.clearState w phone).states
          simp only [StateSvc.clearState]
          rw [hs2]
        next txId w1 ev htx =>
          rw [htx] at hs
          have hs2 : w1.states = w.states := hs
          split
          all_goals try split
          all_goals show (StateSvc.clearState w1 phone).states = (StateSvc.clearState w phone).states
          all_goals simp only [StateSvc.clearState]
          all_goals rw [hs2]
  next x heq => rfl

theorem executeCreateEscrow_states (env : Env) (w : World) (phone : LC) (st : ConvState) :
    (EscrowH.executeCreateEscrow env w phone st).2.1.states = (StateSvc.clearState w phone).states := by
  simp only [EscrowH.executeCreateEscrow]
  split
  next x amount ams recipient sa tb td f fs heq =>
    split
    · rfl
    next user =>
      split
      · rfl
      next key =>
        have hs := createEscrow_states env w sa recipient.address ams tb
          (lit "Escrow via WhatsApp - " ++ td) phone recipient.phone
        split
        next e w1 ev htx =>
          rw [htx] at hs
          have hs2 : w1.states = w.states := hs
          show (StateSvc.clearState w1 phone).states = (StateSvc.clearState w phone).states
          simp only [StateSvc.clearState]
          rw [hs2]
        next txId escrowId w1 ev htx =>
          rw [htx] at hs
          have hs2 : w1.states = w.states := hs
          split
          all_goals try split
          all_goals show (StateSvc.clearState w1 phone).states = (StateSvc.clearState w phone).states
          all_goals simp only [StateSvc.clearState]
          all_goals rw [hs2]
  next x heq => rfl

theorem executeReleaseEscrow_states (env : Env) (w : World) (phone : LC) (st : ConvState) :
    (EscrowH.executeReleaseEscrow env w phone st).2.1.states = (StateSvc.clearState w phone).states := by
  simp only [EscrowH.executeReleaseEscrow]
  split
  next x cid esc addr heq =>
    split
    · rfl
    next user =>
      split
      · rfl
      next key =>
        have hs := releaseEscrow_states env w cid
        split
        all_goals rename_i w1 ev htx
        all_goals rw [htx] at hs
        all_goals have hs2 : w1.states = w.states := hs
        all_goals show (StateSvc.clearState w1 phone).states = (StateSvc.clearState w phone).states
        all_goals simp only [StateSvc.clearState]
        all_goals rw [hs2]
  next x heq => rfl

theorem executeRefundEscrow_states (env : Env) (w : World) (phone : LC) (st : ConvState) :
    (EscrowH.executeRefundEscrow env w phone st).2.1.states = (StateSvc.clearState w phone).states := by
  simp only [EscrowH.executeRefundEscrow]
  split
  next x cid esc addr heq =>
    split
    · rfl
    next user =>
      split
      · rfl
      next key =>
        have hs := refundEscrow_states env w cid
        split
        all_goals rename_i w1 ev htx
        all_goals rw [htx] at hs
        all_goals have hs2 : w1.states = w.states := hs
        all_goals show (StateSvc.clearState w1 phone).states = (StateSvc.clearState w phone).states
        all_goals simp only [StateSvc.clearState]
        all_goals rw [hs2]
  next x heq => rfl

theorem executeCancelEscrow_states (env : Env) (w : World) (phone : LC) (st : ConvState) :
    (EscrowH.executeCancelEscrow env w phone st).2.1.states = (StateSvc.clearState w phone).states := by
  simp only [EscrowH.executeCancelEscrow]
  split
  next x cid esc addr heq =>
    split
    · rfl
    next user =>
      split
      · rfl
      next key =>
        have hs := cancelEscrow_states env w cid
        split
        all_goals rename_i w1 ev htx
        all_goals rw [htx] at hs
        all_goals have hs2 : w1.states = w.states := hs
        all_goals show (StateSvc.clearState w1 phone).states = (StateSvc.clearState w phone).states
        all_goals simp only [StateSvc.clearState]
        all_goals rw [hs2]
  next x heq => rfl


/-! ## Lemmas: which handlers stage which states -/

theorem handleSend_lookup (env : Env) (w : World) (phone msg : LC) (user : UserRow)
    (u' : LC) (st' : ConvState)
    (h : StateSvc.lookupSlot (PaymentH.handleSend env w phone msg user).2.1 u' = some st') :
    StateSvc.lookupSlot w u' = some st' ∨
    (u' = phone ∧ ∃ a ams r sa f fs,
      st' = ⟨lit "payment", lit "confirm_send", .paymentSend a ams r sa f fs, w.now + 10⟩ ∧
      0 < a) := by
  simp only [PaymentH.handleSend] at h
  split at h
  · exact Or.inl h
  next amount rawRecip heq =>
    split at h
    · exact Or.inl h
    next hpos =>
      split at h
      · exact Or.inl h
      next hbal =>
        split at h
        · exact Or.inl h
        next recipient hres =>
          rw [lookupSlot_setState] at h
          by_cases hu : u' = phone
          · rw [if_pos hu] at h
            exact Or.inr ⟨hu, amount, svcStxToMicro amount, recipient, user.stxAddress,
              env.feeMedium, env.feeMediumStx, (Option.some.inj h).symm, lt_of_not_le hpos⟩
          · rw [if_neg hu] at h
            exact Or.inl h

theorem handleCreateEscrow_lookup (env : Env) (w : World) (phone msg : LC) (user : UserRow)
    (u' : LC) (st' : ConvState)
    (h : StateSvc.lookupSlot (EscrowH.handleCreateEscrow env w phone msg user).2.1 u' = some st') :
    StateSvc.lookupSlot w u' = some st' ∨
    (u' = phone ∧ ∃ a ams r sa tb td f fs,
      st' = ⟨lit "escrow", lit "confirm_create", .escrowCreate a ams r sa tb td f fs, w.now + 10⟩ ∧
      0 < a) := by
  simp only [EscrowH.handleCreateEscrow] at h
  split at h
  · exact Or.inl h
  next amount rawRecip timeValue timeUnit heq =>
    split at h
    · exact Or.inl h
    next hpos =>
      split at h
      · exact Or.inl h
      next hbal =>
        split at h
        · exact Or.inl h
        next recipient hres =>
          rw [lookupSlot_setState] at h
          by_cases hu : u' = phone
          · rw [if_pos hu] at h
            exact Or.inr ⟨hu, amount, svcStxToMicro amount, recipient, user.stxAddress, _,
              timeDescLC timeValue timeUnit, env.feeMedium, env.feeMediumStx,
              (Option.some.inj h).symm, lt_of_not_le hpos⟩
          · rw [if_neg hu] at h
            exact Or.inl h

theorem handleReleaseEscrow_lookup (env : Env) (w : World) (phone msg : LC) (user : UserRow)
    (u' : LC) (st' : ConvState)
    (h : StateSvc.lookupSlot (EscrowH.handleReleaseEscrow env w phone msg user).2.1 u' = some st') :
    StateSvc.lookupSlot w u' = some st' ∨
    (u' = phone ∧ ∃ id esc,
      st' = ⟨lit "escrow", lit "confirm_release", .escrowAction id esc user.stxAddress, w.now + 10⟩ ∧
      (EscrowSvc.getEscrowsByPhone w phone .all).find? (fun e => e.contractEscrowId = some id) = some esc ∧
      (esc.senderPhone = phone ∨ esc.recipientPhone = some phone) ∧
      esc.status = .active) := by
  simp only [EscrowH.handleReleaseEscrow] at h
  split at h
  · exact Or.inl h
  next escrowId heq =>
    split at h
    · exact Or.inl h
    next escrow hfind =>
      split at h
      · exact Or.inl h
      next hauth =>
        split at h
        · exact Or.inl h
        next hact =>
          rw [lookupSlot_setState] at h
          by_cases hu : u' = phone
          · rw [if_pos hu] at h
            refine Or.inr ⟨hu, escrowId, escrow, (Option.some.inj h).symm, hfind, ?_, not_not.mp hact⟩
            rcases not_and_or.mp hauth with ha | ha
            · exact Or.inl (not_not.mp ha)
            · exact Or.inr (not_not.mp ha)
          · rw [if_neg hu] at h
            exact Or.inl h

theorem handleRefundEscrow_lookup (env : Env) (w : World) (phone msg : LC) (user : UserRow)
    (u' : LC) (st' : ConvState)
    (h : StateSvc.lookupSlot (EscrowH.handleRefundEscrow env w phone msg user).2.1 u' = some st') :
    StateSvc.lookupSlot w u' = some st' ∨
    (u' = phone ∧ ∃ id esc,
      st' = ⟨lit "escrow", lit "confirm_refund", .escrowAction id esc user.stxAddress, w.now + 10⟩ ∧
      (EscrowSvc.getEscrowsByPhone w phone .sender).find? (fun e => e.contractEscrowId = some id) = some esc ∧
      esc.status = .active ∧ EscrowSvc.canRefund env id = true) := by
  simp only [EscrowH.handleRefundEscrow] at h
  split at h
  · exact Or.inl h
  next escrowId heq =>
    split at h
    · exact Or.inl h
    next escrow hfind =>
      split at h
      · exact Or.inl h
      next hact =>
        split at h
        · exact Or.inl h
        next hcr =>
          rw [lookupSlot_setState] at h
          by_cases hu : u' = phone
          · rw [if_pos hu] at h
            refine Or.inr ⟨hu, escrowId, escrow, (Option.some.inj h).symm, hfind,
              not_not.mp hact, ?_⟩
            simpa using hcr
          · rw [if_neg hu] at h
            exact Or.inl h

theorem handleCancelEscrow_lookup (env : Env) (w : World) (phone msg : LC) (user : UserRow)
    (u' : LC) (st' : ConvState)
    (h : StateSvc.lookupSlot (EscrowH.handleCancelEscrow env w phone msg user).2.1 u' = some st') :
    StateSvc.lookupSlot w u' = some st' ∨
    (u' = phone ∧ ∃ id esc,
      st' = ⟨lit "escrow", lit "confirm_cancel", .escrowAction id esc user.stxAddress, w.now + 10⟩ ∧
      (EscrowSvc.getEscrowsByPhone w phone .sender).find? (fun e => e.contractEscrowId = some id) = some esc ∧
      esc.status = .active) := by
  simp only [EscrowH.handleCancelEscrow] at h
  split at h
  · exact Or.inl h
  next escrowId heq =>
    split at h
    · exact Or.inl h
    next escrow hfind =>
      split at h
      · exact Or.inl h
      next hact =>
        rw [lookupSlot_setState] at h
        by_cases hu : u' = phone
        · rw [if_pos hu] at h
          exact Or.inr ⟨hu, escrowId, escrow, (Option.some.inj h).symm, hfind, not_not.mp hact⟩
        · rw [if_neg hu] at h
          exact Or.inl h


/-! ## Lemmas: the remaining handlers only preserve or clear slots -/

theorem lookupSlot_clearState_some (w0 w : World) (p u' : LC) (st' : ConvState)
    (hs : w0.states = w.states)
    (h : StateSvc.lookupSlot (StateSvc.clearState w0 p) u' = some st') :
    StateSvc.lookupSlot w u' = some st' := by
  rw [lookupSlot_clearState] at h
  by_cases hu : u' = p
  · rw [if_pos hu] at h
    simp at h
  · rw [if_neg hu] at h
    rw [lookupSlot_eq_of_states w0 w u' hs] at h
    exact h

theorem handleAddContact_lookup (env : Env) (w : World) (phone msg u' : LC) (st' : ConvState)
    (h : StateSvc.lookupSlot (PaymentH.handleAddContact env w phone msg).2.1 u' = some st') :
    StateSvc.lookupSlot w u' = some st' := by
  simp only [PaymentH.handleAddContact] at h
  split at h
  · exact h
  · split at h
    · exact h
    · split at h
      next e heq => exact h
      next w1 n heq =>
        rw [lookupSlot_eq_of_states w1 w u' (addContact_states _ _ _ _ _ _ _ heq)] at h
        exact h

theorem paymentFlow_lookup (env : Env) (w : World) (phone msg : LC) (st : ConvState)
    (u' : LC) (st' : ConvState)
    (h : StateSvc.lookupSlot (PaymentH.handleStateFlow env w phone msg st).2.1 u' = some st') :
    StateSvc.lookupSlot w u' = some st' := by
  simp only [PaymentH.handleStateFlow] at h
  split at h
  · split at h
    · rw [lookupSlot_eq_of_states _ _ u' (executeSend_states env w phone st)] at h
      exact lookupSlot_clearState_some w w phone u' st' rfl h
    · split at h
      · exact lookupSlot_clearState_some w w phone u' st' rfl h
      · exact h
  · exact h

theorem paymentRoute_lookup (env : Env) (w : World) (phone msg n : LC) (user : UserRow)
    (u' : LC) (st' : ConvState)
    (h : StateSvc.lookupSlot (PaymentH.route env w phone msg n user).2.1 u' = some st') :
    StateSvc.lookupSlot w u' = some st' ∨
    (u' = phone ∧ ∃ a ams r sa f fs,
      st' = ⟨lit "payment", lit "confirm_send", .paymentSend a ams r sa f fs, w.now + 10⟩ ∧
      0 < a) := by
  simp only [PaymentH.route] at h
  split at h
  · exact Or.inl h
  · split at h
    · exact Or.inl h
    · split at h
      · exact Or.inl h
      · split at h
        · exact Or.inl (handleAddContact_lookup env w phone msg u' st' h)
        · split at h
          · exact handleSend_lookup env w phone msg user u' st' h
          · exact Or.inl h

theorem paymentH_lookup (env : Env) (w : World) (phone msg : LC)
    (u' : LC) (st' : ConvState)
    (h : StateSvc.lookupSlot (PaymentH.handleMessage env w phone msg).2.1 u' = some st') :
    StateSvc.lookupSlot w u' = some st' ∨
    (u' = phone ∧ ∃ a ams r sa f fs,
      st' = ⟨lit "payment", lit "confirm_send", .paymentSend a ams r sa f fs, w.now + 10⟩ ∧
      0 < a) := by
  simp only [PaymentH.handleMessage] at h
  split at h
  · exact Or.inl h
  next user hu =>
    split at h
    next st hst =>
      split at h
      · exact Or.inl (paymentFlow_lookup env w phone msg st u' st' h)
      · exact paymentRoute_lookup env w phone msg _ user u' st' h
    next hst => exact paymentRoute_lookup env w phone msg _ user u' st' h

theorem handleEscrowStatus_lookup (w : World) (phone msg u' : LC) (st' : ConvState)
    (h : StateSvc.lookupSlot (EscrowH.handleEscrowStatus w phone msg).2.1 u' = some st') :
    StateSvc.lookupSlot w u' = some st' := by
  simp only [EscrowH.handleEscrowStatus] at h
  split at h
  · exact h
  · split at h
    · exact h
    · exact h

theorem escrowFlow_lookup (env : Env) (w : World) (phone msg : LC) (st : ConvState)
    (u' : LC) (st' : ConvState)
    (h : StateSvc.lookupSlot (EscrowH.handleStateFlow env w phone msg st).2.1 u' = some st') :
    StateSvc.lookupSlot w u' = some st' := by
  simp only [EscrowH.handleStateFlow] at h
  split at h
  · exact h
  · split at h
    · exact lookupSlot_clearState_some w w phone u' st' rfl h
    · split at h
      · rw [lookupSlot_eq_of_states _ _ u' (executeCreateEscrow_states env w phone st)] at h
        exact lookupSlot_clearState_some w w phone u' st' rfl h
      · split at h
        · rw [lookupSlot_eq_of_states _ _ u' (executeReleaseEscrow_states env w phone st)] at h
          exact lookupSlot_clearState_some w w phone u' st' rfl h
        · split at h
          · rw [lookupSlot_eq_of_states _ _ u' (executeRefundEscrow_states env w phone st)] at h
            exact lookupSlot_clearState_some w w phone u' st' rfl h
          · split at h
            · rw [lookupSlot_eq_of_states _ _ u' (executeCancelEscrow_states env w phone st)] at h
              exact lookupSlot_clearState_some w w phone u' st' rfl h
            · exact h


theorem escrowRoute_lookup (env : Env) (w : World) (phone msg n : LC) (user : UserRow)
    (u' : LC) (st' : ConvState)
    (h : StateSvc.lookupSlot (EscrowH.route env w phone msg n user).2.1 u' = some st') :
    StateSvc.lookupSlot w u' = some st' ∨
    (u' = phone ∧
      ((∃ a ams r sa tb td f fs,
          st' = ⟨lit "escrow", lit "confirm_create", .escrowCreate a ams r sa tb td f fs, w.now + 10⟩ ∧
          0 < a) ∨
       (∃ id esc,
          st' = ⟨lit "escrow", lit "confirm_release", .escrowAction id esc user.stxAddress, w.now + 10⟩ ∧
          (EscrowSvc.getEscrowsByPhone w phone .all).find? (fun e => e.contractEscrowId = some id) = some esc ∧
          (esc.senderPhone = phone ∨ esc.recipientPhone = some phone) ∧
          esc.status = .active) ∨
       (∃ id esc,
          st' = ⟨lit "escrow", lit "confirm_refund", .escrowAction id esc user.stxAddress, w.now + 10⟩ ∧
          (EscrowSvc.getEscrowsByPhone w phone .sender).find? (fun e => e.contractEscrowId = some id) = some esc ∧
          esc.status = .active ∧ EscrowSvc.canRefund env id = true) ∨
       (∃ id esc,
          st' = ⟨lit "escrow", lit "confirm_cancel", .escrowAction id esc user.stxAddress, w.now + 10⟩ ∧
          (EscrowSvc.getEscrowsByPhone w phone .sender).find? (fun e => e.contractEscrowId = some id) = some esc ∧
          esc.status = .active))) := by
  simp only [EscrowH.route] at h
  split at h
  · rcases handleCreateEscrow_lookup env w phone msg user u' st' h with h2 | ⟨hu, rest⟩
    · exact Or.inl h2
    · exact Or.inr ⟨hu, Or.inl rest⟩
  · split at h
    · rcases handleReleaseEscrow_lookup env w phone msg user u' st' h with h2 | ⟨hu, rest⟩
      · exact Or.inl h2
      · exact Or.inr ⟨hu, Or.inr (Or.inl rest)⟩
    · split at h
      · rcases handleRefundEscrow_lookup env w phone msg user u' st' h with h2 | ⟨hu, rest⟩
        · exact Or.inl h2
        · exact Or.inr ⟨hu, Or.inr (Or.inr (Or.inl rest))⟩
      · split at h
        · rcases handleCancelEscrow_lookup env w phone msg user u' st' h with h2 | ⟨hu, rest⟩
          · exact Or.inl h2
          · exact Or.inr ⟨hu, Or.inr (Or.inr (Or.inr rest))⟩
        · split at h
          · exact Or.inl (handleEscrowStatus_lookup w phone msg u' st' h)
          · split at h
            · exact Or.inl h
            · exact Or.inl h

theorem escrowH_lookup (env : Env) (w : World) (phone msg : LC)
    (u' : LC) (st' : ConvState)
    (h : StateSvc.lookupSlot (EscrowH.handleMessage env w phone msg).2.1 u' = some st') :
    StateSvc.lookupSlot w u' = some st' ∨
    (u' = phone ∧ ∃ user, UserSvc.getByPhone w phone = some user ∧
      ((∃ a ams r sa tb td f fs,
          st' = ⟨lit "escrow", lit "confirm_create", .escrowCreate a ams r sa tb td f fs, w.now + 10⟩ ∧
          0 < a) ∨
       (∃ id esc,
          st' = ⟨lit "escrow", lit "confirm_release", .escrowAction id esc user.stxAddress, w.now + 10⟩ ∧
          (EscrowSvc.getEscrowsByPhone w phone .all).find? (fun e => e.contractEscrowId = some id) = some esc ∧
          (esc.senderPhone = phone ∨ esc.recipientPhone = some phone) ∧
          esc.status = .active) ∨
       (∃ id esc,
          st' = ⟨lit "escrow", lit "confirm_refund", .escrowAction id esc user.stxAddress, w.now + 10⟩ ∧
          (EscrowSvc.getEscrowsByPhone w phone .sender).find? (fun e => e.contractEscrowId = some id) = some esc ∧
          esc.status = .active ∧ EscrowSvc.canRefund env id = true) ∨
       (∃ id esc,
          st' = ⟨lit "escrow", lit "confirm_cancel", .escrowAction id esc user.stxAddress, w.now + 10⟩ ∧
          (EscrowSvc.getEscrowsByPhone w phone .sender).find? (fun e => e.contractEscrowId = some id) = some esc ∧
          esc.status = .active))) := by
  simp only [EscrowH.handleMessage] at h
  split at h
  · exact Or.inl h
  next user hu =>
    split at h
    next st hst =>
      split at h
      · exact Or.inl (escrowFlow_lookup env w phone msg st u' st' h)
      · rcases escrowRoute_lookup env w phone msg _ user u' st' h with h2 | ⟨hup, rest⟩
        · exact Or.inl h2
        · exact Or.inr ⟨hup, user, hu, rest⟩
    next hst =>
      rcases escrowRoute_lookup env w phone msg _ user u' st' h with h2 | ⟨hup, rest⟩
      · exact Or.inl h2
      · exact Or.inr ⟨hup, user, hu, rest⟩

theorem completeRegistration_lookup (w : World) (phone msg u' : LC) (st' : ConvState)
    (h : StateSvc.lookupSlot (RegH.completeRegistration w phone msg).2.1 u' = some st') :
    StateSvc.lookupSlot w u' = some st' := by
  simp only [RegH.completeRegistration] at h
  split at h
  · exact h
  · split at h
    · exact lookupSlot_clearState_some w w phone u' st' rfl h
    · split at h
      next e heq => exact lookupSlot_clearState_some w w phone u' st' rfl h
      next w1 heq =>
        exact lookupSlot_clearState_some w1 w phone u' st' (userCreate_states _ _ _ _ heq) h

theorem regH_lookup (w : World) (phone msg u' : LC) (st' : ConvState)
    (h : StateSvc.lookupSlot (RegH.handleMessage w phone msg).2.1 u' = some st') :
    StateSvc.lookupSlot w u' = some st' ∨
    (u' = phone ∧
      st' = ⟨lit "registration", lit "awaiting_address", .registrationStart, w.now + 10⟩) := by
  simp only [RegH.handleMessage] at h
  split at h
  · exact Or.inl h
  · split at h
    next hst =>
      split at h
      next addr hreg => exact Or.inl (completeRegistration_lookup w phone addr u' st' h)
      next hreg =>
        rw [lookupSlot_setState] at h
        by_cases hu : u' = phone
        · rw [if_pos hu] at h
          exact Or.inr ⟨hu, (Option.some.inj h).symm⟩
        · rw [if_neg hu] at h
          exact Or.inl h
    next st hst => exact Or.inl (completeRegistration_lookup w phone msg u' st' h)


/-! ## The staging characterization of the full dispatcher -/

theorem relayOrUnknown_world (p : LC) (r : HOut) : (Webhook.relayOrUnknown p r).1 = r.2.1 := by
  rcases r with ⟨_ | ⟨s, m⟩, w, evs⟩
  · rfl
  · cases m <;> rfl

theorem relayOnly_world (p : LC) (r : HOut) : (Webhook.relayOnly p r).1 = r.2.1 := by
  rcases r with ⟨_ | ⟨s, m⟩, w, evs⟩
  · rfl
  · cases m <;> rfl

theorem staging_characterization (env : Env) (w : World) (u msg u' : LC) (st' : ConvState)
    (h : StateSvc.lookupSlot (Webhook.processMessage env w u msg).1 u' = some st') :
    StateSvc.lookupSlot w u' = some st' ∨
    (u' = u ∧
      ((∃ user, UserSvc.getByPhone w u = some user ∧
        ((∃ a ams r sa f fs,
            st' = ⟨lit "payment", lit "confirm_send", .paymentSend a ams r sa f fs, w.now + 10⟩ ∧
            0 < a) ∨
         (∃ a ams r sa tb td f fs,
            st' = ⟨lit "escrow", lit "confirm_create", .escrowCreate a ams r sa tb td f fs, w.now + 10⟩ ∧
            0 < a) ∨
         (∃ id esc,
            st' = ⟨lit "escrow", lit "confirm_release", .escrowAction id esc user.stxAddress, w.now + 10⟩ ∧
            (EscrowSvc.getEscrowsByPhone w u .all).find? (fun e => e.contractEscrowId = some id) = some esc ∧
            (esc.senderPhone = u ∨ esc.recipientPhone = some u) ∧
            esc.status = .active) ∨
         (∃ id esc,
            st' = ⟨lit "escrow", lit "confirm_refund", .escrowAction id esc user.stxAddress, w.now + 10⟩ ∧
            (EscrowSvc.getEscrowsByPhone w u .sender).find? (fun e => e.contractEscrowId = some id) = some esc ∧
            esc.status = .active ∧ EscrowSvc.canRefund env id = true) ∨
         (∃ id esc,
            st' = ⟨lit "escrow", lit "confirm_cancel", .escrowAction id esc user.stxAddress, w.now + 10⟩ ∧
            (EscrowSvc.getEscrowsByPhone w u .sender).find? (fun e => e.contractEscrowId = some id) = some esc ∧
            esc.status = .active))) ∨
       st' = ⟨lit "registration", lit "awaiting_address", .registrationStart, w.now + 10⟩)) := by
  simp only [Webhook.processMessage] at h
  split at h
  · exact Or.inl h
  · split at h
    next hu =>
      rw [relayOnly_world] at h
      rcases regH_lookup w u msg u' st' h with h2 | ⟨hup, hreg⟩
      · exact Or.inl h2
      · exact Or.inr ⟨hup, Or.inr hreg⟩
    next user hu =>
      split at h
      · rw [relayOnly_world] at h
        rcases regH_lookup w u msg u' st' h with h2 | ⟨hup, hreg⟩
        · exact Or.inl h2
        · exact Or.inr ⟨hup, Or.inr hreg⟩
      · split at h
        · rw [relayOrUnknown_world] at h
          rcases escrowH_lookup env w u msg u' st' h with h2 | ⟨hup, user2, hu2, rest⟩
          · exact Or.inl h2
          · exact Or.inr ⟨hup, Or.inl ⟨user2, hu2, Or.inr rest⟩⟩
        · rw [relayOrUnknown_world] at h
          rcases paymentH_lookup env w u msg u' st' h with h2 | ⟨hup, rest⟩
          · exact Or.inl h2
          · exact Or.inr ⟨hup, Or.inl ⟨user, hu, Or.inl rest⟩⟩


/-! ## Lemmas: which handlers emit funds-moving events -/

theorem lookupSlot_clearState_self (w : World) (p : LC) :
    StateSvc.lookupSlot (StateSvc.clearState w p) p = none := by
  rw [lookupSlot_clearState, if_pos rfl]

theorem executeSend_cleared (env : Env) (w : World) (phone : LC) (st : ConvState) :
    StateSvc.lookupSlot (PaymentH.executeSend env w phone st).2.1 phone = none := by
  rw [lookupSlot_eq_of_states _ _ phone (executeSend_states env w phone st),
    lookupSlot_clearState_self]

theorem executeCreateEscrow_cleared (env : Env) (w : World) (phone : LC) (st : ConvState) :
    StateSvc.lookupSlot (EscrowH.executeCreateEscrow env w phone st).2.1 phone = none := by
  rw [lookupSlot_eq_of_states _ _ phone (executeCreateEscrow_states env w phone st),
    lookupSlot_clearState_self]

theorem executeReleaseEscrow_cleared (env : Env) (w : World) (phone : LC) (st : ConvState) :
    StateSvc.lookupSlot (EscrowH.executeReleaseEscrow env w phone st).2.1 phone = none := by
  rw [lookupSlot_eq_of_states _ _ phone (executeReleaseEscrow_states env w phone st),
    lookupSlot_clearState_self]

theorem executeRefundEscrow_cleared (env : Env) (w : World) (phone : LC) (st : ConvState) :
    StateSvc.lookupSlot (EscrowH.executeRefundEscrow env w phone st).2.1 phone = none := by
  rw [lookupSlot_eq_of_states _ _ phone (executeRefundEscrow_states env w phone st),
    lookupSlot_clearState_self]

theorem executeCancelEscrow_cleared (env : Env) (w : World) (phone : LC) (st : ConvState) :
    StateSvc.lookupSlot (EscrowH.executeCancelEscrow env w phone st).2.1 phone = none := by
  rw [lookupSlot_eq_of_states _ _ phone (executeCancelEscrow_states env w phone st),
    lookupSlot_clearState_self]

theorem handleAddContact_quiet (env : Env) (w : World) (phone msg : LC) (e : Event)
    (he : e ∈ (PaymentH.handleAddContact env w phone msg).2.2) : e.isFundsMoving = false := by
  simp only [PaymentH.handleAddContact] at he
  split at he
  · simp at he
  · split at he
    · simp at he
    · split at he
      next e2 heq => simp at he
      next w1 n heq =>
        simp at he
        subst he
        rfl

theorem handleSend_quiet (env : Env) (w : World) (phone msg : LC) (user : UserRow) (e : Event)
    (he : e ∈ (PaymentH.handleSend env w phone msg user).2.2) : e.isFundsMoving = false := by
  simp only [PaymentH.handleSend] at he
  split at he
  · simp at he
  next amount rawRecip heq =>
    split at he
    · simp at he
    · split at he
      · simp at he
      · split at he
        next e2 heq2 => simp at he
        next recipient hres =>
          simp at he
          subst he
          rfl

theorem handleCreateEscrow_quiet (env : Env) (w : World) (phone msg : LC) (user : UserRow) (e : Event)
    (he : e ∈ (EscrowH.handleCreateEscrow env w phone msg user).2.2) : e.isFundsMoving = false := by
  simp only [EscrowH.handleCreateEscrow] at he
  split at he
  · simp at he
  next amount rawRecip tv tu heq =>
    split at he
    · simp at he
    · split at he
      · simp at he
      · split at he
        next e2 heq2 => simp at he
        next recipient hres =>
          simp at he
          subst he
          rfl

theorem handleReleaseEscrow_quiet (env : Env) (w : World) (phone msg : LC) (user : UserRow) (e : Event)
    (he : e ∈ (EscrowH.handleReleaseEscrow env w phone msg user).2.2) : e.isFundsMoving = false := by
  simp only [EscrowH.handleReleaseEscrow] at he
  split at he
  · simp at he
  next escrowId heq =>
    split at he
    · simp at he
    next escrow hfind =>
      split at he
      · simp at he
      · split at he
        · simp at he
        · simp at he
          subst he
          rfl

theorem handleRefundEscrow_quiet (env : Env) (w : World) (phone msg : LC) (user : UserRow) (e : Event)
    (he : e ∈ (EscrowH.handleRefundEscrow env w phone msg user).2.2) : e.isFundsMoving = false := by
  simp only [EscrowH.handleRefundEscrow] at he
  split at he
  · simp at he
  next escrowId heq =>
    split at he
    · simp at he
    next escrow hfind =>
      split at he
      · simp at he
      · split at he
        · simp at he
        · simp at he
          subst he
          rfl

theorem handleCancelEscrow_quiet (env : Env) (w : World) (phone msg : LC) (user : UserRow) (e : Event)
    (he : e ∈ (EscrowH.handleCancelEscrow env w phone msg user).2.2) : e.isFundsMoving = false := by
  simp only [EscrowH.handleCancelEscrow] at he
  split at he
  · simp at he
  next escrowId heq =>
    split at he
    · simp at he
    next escrow hfind =>
      split at he
      · simp at he
      · simp at he
        subst he
        rfl

theorem handleEscrowStatus_quiet (w : World) (phone msg : LC) (e : Event)
    (he : e ∈ (EscrowH.handleEscrowStatus w phone msg).2.2) : e.isFundsMoving = false := by
  simp only [EscrowH.handleEscrowStatus] at he
  split at he
  · simp at he
  · split at he
    · simp at he
    · simp at he
      subst he
      rfl

theorem paymentRoute_quiet (env : Env) (w : World) (phone msg n : LC) (user : UserRow) (e : Event)
    (he : e ∈ (PaymentH.route env w phone msg n user).2.2) : e.isFundsMoving = false := by
  simp only [PaymentH.route, PaymentH.handleBalance, PaymentH.handleHistory,
    PaymentH.handleListContacts] at he
  split at he
  · simp at he
    subst he
    rfl
  · split at he
    · simp at he
      subst he
      rfl
    · split at he
      · simp at he
        subst he
        rfl
      · split at he
        · exact handleAddContact_quiet env w phone msg e he
        · split at he
          · exact handleSend_quiet env w phone msg user e he
          · simp at he

theorem escrowRoute_quiet (env : Env) (w : World) (phone msg n : LC) (user : UserRow) (e : Event)
    (he : e ∈ (EscrowH.route env w phone msg n user).2.2) : e.isFundsMoving = false := by
  simp only [EscrowH.route, EscrowH.handleListEscrows] at he
  split at he
  · exact handleCreateEscrow_quiet env w phone msg user e he
  · split at he
    · exact handleReleaseEscrow_quiet env w phone msg user e he
    · split at he
      · exact handleRefundEscrow_quiet env w phone msg user e he
      · split at he
        · exact handleCancelEscrow_quiet env w phone msg user e he
        · split at he
          · exact handleEscrowStatus_quiet w phone msg e he
          · split at he
            · simp at he
              subst he
              rfl
            · simp at he

theorem completeRegistration_quiet (w : World) (phone msg : LC) (e : Event)
    (he : e ∈ (RegH.completeRegistration w phone msg).2.2) : e.isFundsMoving = false := by
  simp only [RegH.completeRegistration] at he
  split at he
  · simp at he
    subst he
    rfl
  · split at he
    · simp at he
      subst he
      rfl
    · split at he
      next e2 heq =>
        simp at he
        subst he
        rfl
      next w1 heq =>
        simp at he
        subst he
        rfl

theorem regH_quiet (w : World) (phone msg : LC) (e : Event)
    (he : e ∈ (RegH.handleMessage w phone msg).2.2) : e.isFundsMoving = false := by
  simp only [RegH.handleMessage] at he
  split at he
  · simp at he
    subst he
    rfl
  · split at he
    next hst =>
      split at he
      next addr hreg => exact completeRegistration_quiet w phone addr e he
      next hreg =>
        simp at he
        subst he
        rfl
    next st hst => exact completeRegistration_quiet w phone msg e he

theorem relayOrUnknown_mem (p : LC) (r : HOut) (e : Event)
    (he : e ∈ (Webhook.relayOrUnknown p r).2) : e ∈ r.2.2 ∨ e.isFundsMoving = false := by
  rcases r with ⟨_ | ⟨s, m⟩, w, evs⟩
  · simp only [Webhook.relayOrUnknown] at he
    rcases List.mem_append.mp he with h2 | h2
    · exact Or.inl h2
    · simp at h2
      subst h2
      exact Or.inr rfl
  · cases m with
    | none => exact Or.inl he
    | some m =>
      simp only [Webhook.relayOrUnknown] at he
      rcases List.mem_append.mp he with h2 | h2
      · exact Or.inl h2
      · simp at h2
        subst h2
        exact Or.inr rfl

theorem relayOnly_mem (p : LC) (r : HOut) (e : Event)
    (he : e ∈ (Webhook.relayOnly p r).2) : e ∈ r.2.2 ∨ e.isFundsMoving = false := by
  rcases r with ⟨_ | ⟨s, m⟩, w, evs⟩
  · exact Or.inl he
  · cases m with
    | none => exact Or.inl he
    | some m =>
      simp only [Webhook.relayOnly] at he
      rcases List.mem_append.mp he with h2 | h2
      · exact Or.inl h2
      · simp at h2
        subst h2
        exact Or.inr rfl


theorem paymentFlow_funds (env : Env) (w : World) (phone msg : LC) (st : ConvState)
    (res : HOut) (e : Event)
    (hres : PaymentH.handleStateFlow env w phone msg st = res)
    (he : e ∈ res.2.2) (hf : e.isFundsMoving = true) :
    jsLower (jsTrim msg) = lit "yes" ∧ st.step = lit "confirm_send" ∧
    StateSvc.lookupSlot res.2.1 phone = none := by
  simp only [PaymentH.handleStateFlow] at hres
  split at hres
  next hstep =>
    split at hres
    next hyes =>
      subst hres
      exact ⟨hyes, hstep, executeSend_cleared env w phone st⟩
    next hyes =>
      split at hres
      · subst hres
        simp at he
        subst he
        simp [Event.isFundsMoving] at hf
      · subst hres
        simp at he
        subst he
        simp [Event.isFundsMoving] at hf
  next hstep =>
    subst hres
    simp at he

theorem escrowFlow_funds (env : Env) (w : World) (phone msg : LC) (st : ConvState)
    (res : HOut) (e : Event)
    (hres : EscrowH.handleStateFlow env w phone msg st = res)
    (he : e ∈ res.2.2) (hf : e.isFundsMoving = true) :
    jsLower (jsTrim msg) = lit "yes" ∧
    (st.step = lit "confirm_create" ∨ st.step = lit "confirm_release" ∨
     st.step = lit "confirm_refund" ∨ st.step = lit "confirm_cancel") ∧
    StateSvc.lookupSlot res.2.1 phone = none := by
  simp only [EscrowH.handleStateFlow] at hres
  split at hres
  · subst hres
    simp at he
    subst he
    simp [Event.isFundsMoving] at hf
  next hny =>
    split at hres
    · subst hres
      simp at he
      subst he
      simp [Event.isFundsMoving] at hf
    next hno =>
      have hyes : jsLower (jsTrim msg) = lit "yes" := by
        rcases not_and_or.mp hny with h2 | h2
        · exact not_not.mp h2
        · exact absurd (not_not.mp h2) hno
      split at hres
      next hstep =>
        subst hres
        exact ⟨hyes, Or.inl hstep, executeCreateEscrow_cleared env w phone st⟩
      next hstep =>
        split at hres
        next hstep2 =>
          subst hres
          exact ⟨hyes, Or.inr (Or.inl hstep2), executeReleaseEscrow_cleared env w phone st⟩
        next hstep2 =>
          split at hres
          next hstep3 =>
            subst hres
            exact ⟨hyes, Or.inr (Or.inr (Or.inl hstep3)), executeRefundEscrow_cleared env w phone st⟩
          next hstep3 =>
            split at hres
            next hstep4 =>
              subst hres
              exact ⟨hyes, Or.inr (Or.inr (Or.inr hstep4)), executeCancelEscrow_cleared env w phone st⟩
            next hstep4 =>
              subst hres
              simp at he

theorem paymentH_funds (env : Env) (w : World) (phone msg : LC)
    (res : HOut) (e : Event)
    (hres : PaymentH.handleMessage env w phone msg = res)
    (he : e ∈ res.2.2) (hf : e.isFundsMoving = true) :
    jsLower (jsTrim msg) = lit "yes" ∧
    (∃ st, StateSvc.getState w phone = some st ∧ st.handler = lit "payment" ∧
      st.step = lit "confirm_send") ∧
    StateSvc.lookupSlot res.2.1 phone = none := by
  simp only [PaymentH.handleMessage] at hres
  split at hres
  · subst hres
    simp at he
  next user hu =>
    split at hres
    next st hst =>
      split at hres
      next hhandler =>
        obtain ⟨hyes, hstep, hcl⟩ := paymentFlow_funds env w phone msg st res e hres he hf
        exact ⟨hyes, ⟨st, hst, hhandler, hstep⟩, hcl⟩
      next hhandler =>
        subst hres
        rw [paymentRoute_quiet env w phone msg _ user e he] at hf
        simp at hf
    next hst =>
      subst hres
      rw [paymentRoute_quiet env w phone msg _ user e he] at hf
      simp at hf

theorem escrowH_funds (env : Env) (w : World) (phone msg : LC)
    (res : HOut) (e : Event)
    (hres : EscrowH.handleMessage env w phone msg = res)
    (he : e ∈ res.2.2) (hf : e.isFundsMoving = true) :
    jsLower (jsTrim msg) = lit "yes" ∧
    (∃ st, StateSvc.getState w phone = some st ∧ st.handler = lit "escrow" ∧
      (st.step = lit "confirm_create" ∨ st.step = lit "confirm_release" ∨
       st.step = lit "confirm_refund" ∨ st.step = lit "confirm_cancel")) ∧
    StateSvc.lookupSlot res.2.1 phone = none := by
  simp only [EscrowH.handleMessage] at hres
  split at hres
  · subst hres
    simp at he
  next user hu =>
    split at hres
    next st hst =>
      split at hres
      next hhandler =>
        obtain ⟨hyes, hstep, hcl⟩ := escrowFlow_funds env w phone msg st res e hres he hf
        exact ⟨hyes, ⟨st, hst, hhandler, hstep⟩, hcl⟩
      next hhandler =>
        subst hres
        rw [escrowRoute_quiet env w phone msg _ user e he] at hf
        simp at hf
    next hst =>
      subst hres
      rw [escrowRoute_quiet env w phone msg _ user e he] at hf
      simp at hf

/-- C3: a funds-moving action (transfer or escrow contract broadcast) is
only ever reached when the inbound message normalizes to exactly `yes`
and an unexpired confirmation state was staged for that user beforehand
(payment `confirm_send`, or an escrow `confirm_*` step), and the staged
state is consumed by the attempt: afterwards the user's slot is gone, so
a second `yes` finds no active state and `no` (which does not normalize
to `yes`) never triggers the action. -/
theorem C3_funds_move_only_on_confirmed_yes (env : Env) (w : World) (u msg : LC) (e : Event)
    (he : e ∈ (Webhook.processMessage env w u msg).2)
    (hf : e.isFundsMoving = true) :
    jsLower (jsTrim msg) = lit "yes" ∧
    (∃ st, StateSvc.getState w u = some st ∧
      ((st.handler = lit "payment" ∧ st.step = lit "confirm_send") ∨
       (st.handler = lit "escrow" ∧
        (st.step = lit "confirm_create" ∨ st.step = lit "confirm_release" ∨
         st.step = lit "confirm_refund" ∨ st.step = lit "confirm_cancel")))) ∧
    StateSvc.lookupSlot (Webhook.processMessage env w u msg).1 u = none := by
  rcases hres : Webhook.processMessage env w u msg with ⟨w2, evs⟩
  rw [hres] at he
  simp only [Webhook.processMessage] at hres
  split at hres
  · cases hres
    simp at he
    subst he
    simp [Event.isFundsMoving] at hf
  · split at hres
    next hu =>
      rcases relayOnly_mem u (RegH.handleMessage w u msg) e (by rw [hres]; exact he)
          with hm | hm
      · rw [regH_quiet w u msg e hm] at hf
        simp at hf
      · rw [hm] at hf
        simp at hf
    next user hu =>
      split at hres
      · rcases relayOnly_mem u (RegH.handleMessage w u msg) e (by rw [hres]; exact he)
            with hm | hm
        · rw [regH_quiet w u msg e hm] at hf
          simp at hf
        · rw [hm] at hf
          simp at hf
      · split at hres
        · rcases relayOrUnknown_mem u (EscrowH.handleMessage env w u msg) e
              (by rw [hres]; exact he) with hm | hm
          · obtain ⟨hyes, ⟨st, hst, hh, hsteps⟩, hcl⟩ :=
              escrowH_funds env w u msg _ e rfl hm hf
            refine ⟨hyes, ⟨st, hst, Or.inr ⟨hh, hsteps⟩⟩, ?_⟩
            have hw := congrArg Prod.fst hres
            have hw2 : (EscrowH.handleMessage env w u msg).2.1 = w2 :=
              (relayOrUnknown_world u (EscrowH.handleMessage env w u msg)).symm.trans hw
            show StateSvc.lookupSlot w2 u = none
            rw [← hw2]
            exact hcl
          · rw [hm] at hf
            simp at hf
        · rcases relayOrUnknown_mem u (PaymentH.handleMessage env w u msg) e
              (by rw [hres]; exact he) with hm | hm
          · obtain ⟨hyes, ⟨st, hst, hh, hstep⟩, hcl⟩ :=
              paymentH_funds env w u msg _ e rfl hm hf
            refine ⟨hyes, ⟨st, hst, Or.inl ⟨hh, hstep⟩⟩, ?_⟩
            have hw := congrArg Prod.fst hres
            have hw2 : (PaymentH.handleMessage env w u msg).2.1 = w2 :=
              (relayOrUnknown_world u (PaymentH.handleMessage env w u msg)).symm.trans hw
            show StateSvc.lookupSlot w2 u = none
            rw [← hw2]
            exact hcl
          · rw [hm] at hf
            simp at hf


/-- C4: whatever message is processed, any conversation slot present
afterwards either already existed or was staged by this step, and every
state this step can stage with a `paymentSend` or `escrowCreate` payload
carries a strictly positive amount: a message whose amount parses
non-positive (or does not match at all) is rejected before staging. -/
theorem C4_no_nonpositive_amount_staged (env : Env) (w : World) (u msg u' : LC)
    (st' : ConvState)
    (h : StateSvc.lookupSlot (Webhook.processMessage env w u msg).1 u' = some st') :
    StateSvc.lookupSlot w u' = some st' ∨
    ((∀ a ams r sa f fs, st'.data = .paymentSend a ams r sa f fs → 0 < a) ∧
     (∀ a ams r sa tb td f fs, st'.data = .escrowCreate a ams r sa tb td f fs → 0 < a)) := by
  rcases staging_characterization env w u msg u' st' h with h2 | ⟨hu, h2⟩
  · exact Or.inl h2
  right
  rcases h2 with ⟨user, hu2, hcase⟩ | hreg
  · rcases hcase with ⟨a, ams, r, sa, f, fs, hst, hpos⟩ |
      ⟨a, ams, r, sa, tb, td, f, fs, hst, hpos⟩ |
      ⟨id, esc, hst, _⟩ | ⟨id, esc, hst, _⟩ | ⟨id, esc, hst, _⟩
    · subst hst
      constructor
      · intro a2 ams2 r2 sa2 f2 fs2 hd
        cases hd
        exact hpos
      · intro a2 ams2 r2 sa2 tb2 td2 f2 fs2 hd
        cases hd
    · subst hst
      constructor
      · intro a2 ams2 r2 sa2 f2 fs2 hd
        cases hd
      · intro a2 ams2 r2 sa2 tb2 td2 f2 fs2 hd
        cases hd
        exact hpos
    · subst hst
      constructor
      · intro a2 ams2 r2 sa2 f2 fs2 hd
        cases hd
      · intro a2 ams2 r2 sa2 tb2 td2 f2 fs2 hd
        cases hd
    · subst hst
      constructor
      · intro a2 ams2 r2 sa2 f2 fs2 hd
        cases hd
      · intro a2 ams2 r2 sa2 tb2 td2 f2 fs2 hd
        cases hd
    · subst hst
      constructor
      · intro a2 ams2 r2 sa2 f2 fs2 hd
        cases hd
      · intro a2 ams2 r2 sa2 tb2 td2 f2 fs2 hd
        cases hd
  · subst hreg
    constructor
    · intro a2 ams2 r2 sa2 f2 fs2 hd
      cases hd
    · intro a2 ams2 r2 sa2 tb2 td2 f2 fs2 hd
      cases hd

theorem C4_no_nonpositive_amount_staged_witness :
    StateSvc.lookupSlot wT uA =
      some ⟨lit "payment", lit "confirm_send",
        .paymentSend 5 5000000 ⟨false, addrB, some (lit "John"), some uB, true, some 1⟩
          addrA 3000 (mkRat 3 1000), 10⟩ ∨
    ((∀ a ams r sa f fs,
        (⟨lit "payment", lit "confirm_send",
          .paymentSend 5 5000000 ⟨false, addrB, some (lit "John"), some uB, true, some 1⟩
            addrA 3000 (mkRat 3 1000), 10⟩ : ConvState).data = .paymentSend a ams r sa f fs →
        0 < a) ∧
     (∀ a ams r sa tb td f fs,
        (⟨lit "payment", lit "confirm_send",
          .paymentSend 5 5000000 ⟨false, addrB, some (lit "John"), some uB, true, some 1⟩
            addrA 3000 (mkRat 3 1000), 10⟩ : ConvState).data = .escrowCreate a ams r sa tb td f fs →
        0 < a)) :=
  C4_no_nonpositive_amount_staged envT wT uA (lit "send 5 to John") uA
    ⟨lit "payment", lit "confirm_send",
      .paymentSend 5 5000000 ⟨false, addrB, some (lit "John"), some uB, true, some 1⟩
        addrA 3000 (mkRat 3 1000), 10⟩ (by decide)

/-- C5: an active escrow whose timeout has not been reached
(`canRefund` answers `false`) cannot be refunded: the sender's
`refund escrow #3` is answered with the timeout-not-reached notice and
the world is completely unchanged (no state staged, escrow untouched);
and in general a `confirm_refund` state is staged only for the sender of
an escrow stored as `active` for which `canRefund` answers `true`. -/
theorem C5_refund_timeout (env2 : Env) :
    (∀ (env : Env) (w : World) (u : LC) (user : UserRow) (esc : EscrowRow),
      UserSvc.getByPhone w u = some user →
      StateSvc.getState w u = none →
      (EscrowSvc.getEscrowsByPhone w u .sender).find?
        (fun e => e.contractEscrowId = some 3) = some esc →
      esc.status = .active →
      env.contractCanRefund 3 = false →
      Webhook.processMessage env w u (lit "refund escrow #3") =
        (w, [.sent u (.refundTimeoutNotReached 3 esc.timeoutBlocks)])) ∧
    (∀ (w : World) (u msg u' : LC) (st' : ConvState),
      StateSvc.lookupSlot (Webhook.processMessage env2 w u msg).1 u' = some st' →
      st'.step = lit "confirm_refund" →
      StateSvc.lookupSlot w u' = some st' ∨
      (u' = u ∧ ∃ user id esc, UserSvc.getByPhone w u = some user ∧
        st'.data = .escrowAction id esc user.stxAddress ∧
        (EscrowSvc.getEscrowsByPhone w u .sender).find?
          (fun e => e.contractEscrowId = some id) = some esc ∧
        esc.status = .active ∧ EscrowSvc.canRefund env2 id = true)) := by
  constructor
  · intro env w u user esc hUser hState hFind hActive hCR
    have h3 : verbEscrowId (lit "refund") (lit "refund escrow #3") = some 3 := by decide
    simp +decide [Webhook.processMessage, EscrowH.handleMessage, EscrowH.route,
      EscrowH.handleRefundEscrow, Webhook.relayOrUnknown, Webhook.escrowShaped,
      EscrowSvc.canRefund, hUser, hState, hFind, hActive, hCR, h3]
  · intro w u msg u' st' h hstep
    rcases staging_characterization env2 w u msg u' st' h with h2 | ⟨hu, h2⟩
    · exact Or.inl h2
    right
    rcases h2 with ⟨user, hu2, hcase⟩ | hreg
    · rcases hcase with ⟨a, ams, r, sa, f, fs, hst, hpos⟩ |
        ⟨a, ams, r, sa, tb, td, f, fs, hst, hpos⟩ |
        ⟨id, esc, hst, _⟩ | ⟨id, esc, hst, hfind, hact, hcr⟩ | ⟨id, esc, hst, _⟩
      · subst hst
        simp +decide at hstep
      · subst hst
        simp +decide at hstep
      · subst hst
        simp +decide at hstep
      · subst hst
        exact ⟨hu, user, id, esc, hu2, rfl, hfind, hact, hcr⟩
      · subst hst
        simp +decide at hstep
    · subst hreg
      simp +decide at hstep

theorem C5_refund_timeout_witness :
    (Webhook.processMessage envT wR uA (lit "refund escrow #3") =
      (wR, [.sent uA (.refundTimeoutNotReached 3 escRow3.timeoutBlocks)])) ∧
    (StateSvc.lookupSlot wR uA =
        some ⟨lit "escrow", lit "confirm_refund", .escrowAction 3 escRow3 addrA, 10⟩ ∨
      (uA = uA ∧ ∃ user id esc, UserSvc.getByPhone wR uA = some user ∧
        (⟨lit "escrow", lit "confirm_refund", .escrowAction 3 escRow3 addrA, 10⟩ :
            ConvState).data = .escrowAction id esc user.stxAddress ∧
        (EscrowSvc.getEscrowsByPhone wR uA .sender).find?
          (fun e => e.contractEscrowId = some id) = some esc ∧
        esc.status = .active ∧ EscrowSvc.canRefund envY id = true)) :=
  ⟨(C5_refund_timeout envY).1 envT wR uA ⟨uA, addrA, some (lit "k1")⟩ escRow3
      (by decide) (by decide) (by decide) (by decide) (by decide),
   (C5_refund_timeout envY).2 wR uA (lit "refund escrow #3") uA
      ⟨lit "escrow", lit "confirm_refund", .escrowAction 3 escRow3 addrA, 10⟩
      (by decide) (by decide)⟩


/-- C2 counterexample: in `wB` the user holds an active (unexpired)
escrow `confirm_cancel` state, and `balance` is not a help/menu
command, yet `processMessage` answers with the payment balance report
and not with the escrow state flow's output: the raw text's command
shape decides the route before the active state is consulted. -/
theorem C2_counterexample :
    StateSvc.getState wB uA =
      some ⟨lit "escrow", lit "confirm_cancel", .escrowAction 1 escRow addrA, 10⟩ ∧
    Webhook.processMessage envT wB uA (lit "balance") =
      (wB, [.sent uA (.balanceInfo 10 0 addrA)]) ∧
    Webhook.processMessage envT wB uA (lit "balance") ≠
      Webhook.relayOrUnknown uA
        (EscrowH.handleStateFlow envT wB uA (lit "balance")
          ⟨lit "escrow", lit "confirm_cancel", .escrowAction 1 escRow addrA, 10⟩) := by
  refine ⟨by decide, by decide, by decide⟩

/-- C2 (amended): with an active conversation state, a non-help/menu,
non-register message reaches that state's yes/no flow only when the
text shape selects the same router, and otherwise bypasses the staged
state into the other router's command handling — all four directions
universally: a `payment`-state user's non-escrow-shaped message goes to
the payment state flow, and their escrow-shaped message goes to the
escrow router's command routing (the staged state never consulted); an
`escrow`-state user's escrow-shaped message goes to the escrow state
flow, and their non-escrow-shaped message goes to the payment router's
command routing. -/
theorem C2_state_routing_amended (env : Env) (w : World) (u msg : LC) (user : UserRow)
    (st : ConvState)
    (hUser : UserSvc.getByPhone w u = some user)
    (hState : StateSvc.getState w u = some st)
    (hHelp : ¬(jsLower (jsTrim msg) = lit "help" ∨ jsLower (jsTrim msg) = lit "menu"))
    (hReg : startsW (jsLower (jsTrim msg)) (lit "register") = false) :
    (st.handler = lit "payment" → Webhook.escrowShaped (jsLower (jsTrim msg)) = false →
      Webhook.processMessage env w u msg =
        Webhook.relayOrUnknown u (PaymentH.handleStateFlow env w u msg st)) ∧
    (st.handler = lit "escrow" → Webhook.escrowShaped (jsLower (jsTrim msg)) = true →
      Webhook.processMessage env w u msg =
        Webhook.relayOrUnknown u (EscrowH.handleStateFlow env w u msg st)) ∧
    (st.handler = lit "payment" → Webhook.escrowShaped (jsLower (jsTrim msg)) = true →
      Webhook.processMessage env w u msg =
        Webhook.relayOrUnknown u
          (EscrowH.route env w u msg (jsLower (jsTrim msg)) user)) ∧
    (st.handler = lit "escrow" → Webhook.escrowShaped (jsLower (jsTrim msg)) = false →
      Webhook.processMessage env w u msg =
        Webhook.relayOrUnknown u
          (PaymentH.route env w u msg (jsLower (jsTrim msg)) user)) := by
  refine ⟨?_, ?_, ?_, ?_⟩
  · intro hh hes
    simp +decide [Webhook.processMessage, PaymentH.handleMessage, hUser, hState, hHelp,
      hReg, hh, hes]
  · intro hh hes
    simp +decide [Webhook.processMessage, EscrowH.handleMessage, hUser, hState, hHelp,
      hReg, hh, hes]
  · intro hh hes
    simp +decide [Webhook.processMessage, EscrowH.handleMessage, hUser, hState, hHelp,
      hReg, hh, hes]
  · intro hh hes
    simp +decide [Webhook.processMessage, PaymentH.handleMessage, hUser, hState, hHelp,
      hReg, hh, hes]

theorem C2_state_routing_amended_witness :
    (Webhook.processMessage envT wT2 uA (lit "balance") =
      Webhook.relayOrUnknown uA
        (PaymentH.handleStateFlow envT wT2 uA (lit "balance")
          ⟨lit "payment", lit "confirm_send",
            .paymentSend 5 5000000 ⟨false, addrB, some (lit "John"), some uB, true, some 1⟩
              addrA 3000 (mkRat 3 1000), 10⟩)) ∧
    (Webhook.processMessage envT wB uA (lit "escrows") =
      Webhook.relayOrUnknown uA
        (EscrowH.handleStateFlow envT wB uA (lit "escrows")
          ⟨lit "escrow", lit "confirm_cancel", .escrowAction 1 escRow addrA, 10⟩)) ∧
    (Webhook.processMessage envT wT2 uA (lit "escrows") =
      Webhook.relayOrUnknown uA
        (EscrowH.route envT wT2 uA (lit "escrows")
          (jsLower (jsTrim (lit "escrows"))) ⟨uA, addrA, some (lit "k1")⟩)) ∧
    (Webhook.processMessage envT wB uA (lit "balance") =
      Webhook.relayOrUnknown uA
        (PaymentH.route envT wB uA (lit "balance")
          (jsLower (jsTrim (lit "balance"))) ⟨uA, addrA, some (lit "k1")⟩)) :=
  ⟨(C2_state_routing_amended envT wT2 uA (lit "balance") ⟨uA, addrA, some (lit "k1")⟩
      ⟨lit "payment", lit "confirm_send",
        .paymentSend 5 5000000 ⟨false, addrB, some (lit "John"), some uB, true, some 1⟩
          addrA 3000 (mkRat 3 1000), 10⟩
      (by decide) (by decide) (by decide) (by decide)).1 (by decide) (by decide),
   (C2_state_routing_amended envT wB uA (lit "escrows") ⟨uA, addrA, some (lit "k1")⟩
      ⟨lit "escrow", lit "confirm_cancel", .escrowAction 1 escRow addrA, 10⟩
      (by decide) (by decide) (by decide) (by decide)).2.1 (by decide) (by decide),
   (C2_state_routing_amended envT wT2 uA (lit "escrows") ⟨uA, addrA, some (lit "k1")⟩
      ⟨lit "payment", lit "confirm_send",
        .paymentSend 5 5000000 ⟨false, addrB, some (lit "John"), some uB, true, some 1⟩
          addrA 3000 (mkRat 3 1000), 10⟩
      (by decide) (by decide) (by decide) (by decide)).2.2.1 (by decide) (by decide),
   (C2_state_routing_amended envT wB uA (lit "balance") ⟨uA, addrA, some (lit "k1")⟩
      ⟨lit "escrow", lit "confirm_cancel", .escrowAction 1 escRow addrA, 10⟩
      (by decide) (by decide) (by decide) (by decide)).2.2.2 (by decide) (by decide)⟩


/-! ## Lemmas: how escrow rows can change in one step -/

theorem escrowRowsPreserved_of_eq (w w' : World) (h : w'.escrows = w.escrows) :
    escrowRowsPreserved w w' := by
  intro e' he'
  rw [h] at he'
  exact Or.inl he'

theorem escrowRowsPreserved_congr (w w1 w2 : World) (h : w2.escrows = w1.escrows)
    (hp : escrowRowsPreserved w w1) : escrowRowsPreserved w w2 := by
  intro e' he'
  rw [h] at he'
  exact hp e' he'

theorem escrowRowsPreserved_base_congr (w w1 w2 : World) (h : w1.escrows = w.escrows)
    (hp : escrowRowsPreserved w1 w2) : escrowRowsPreserved w w2 := by
  intro e' he'
  rcases hp e' he' with h2 | h2 | ⟨hterm, e, hel, hfe⟩
  · rw [h] at h2
    exact Or.inl h2
  · exact Or.inr (Or.inl h2)
  · rw [h] at hel
    exact Or.inr (Or.inr ⟨hterm, e, hel, hfe⟩)

theorem updateEscrowStatus_rows (w : World) (cid : Nat) (st : EscrowStatus)
    (tx : Option LC) (w2 : World)
    (hst : st = .released ∨ st = .refunded ∨ st = .cancelled)
    (h : EscrowSvc.updateEscrowStatus w cid st tx = .ok w2) :
    escrowRowsPreserved w w2 := by
  unfold EscrowSvc.updateEscrowStatus at h
  by_cases hc : w.escrows.any (fun e => e.contractEscrowId = some cid)
  · rw [if_pos hc] at h
    cases h
    intro e' he'
    rcases List.mem_map.mp he' with ⟨e, hel, hfe⟩
    by_cases hm : e.contractEscrowId = some cid
    · rw [if_pos hm] at hfe
      subst hfe
      refine Or.inr (Or.inr ⟨?_, e, hel, rfl⟩)
      exact hst
    · rw [if_neg hm] at hfe
      subst hfe
      exact Or.inl hel
  · rw [if_neg hc] at h
    simp at h

theorem createEscrow_rows (env : Env) (w : World) (sa ra : LC) (a : Int) (tb : Nat)
    (m sp : LC) (rp : Option LC) :
    escrowRowsPreserved w (EscrowSvc.createEscrow env w sa ra a tb m sp rp).2.1 := by
  simp only [EscrowSvc.createEscrow]
  split
  · exact escrowRowsPreserved_of_eq _ _ rfl
  · split
    · exact escrowRowsPreserved_of_eq _ _ rfl
    · split
      · exact escrowRowsPreserved_of_eq _ _ rfl
      · split
        · exact escrowRowsPreserved_of_eq _ _ rfl
        · intro e' he'
          rcases List.mem_append.mp he' with h2 | h2
          · exact Or.inl h2
          · simp at h2
            subst h2
            exact Or.inr (Or.inl rfl)

theorem releaseEscrow_rows (env : Env) (w : World) (cid : Nat) :
    escrowRowsPreserved w (EscrowSvc.releaseEscrow env w cid).2.1 := by
  simp only [EscrowSvc.releaseEscrow]
  split
  · exact escrowRowsPreserved_of_eq _ _ rfl
  · rcases hu : EscrowSvc.updateEscrowStatus { w with broadcasts := w.broadcasts + 1 } cid
        .released (some (env.txIdOf w.broadcasts)) with e | w2
    · exact escrowRowsPreserved_of_eq _ _ rfl
    · exact escrowRowsPreserved_base_congr w { w with broadcasts := w.broadcasts + 1 } w2 rfl
        (updateEscrowStatus_rows { w with broadcasts := w.broadcasts + 1 } cid _ _ w2
          (Or.inl rfl) hu)

theorem refundEscrow_rows (env : Env) (w : World) (cid : Nat) :
    escrowRowsPreserved w (EscrowSvc.refundEscrow env w cid).2.1 := by
  simp only [EscrowSvc.refundEscrow]
  split
  · exact escrowRowsPreserved_of_eq _ _ rfl
  · split
    · exact escrowRowsPreserved_of_eq _ _ rfl
    · rcases hu : EscrowSvc.updateEscrowStatus { w with broadcasts := w.broadcasts + 1 } cid
          .refunded (some (env.txIdOf w.broadcasts)) with e | w2
      · exact escrowRowsPreserved_of_eq _ _ rfl
      · exact escrowRowsPreserved_base_congr w { w with broadcasts := w.broadcasts + 1 } w2 rfl
          (updateEscrowStatus_rows { w with broadcasts := w.broadcasts + 1 } cid _ _ w2
            (Or.inr (Or.inl rfl)) hu)

theorem cancelEscrow_rows (env : Env) (w : World) (cid : Nat) :
    escrowRowsPreserved w (EscrowSvc.cancelEscrow env w cid).2.1 := by
  simp only [EscrowSvc.cancelEscrow]
  split
  · exact escrowRowsPreserved_of_eq _ _ rfl
  · rcases hu : EscrowSvc.updateEscrowStatus { w with broadcasts := w.broadcasts + 1 } cid
        .cancelled (some (env.txIdOf w.broadcasts)) with e | w2
    · exact escrowRowsPreserved_of_eq _ _ rfl
    · exact escrowRowsPreserved_base_congr w { w with broadcasts := w.broadcasts + 1 } w2 rfl
        (updateEscrowStatus_rows { w with broadcasts := w.broadcasts + 1 } cid _ _ w2
          (Or.inr (Or.inr rfl)) hu)


theorem sendTransaction_escrows (env : Env) (w : World) (sa sp ra : LC) (rp : Option LC)
    (a : Int) (m : LC) :
    (TxSvc.sendTransaction env w sa sp ra rp a m).2.1.escrows = w.escrows := by
  simp only [TxSvc.sendTransaction]
  repeat' split
  all_goals rfl

theorem userCreate_escrows (w : World) (p a : LC) (w2 : World)
    (h : UserSvc.create w p a = .ok w2) : w2.escrows = w.escrows := by
  unfold UserSvc.create at h
  by_cases h1 : w.users.any (fun u => u.phoneNumber = p)
  · rw [if_pos h1] at h
    simp at h
  · rw [if_neg h1] at h
    by_cases h2 : w.users.any (fun u => u.stxAddress = a)
    · rw [if_pos h2] at h
      simp at h
    · rw [if_neg h2] at h
      cases h
      rfl

theorem addContact_escrows (env : Env) (w : World) (p name addr : LC) (w2 : World) (n : LC)
    (h : ContactSvc.addContact env w p name addr = .ok (w2, n)) : w2.escrows = w.escrows := by
  simp only [ContactSvc.addContact] at h
  split at h
  · simp at h
  · split at h
    · simp at h
    · split at h
      · simp at h
      · cases h
        rfl

theorem executeSend_escrows (env : Env) (w : World) (phone : LC) (st : ConvState) :
    (PaymentH.executeSend env w phone st).2.1.escrows = w.escrows := by
  simp only [PaymentH.executeSend]
  split
  next x amount ams recipient sa f fs heq =>
    split
    · rfl
    next user =>
      split
      · rfl
      next key =>
        have hs := sendTransaction_escrows env w sa phone recipient.address
          (if recipient.isContact then recipient.phone else none) ams (lit "Payment via WhatsApp")
        split
        next e w1 ev htx =>
          rw [htx] at hs
          exact hs
        next txId w1 ev htx =>
          rw [htx] at hs
          split
          all_goals try split
          all_goals exact hs
  next x heq => rfl

theorem handleAddContact_escrows (env : Env) (w : World) (phone msg : LC) :
    (PaymentH.handleAddContact env w phone msg).2.1.escrows = w.escrows := by
  simp only [PaymentH.handleAddContact]
  split
  · rfl
  · split
    · rfl
    · split
      next e heq => rfl
      next w1 n heq => exact addContact_escrows _ _ _ _ _ _ _ heq

theorem handleSend_escrows (env : Env) (w : World) (phone msg : LC) (user : UserRow) :
    (PaymentH.handleSend env w phone msg user).2.1.escrows = w.escrows := by
  simp only [PaymentH.handleSend]
  repeat' split
  all_goals rfl

theorem paymentFlow_escrows (env : Env) (w : World) (phone msg : LC) (st : ConvState) :
    (PaymentH.handleStateFlow env w phone msg st).2.1.escrows = w.escrows := by
  simp only [PaymentH.handleStateFlow]
  split
  · split
    · exact executeSend_escrows env w phone st
    · split
      · rfl
      · rfl
  · rfl

theorem paymentRoute_escrows (env : Env) (w : World) (phone msg n : LC) (user : UserRow) :
    (PaymentH.route env w phone msg n user).2.1.escrows = w.escrows := by
  simp only [PaymentH.route]
  split
  · rfl
  · split
    · rfl
    · split
      · rfl
      · split
        · exact handleAddContact_escrows env w phone msg
        · split
          · exact handleSend_escrows env w phone msg user
          · rfl

theorem paymentH_escrows (env : Env) (w : World) (phone msg : LC) :
    (PaymentH.handleMessage env w phone msg).2.1.escrows = w.escrows := by
  simp only [PaymentH.handleMessage]
  split
  · rfl
  next user hu =>
    split
    next st hst =>
      split
      · exact paymentFlow_escrows env w phone msg st
      · exact paymentRoute_escrows env w phone msg _ user
    next hst => exact paymentRoute_escrows env w phone msg _ user

theorem completeRegistration_escrows (w : World) (phone msg : LC) :
    (RegH.completeRegistration w phone msg).2.1.escrows = w.escrows := by
  simp only [RegH.completeRegistration]
  split
  · rfl
  · split
    · rfl
    · split
      next e heq => rfl
      next w1 heq =>
        have hs := userCreate_escrows _ _ _ _ heq
        exact hs

theorem regH_escrows (w : World) (phone msg : LC) :
    (RegH.handleMessage w phone msg).2.1.escrows = w.escrows := by
  simp only [RegH.handleMessage]
  split
  · rfl
  · split
    next hst =>
      split
      next addr hreg => exact completeRegistration_escrows w phone addr
      next hreg => rfl
    next st hst => exact completeRegistration_escrows w phone msg

theorem executeCreateEscrow_rows (env : Env) (w : World) (phone : LC) (st : ConvState) :
    escrowRowsPreserved w (EscrowH.executeCreateEscrow env w phone st).2.1 := by
  simp only [EscrowH.executeCreateEscrow]
  split
  next x amount ams recipient sa tb td f fs heq =>
    split
    · exact escrowRowsPreserved_of_eq _ _ rfl
    next user =>
      split
      · exact escrowRowsPreserved_of_eq _ _ rfl
      next key =>
        have hs := createEscrow_rows env w sa recipient.address ams tb
          (lit "Escrow via WhatsApp - " ++ td) phone recipient.phone
        split
        next e w1 ev htx =>
          rw [htx] at hs
          exact escrowRowsPreserved_congr w w1 _ rfl hs
        next txId escrowId w1 ev htx =>
          rw [htx] at hs
          split
          all_goals try split
          all_goals exact escrowRowsPreserved_congr w w1 _ rfl hs
  next x heq => exact escrowRowsPreserved_of_eq _ _ rfl

theorem executeReleaseEscrow_rows (env : Env) (w : World) (phone : LC) (st : ConvState) :
    escrowRowsPreserved w (EscrowH.executeReleaseEscrow env w phone st).2.1 := by
  simp only [EscrowH.executeReleaseEscrow]
  split
  next x cid esc addr heq =>
    split
    · exact escrowRowsPreserved_of_eq _ _ rfl
    next user =>
      split
      · exact escrowRowsPreserved_of_eq _ _ rfl
      next key =>
        have hs := releaseEscrow_rows env w cid
        split
        all_goals rename_i w1 ev htx
        all_goals rw [htx] at hs
        all_goals exact escrowRowsPreserved_congr w w1 _ rfl hs
  next x heq => exact escrowRowsPreserved_of_eq _ _ rfl

theorem executeRefundEscrow_rows (env : Env) (w : World) (phone : LC) (st : ConvState) :
    escrowRowsPreserved w (EscrowH.executeRefundEscrow env w phone st).2.1 := by
  simp only [EscrowH.executeRefundEscrow]
  split
  next x cid esc addr heq =>
    split
    · exact escrowRowsPreserved_of_eq _ _ rfl
    next user =>
      split
      · exact escrowRowsPreserved_of_eq _ _ rfl
      next key =>
        have hs := refundEscrow_rows env w cid
        split
        all_goals rename_i w1 ev htx
        all_goals rw [htx] at hs
        all_goals exact escrowRowsPreserved_congr w w1 _ rfl hs
  next x heq => exact escrowRowsPreserved_of_eq _ _ rfl

theorem executeCancelEscrow_rows (env : Env) (w : World) (phone : LC) (st : ConvState) :
    escrowRowsPreserved w (EscrowH.executeCancelEscrow env w phone st).2.1 := by
  simp only [EscrowH.executeCancelEscrow]
  split
  next x cid esc addr heq =>
    split
    · exact escrowRowsPreserved_of_eq _ _ rfl
    next user =>
      split
      · exact escrowRowsPreserved_of_eq _ _ rfl
      next key =>
        have hs := cancelEscrow_rows env w cid
        split
        all_goals rename_i w1 ev htx
        all_goals rw [htx] at hs
        all_goals exact escrowRowsPreserved_congr w w1 _ rfl hs
  next x heq => exact escrowRowsPreserved_of_eq _ _ rfl

theorem escrowFlow_rows (env : Env) (w : World) (phone msg : LC) (st : ConvState) :
    escrowRowsPreserved w (EscrowH.handleStateFlow env w phone msg st).2.1 := by
  simp only [EscrowH.handleStateFlow]
  split
  · exact escrowRowsPreserved_of_eq _ _ rfl
  · split
    · exact escrowRowsPreserved_of_eq _ _ rfl
    · split
      · exact executeCreateEscrow_rows env w phone st
      · split
        · exact executeReleaseEscrow_rows env w phone st
        · split
          · exact executeRefundEscrow_rows env w phone st
          · split
            · exact executeCancelEscrow_rows env w phone st
            · exact escrowRowsPreserved_of_eq _ _ rfl

theorem escrowRoute_escrows (env : Env) (w : World) (phone msg n : LC) (user : UserRow) :
    (EscrowH.route env w phone msg n user).2.1.escrows = w.escrows := by
  simp only [EscrowH.route, EscrowH.handleCreateEscrow, EscrowH.handleReleaseEscrow,
    EscrowH.handleRefundEscrow, EscrowH.handleCancelEscrow, EscrowH.handleEscrowStatus,
    EscrowH.handleListEscrows]
  repeat' split
  all_goals rfl

theorem escrowH_rows (env : Env) (w : World) (phone msg : LC) :
    escrowRowsPreserved w (EscrowH.handleMessage env w phone msg).2.1 := by
  simp only [EscrowH.handleMessage]
  split
  · exact escrowRowsPreserved_of_eq _ _ rfl
  next user hu =>
    split
    next st hst =>
      split
      · exact escrowFlow_rows env w phone msg st
      · exact escrowRowsPreserved_of_eq _ _ (escrowRoute_escrows env w phone msg _ user)
    next hst => exact escrowRowsPreserved_of_eq _ _ (escrowRoute_escrows env w phone msg _ user)

theorem processMessage_rows (env : Env) (w : World) (u msg : LC) :
    escrowRowsPreserved w (Webhook.processMessage env w u msg).1 := by
  simp only [Webhook.processMessage]
  split
  · exact escrowRowsPreserved_of_eq _ _ rfl
  · split
    · rw [relayOnly_world]
      exact escrowRowsPreserved_of_eq _ _ (regH_escrows w u msg)
    · split
      · rw [relayOnly_world]
        exact escrowRowsPreserved_of_eq _ _ (regH_escrows w u msg)
      · split
        · rw [relayOrUnknown_world]
          exact escrowH_rows env w u msg
        · rw [relayOrUnknown_world]
          exact escrowRowsPreserved_of_eq _ _ (paymentH_escrows env w u msg)


/-- C6 counterexample: escrow #1 starts `active` in `wE`; the sender
stages a cancel confirmation, the recipient stages a release
confirmation, the recipient's `yes` sets the status to `released` (a
terminal status), and then the sender's stale `yes` overwrites the
terminal `released` with `cancelled`: the execute step never re-checks
the stored status. -/
theorem C6_terminal_status_overwritten :
    wE2.escrows.map EscrowRow.status = [.active] ∧
    wE3.escrows.map EscrowRow.status = [.released] ∧
    wE4.escrows.map EscrowRow.status = [.cancelled] := by
  refine ⟨by decide, by decide, by decide⟩

/-- C6 (amended): escrow rows are only ever inserted with status
`pending`, and a status update only ever writes one of the terminal
statuses `released`/`refunded`/`cancelled` over an existing row
(adjusting the release transaction id and nothing else); and a
release/refund/cancel confirmation is staged only for an escrow whose
stored status reads `active` at staging time.  (The execute step does
not re-check the stored status, so a stale staged confirmation can
overwrite one terminal status with another; see the counterexample.) -/
theorem C6_escrow_status_amended :
    (∀ (env : Env) (w : World) (u msg : LC),
      escrowRowsPreserved w (Webhook.processMessage env w u msg).1) ∧
    (∀ (env : Env) (w : World) (u msg u' : LC) (st' : ConvState),
      StateSvc.lookupSlot (Webhook.processMessage env w u msg).1 u' = some st' →
      st'.handler = lit "escrow" →
      (st'.step = lit "confirm_release" ∨ st'.step = lit "confirm_refund" ∨
       st'.step = lit "confirm_cancel") →
      StateSvc.lookupSlot w u' = some st' ∨
      (u' = u ∧ ∃ id esc addr, st'.data = .escrowAction id esc addr ∧
        esc ∈ w.escrows ∧ esc.status = .active)) := by
  constructor
  · exact processMessage_rows
  · intro env w u msg u' st' h hhandler hsteps
    rcases staging_characterization env w u msg u' st' h with h2 | ⟨hu, h2⟩
    · exact Or.inl h2
    right
    rcases h2 with ⟨user, hu2, hcase⟩ | hreg
    · rcases hcase with ⟨a, ams, r, sa, f, fs, hst, hpos⟩ |
        ⟨a, ams, r, sa, tb, td, f, fs, hst, hpos⟩ |
        ⟨id, esc, hst, hfind, hauth, hact⟩ | ⟨id, esc, hst, hfind, hact, hcr⟩ |
        ⟨id, esc, hst, hfind, hact⟩
      · subst hst
        simp +decide at hhandler
      · subst hst
        rcases hsteps with h3 | h3 | h3 <;> simp +decide at h3
      · subst hst
        simp only [EscrowSvc.getEscrowsByPhone] at hfind
        have hmem := List.mem_of_find?_eq_some hfind
        exact ⟨hu, id, esc, user.stxAddress, rfl, (List.mem_filter.mp hmem).1, hact⟩
      · subst hst
        simp only [EscrowSvc.getEscrowsByPhone] at hfind
        have hmem := List.mem_of_find?_eq_some hfind
        exact ⟨hu, id, esc, user.stxAddress, rfl, (List.mem_filter.mp hmem).1, hact⟩
      · subst hst
        simp only [EscrowSvc.getEscrowsByPhone] at hfind
        have hmem := List.mem_of_find?_eq_some hfind
        exact ⟨hu, id, esc, user.stxAddress, rfl, (List.mem_filter.mp hmem).1, hact⟩
    · subst hreg
      simp +decide at hhandler

theorem C6_escrow_status_amended_witness :
    escrowRowsPreserved wE2 (Webhook.processMessage envT wE2 uB (lit "yes")).1 ∧
    (StateSvc.lookupSlot wR uA =
        some ⟨lit "escrow", lit "confirm_refund", .escrowAction 3 escRow3 addrA, 10⟩ ∨
      (uA = uA ∧ ∃ id esc addr,
        (⟨lit "escrow", lit "confirm_refund", .escrowAction 3 escRow3 addrA, 10⟩ :
            ConvState).data = .escrowAction id esc addr ∧
        esc ∈ wR.escrows ∧ esc.status = .active)) :=
  ⟨C6_escrow_status_amended.1 envT wE2 uB (lit "yes"),
   C6_escrow_status_amended.2 envY wR uA (lit "refund escrow #3") uA
      ⟨lit "escrow", lit "confirm_refund", .escrowAction 3 escRow3 addrA, 10⟩
      (by decide) (by decide) (by decide)⟩


/-! ## Lemmas: the end-to-end send/confirm flow -/

theorem getByPhone_setState (w : World) (p h s : LC) (d : StateData) (q : LC) :
    UserSvc.getByPhone (StateSvc.setState w p h s d) q = UserSvc.getByPhone w q := rfl

theorem setState_transactions (w : World) (p h s : LC) (d : StateData) :
    (StateSvc.setState w p h s d).transactions = w.transactions := rfl

theorem setState_broadcasts (w : World) (p h s : LC) (d : StateData) :
    (StateSvc.setState w p h s d).broadcasts = w.broadcasts := rfl

theorem clearState_transactions (w : World) (p : LC) :
    (StateSvc.clearState w p).transactions = w.transactions := rfl

theorem getState_clearState_self (w : World) (p : LC) :
    StateSvc.getState (StateSvc.clearState w p) p = none := by
  unfold StateSvc.getState
  rw [lookupSlot_clearState_self]

theorem getState_setState_self (w : World) (p h s : LC) (d : StateData) :
    StateSvc.getState (StateSvc.setState w p h s d) p = some ⟨h, s, d, w.now + 10⟩ := by
  unfold StateSvc.getState
  rw [lookupSlot_setState, if_pos rfl]
  simp [StateSvc.setState]

/-- C1: for a registered user with a contact named John, sufficient
balance and no active state, `send 5 to John` stages the
payment/confirm_send state whose payload stores amount 5 and the
contact's address, and the follow-up `yes` broadcasts the transfer,
appends the `pending` transaction row, clears the state and sends the
success notice. -/
theorem C1_send_confirm_flow (env : Env) (w : World) (u k : LC) (user : UserRow)
    (c : ContactRow)
    (hUser : UserSvc.getByPhone w u = some user)
    (hKey : user.privateKey = some k)
    (hState : StateSvc.getState w u = none)
    (hContact : ContactSvc.getContactByName w u (lit "John") = some c)
    (hCP : c.contactPhone = none)
    (hBal : ¬(env.balanceStx user.stxAddress < 5 + env.feeMediumStx))
    (hSA : stacksIsValidAddress env.mainnet user.stxAddress = true)
    (hRA : stacksIsValidAddress env.mainnet c.contactStxAddress = true)
    (hBC : env.broadcastOk w.broadcasts = true) :
    Webhook.processMessage env w u (lit "send 5 to John") =
      (StateSvc.setState w u (lit "payment") (lit "confirm_send")
        (.paymentSend 5 (svcStxToMicro 5)
          ⟨false, c.contactStxAddress, some c.contactName, c.contactPhone, true, some c.id⟩
          user.stxAddress env.feeMedium env.feeMediumStx),
       [.sent u (.confirmPayment 5
          ⟨false, c.contactStxAddress, some c.contactName, c.contactPhone, true, some c.id⟩
          env.feeMediumStx)]) ∧
    StateSvc.getState (Webhook.processMessage env w u (lit "send 5 to John")).1 u =
      some ⟨lit "payment", lit "confirm_send",
        .paymentSend 5 (svcStxToMicro 5)
          ⟨false, c.contactStxAddress, some c.contactName, c.contactPhone, true, some c.id⟩
          user.stxAddress env.feeMedium env.feeMediumStx,
        w.now + 10⟩ ∧
    (Webhook.processMessage env (Webhook.processMessage env w u (lit "send 5 to John")).1
        u (lit "yes")).2 =
      [.sent u .processingPayment,
       .stxTransferBroadcast user.stxAddress c.contactStxAddress (svcStxToMicro 5),
       .sent u (.paymentSent 5 (some c.contactName) (env.txIdOf w.broadcasts))] ∧
    (Webhook.processMessage env (Webhook.processMessage env w u (lit "send 5 to John")).1
        u (lit "yes")).1.transactions =
      w.transactions ++ [⟨env.txIdOf w.broadcasts, u, none, user.stxAddress,
        c.contactStxAddress, svcStxToMicro 5, env.feeMedium,
        lit "Payment via WhatsApp", .pending⟩] ∧
    StateSvc.getState
      (Webhook.processMessage env (Webhook.processMessage env w u (lit "send 5 to John")).1
        u (lit "yes")).1 u = none := by
  have hm : sendMatch (lit "send 5 to John") = some (5, lit "John") := by decide
  have hJ : stacksIsValidAddress env.mainnet (lit "John") = false := by
    cases hb : env.mainnet
    · decide
    · decide
  have ht : jsTrim (lit "John") = lit "John" := by decide
  have hA : Webhook.processMessage env w u (lit "send 5 to John") =
      (StateSvc.setState w u (lit "payment") (lit "confirm_send")
        (.paymentSend 5 (svcStxToMicro 5)
          ⟨false, c.contactStxAddress, some c.contactName, c.contactPhone, true, some c.id⟩
          user.stxAddress env.feeMedium env.feeMediumStx),
       [.sent u (.confirmPayment 5
          ⟨false, c.contactStxAddress, some c.contactName, c.contactPhone, true, some c.id⟩
          env.feeMediumStx)]) := by
    simp +decide [Webhook.processMessage, PaymentH.handleMessage, PaymentH.route,
      PaymentH.handleSend, ContactSvc.resolveRecipient, Webhook.relayOrUnknown,
      hUser, hState, hContact, hBal, hm, ht, hJ]
  refine ⟨hA, ?_, ?_, ?_, ?_⟩
  · rw [hA]
    exact getState_setState_self w u (lit "payment") (lit "confirm_send") _
  · rw [hA]
    simp +decide [Webhook.processMessage, PaymentH.handleMessage, PaymentH.handleStateFlow,
      PaymentH.executeSend, TxSvc.sendTransaction, Webhook.relayOrUnknown,
      getByPhone_setState, getState_setState_self, setState_broadcasts, hUser, hKey, hCP,
      hSA, hRA, hBC]
  · rw [hA]
    simp +decide [Webhook.processMessage, PaymentH.handleMessage, PaymentH.handleStateFlow,
      PaymentH.executeSend, TxSvc.sendTransaction, Webhook.relayOrUnknown,
      getByPhone_setState, getState_setState_self, setState_broadcasts,
      setState_transactions, clearState_transactions, hUser, hKey, hCP, hSA, hRA, hBC]
  · rw [hA]
    simp +decide [Webhook.processMessage, PaymentH.handleMessage, PaymentH.handleStateFlow,
      PaymentH.executeSend, TxSvc.sendTransaction, Webhook.relayOrUnknown,
      getByPhone_setState, getState_setState_self, setState_broadcasts,
      getState_clearState_self, hUser, hKey, hCP, hSA, hRA, hBC]


theorem C1_send_confirm_flow_witness :
    Webhook.processMessage envT wC1 uA (lit "send 5 to John") =
      (StateSvc.setState wC1 uA (lit "payment") (lit "confirm_send")
        (.paymentSend 5 (svcStxToMicro 5)
          ⟨false, addrB, some (lit "John"), none, true, some 1⟩
          addrA envT.feeMedium envT.feeMediumStx),
       [.sent uA (.confirmPayment 5
          ⟨false, addrB, some (lit "John"), none, true, some 1⟩ envT.feeMediumStx)]) ∧
    StateSvc.getState (Webhook.processMessage envT wC1 uA (lit "send 5 to John")).1 uA =
      some ⟨lit "payment", lit "confirm_send",
        .paymentSend 5 (svcStxToMicro 5)
          ⟨false, addrB, some (lit "John"), none, true, some 1⟩
          addrA envT.feeMedium envT.feeMediumStx,
        wC1.now + 10⟩ ∧
    (Webhook.processMessage envT (Webhook.processMessage envT wC1 uA (lit "send 5 to John")).1
        uA (lit "yes")).2 =
      [.sent uA .processingPayment,
       .stxTransferBroadcast addrA addrB (svcStxToMicro 5),
       .sent uA (.paymentSent 5 (some (lit "John")) (envT.txIdOf wC1.broadcasts))] ∧
    (Webhook.processMessage envT (Webhook.processMessage envT wC1 uA (lit "send 5 to John")).1
        uA (lit "yes")).1.transactions =
      wC1.transactions ++ [⟨envT.txIdOf wC1.broadcasts, uA, none, addrA, addrB,
        svcStxToMicro 5, envT.feeMedium, lit "Payment via WhatsApp", .pending⟩] ∧
    StateSvc.getState
      (Webhook.processMessage envT (Webhook.processMessage envT wC1 uA (lit "send 5 to John")).1
        uA (lit "yes")).1 uA = none :=
  C1_send_confirm_flow envT wC1 uA (lit "k1") ⟨uA, addrA, some (lit "k1")⟩
    ⟨1, uA, lit "John", addrB, none⟩ (by decide) (by decide) (by decide) (by decide)
    (by decide) (by decide) (by decide) (by decide) (by decide)

theorem C3_funds_move_only_on_confirmed_yes_witness :
    jsLower (jsTrim (lit "yes")) = lit "yes" ∧
    (∃ st, StateSvc.getState wT2 uA = some st ∧
      ((st.handler = lit "payment" ∧ st.step = lit "confirm_send") ∨
       (st.handler = lit "escrow" ∧
        (st.step = lit "confirm_create" ∨ st.step = lit "confirm_release" ∨
         st.step = lit "confirm_refund" ∨ st.step = lit "confirm_cancel")))) ∧
    StateSvc.lookupSlot (Webhook.processMessage envT wT2 uA (lit "yes")).1 uA = none :=
  C3_funds_move_only_on_confirmed_yes envT wT2 uA (lit "yes")
    (Event.stxTransferBroadcast addrA addrB 5000000) (by decide) (by decide)

end StxBot

end RatKernelEval
